import Mathlib

/-!
# GO-CryptoPrice: the snapshot pipeline

A shallow embedding of `handlers/handlers.go` and `database/database.go`:
the volume ranking, the 5-minute candle clock, the CSV sink, the relational
sink and the `/api/db` accessor, together with the parts of the Go standard
library they rely on (`strconv.ParseFloat`, `sort.Slice`, `time`, `strings`).

Go strings are modelled as Lean strings read character by character; every
character the modelled functions recognise is ASCII.
-/

namespace CryptoPrice

/-! ## float64 -/

/-- An IEEE-754 binary64 value given by its sign bit, its biased exponent
(0..2047) and its 52-bit fraction. -/
structure Float64 where
  sign : Bool
  exp : Nat
  frac : Nat
deriving DecidableEq, Repr

namespace Float64

/-- Positive zero, the zero value of `float64`. -/
def zero : Float64 := ⟨false, 0, 0⟩

/-- The value of `math.Inf(sign)`. -/
def inf (neg : Bool) : Float64 := ⟨neg, 2047, 0⟩

/-- The value of `math.NaN()`, bit pattern `0x7FF8000000000001`. -/
def nan : Float64 := ⟨false, 2047, 2 ^ 51 + 1⟩

/-- Whether the value is a NaN: all exponent bits set and a non-zero fraction. -/
def isNaN (x : Float64) : Bool := x.exp == 2047 && x.frac != 0

/-- Whether the value is an infinity. -/
def isInf (x : Float64) : Bool := x.exp == 2047 && x.frac == 0

/-- Position of a non-NaN value in the numeric order: the magnitude bits,
negated for negative values (so that `-0` and `+0` coincide). -/
def key (x : Float64) : Int :=
  let m : Int := (x.exp * 2 ^ 52 + x.frac : Nat)
  if x.sign then -m else m

/-- The Go comparison `a > b` on `float64`: false as soon as one side is NaN. -/
def gt (a b : Float64) : Bool := !a.isNaN && !b.isNaN && decide (b.key < a.key)

/-- Magnitude of a finite value truncated toward zero to a whole number. -/
def truncMag (x : Float64) : Nat :=
  if x.exp = 0 then 0
  else if 1075 ≤ x.exp then (2 ^ 52 + x.frac) * 2 ^ (x.exp - 1075)
  else (2 ^ 52 + x.frac) / 2 ^ (1075 - x.exp)

/-- The Go conversion `int64(x)`: truncation toward zero. For NaN, infinities
and values outside the `int64` range the Go specification leaves the result to
the implementation; the amd64 result (`-2^63`) is used. -/
def toInt64 (x : Float64) : Int :=
  if x.exp ≥ 2047 then -(2 ^ 63)
  else
    let v : Int := if x.sign then -(x.truncMag : Int) else (x.truncMag : Int)
    if v < -(2 ^ 63) ∨ 2 ^ 63 ≤ v then -(2 ^ 63) else v

end Float64

/-! ## strconv.ParseFloat -/

/-- The two kinds of `*strconv.NumError` that `ParseFloat` returns. -/
inductive NumError where
  | ErrSyntax
  | ErrRange
deriving DecidableEq, Repr

/-- Go `'0' <= c && c <= '9'`. -/
def isDigit (c : Char) : Bool := decide (48 ≤ c.toNat) && decide (c.toNat ≤ 57)

/-- Numeric value of a decimal digit character. -/
def digitVal (c : Char) : Nat := c.toNat - 48

/-- Go `'a' <= lower(c) && lower(c) <= 'f'` with `lower(c) = c | 0x20`. -/
def isHexLetter (c : Char) : Bool :=
  (decide (97 ≤ c.toNat) && decide (c.toNat ≤ 102)) ||
  (decide (65 ≤ c.toNat) && decide (c.toNat ≤ 70))

/-- Numeric value of a hexadecimal letter: `lower(c) - 'a' + 10`. -/
def hexLetterVal (c : Char) : Nat :=
  if 97 ≤ c.toNat then c.toNat - 97 + 10 else c.toNat - 65 + 10

/-- ASCII lower-casing used by `commonPrefixLenIgnoreCase`. -/
def asciiLower (c : Char) : Char :=
  if 65 ≤ c.toNat ∧ c.toNat ≤ 90 then Char.ofNat (c.toNat + 32) else c

/-- The function `special` of `strconv`, restricted to inputs it consumes
entirely: an optionally signed `inf` / `infinity`, or an unsigned `nan`,
matched without regard to case. -/
def special (s : List Char) : Option Float64 :=
  let body (neg : Bool) (r : List Char) : Option Float64 :=
    let l := r.map asciiLower
    if l = "inf".data ∨ l = "infinity".data then some (Float64.inf neg) else none
  match s with
  | [] => none
  | c :: r =>
    if c = '+' then body false r
    else if c = '-' then body true r
    else if c = 'i' ∨ c = 'I' then body false s
    else if c = 'n' ∨ c = 'N' then
      (if s.map asciiLower = "nan".data then some Float64.nan else none)
    else none

/-- Accumulator of the mantissa loop of `readFloat`. `mant` holds all digits
read (the value the 19-digit accumulator and the `trunc` flag stand for),
`fracDigits` the number of digits read after the point. -/
structure Mantissa where
  mant : Nat
  fracDigits : Nat
  sawdot : Bool
  sawdigits : Bool
  underscores : Bool
deriving DecidableEq, Repr

/-- The mantissa loop of `readFloat`: returns the accumulator and the unread
rest of the input. -/
def scanMantissa (hex : Bool) : List Char → Mantissa → Mantissa × List Char
  | [], m => (m, [])
  | c :: cs, m =>
    if c = '_' then scanMantissa hex cs { m with underscores := true }
    else if c = '.' then
      if m.sawdot then (m, c :: cs) else scanMantissa hex cs { m with sawdot := true }
    else if isDigit c then
      scanMantissa hex cs
        { m with sawdigits := true
                 mant := m.mant * (if hex then 16 else 10) + digitVal c
                 fracDigits := if m.sawdot then m.fracDigits + 1 else m.fracDigits }
    else if hex && isHexLetter c then
      scanMantissa hex cs
        { m with sawdigits := true
                 mant := m.mant * 16 + hexLetterVal c
                 fracDigits := if m.sawdot then m.fracDigits + 1 else m.fracDigits }
    else (m, c :: cs)

/-- The exponent digit loop of `readFloat`: the exponent stops growing once it
has reached 10000. Returns the exponent, whether an underscore was seen, and
the unread rest. -/
def scanExponent : List Char → Nat → Bool → Nat × Bool × List Char
  | [], e, u => (e, u, [])
  | c :: cs, e, u =>
    if c = '_' then scanExponent cs e true
    else if isDigit c then scanExponent cs (if e < 10000 then e * 10 + digitVal c else e) u
    else (e, u, c :: cs)

/-- The scanning loop of `underscoreOK`; `saw` is the last character class
seen (`'0'`, `'_'`, `'!'` or `'^'`). -/
def underscoreLoop (hex : Bool) : List Char → Char → Bool
  | [], saw => saw != '_'
  | c :: cs, saw =>
    if isDigit c || (hex && isHexLetter c) then underscoreLoop hex cs '0'
    else if c = '_' then (if saw != '0' then false else underscoreLoop hex cs '_')
    else if saw = '_' then false
    else underscoreLoop hex cs '!'

/-- The function `underscoreOK` of `strconv`: underscores must separate digits. -/
def underscoreOK (s : List Char) : Bool :=
  let s1 := match s with
    | c :: r => if c = '-' ∨ c = '+' then r else s
    | [] => s
  match s1 with
  | a :: b :: r =>
    if a = '0' ∧ (b = 'b' ∨ b = 'B' ∨ b = 'o' ∨ b = 'O' ∨ b = 'x' ∨ b = 'X') then
      underscoreLoop (b = 'x' ∨ b = 'X') r '0'
    else underscoreLoop false s1 '^'
  | _ => underscoreLoop false s1 '^'

/-- What `readFloat` extracts from a well-formed prefix: the sign, the base,
all mantissa digits as a number, and the exponent of the base (10, or 2 for a
hexadecimal literal) that scales it. -/
structure ReadFloat where
  neg : Bool
  hex : Bool
  mant : Nat
  exp : Int
deriving DecidableEq, Repr

/-- The function `readFloat` of `strconv`: `none` when the input has no
well-formed floating-point prefix, otherwise the number read and the unread
rest of the input. -/
def readFloat (s : List Char) : Option (ReadFloat × List Char) :=
  match s with
  | [] => none
  | c0 :: r0 =>
    let neg := decide (c0 = '-')
    let s1 := if c0 = '+' ∨ c0 = '-' then r0 else s
    let hex := match s1 with
      | a :: b :: _ :: _ => decide (a = '0') && (decide (b = 'x') || decide (b = 'X'))
      | _ => false
    let s2 := if hex then s1.drop 2 else s1
    let (m, s3) := scanMantissa hex s2 ⟨0, 0, false, false, false⟩
    if !m.sawdigits then none
    else
      let scale : Int := if hex then -(4 * (m.fracDigits : Int)) else -(m.fracDigits : Int)
      let finish (exp : Int) (under : Bool) (rest : List Char) : Option (ReadFloat × List Char) :=
        if under && !underscoreOK (s.take (s.length - rest.length)) then none
        else some (⟨neg, hex, m.mant, exp⟩, rest)
      match s3 with
      | e :: s4 =>
        if (hex && (decide (e = 'p') || decide (e = 'P')))
            || (!hex && (decide (e = 'e') || decide (e = 'E'))) then
          match s4 with
          | [] => none
          | sg :: s5 =>
            let esign : Int := if sg = '-' then -1 else 1
            let s6 := if sg = '+' ∨ sg = '-' then s5 else s4
            match s6 with
            | [] => none
            | d :: _ =>
              if !isDigit d then none
              else
                let (ev, u, s7) := scanExponent s6 0 m.underscores
                finish (scale + (ev : Int) * esign) u s7
        else if hex then none
        else finish scale m.underscores s3
      | [] => if hex then none else finish scale m.underscores []

/-- Largest `e ≤ fuel` with `d * 2^e ≤ n`, counted upward from `e`. -/
def upExp : Nat → Nat → Nat → Nat → Nat
  | 0, _, _, e => e
  | fuel + 1, n, d, e => if 2 * d ≤ n then upExp fuel n (2 * d) (e + 1) else e

/-- Least `k ≤ fuel` with `d ≤ n * 2^k`, counted upward from `k`. -/
def downExp : Nat → Nat → Nat → Nat → Nat
  | 0, _, _, k => k
  | fuel + 1, n, d, k => if n < d then downExp fuel (2 * n) d (k + 1) else k

/-- Round-half-to-even quotient of `num / den`. -/
def roundHalfEven (num den : Nat) : Nat :=
  let q := num / den
  let r := num % den
  if den < 2 * r ∨ (2 * r = den ∧ q % 2 = 1) then q + 1 else q

/-- The nearest binary64 value to `±n/d` (IEEE-754 round to nearest, ties to
even), the rounding `ParseFloat` performs; the flag reports overflow, in which
case the value is the infinity of the same sign. -/
def roundToFloat64 (neg : Bool) (n d : Nat) : Float64 × Bool :=
  if n = 0 then (⟨neg, 0, 0⟩, false)
  else
    -- binary exponent of n/d, not below the smallest normal exponent
    let e : Int := if d ≤ n then (upExp 1025 n d 0 : Nat) else -((downExp 1022 n d 0 : Nat) : Int)
    let m0 :=
      if e ≤ 52 then roundHalfEven (n * 2 ^ (52 - e).toNat) d
      else roundHalfEven n (d * 2 ^ (e - 52).toNat)
    let (m, e1) := if 2 ^ 53 ≤ m0 then (2 ^ 52, e + 1) else (m0, e)
    if 1024 ≤ e1 then (Float64.inf neg, true)
    else if m < 2 ^ 52 then (⟨neg, 0, m⟩, false)
    else (⟨neg, (e1 + 1023).toNat, m - 2 ^ 52⟩, false)

/-- The call `strconv.ParseFloat(s, 64)`: the value and the error, if any.
A syntax error comes with the value 0, a range error with an infinity. -/
def ParseFloat (s : String) : Float64 × Option NumError :=
  match special s.data with
  | some v => (v, none)
  | none =>
    match readFloat s.data with
    | none => (Float64.zero, some .ErrSyntax)
    | some (r, rest) =>
      if rest ≠ [] then (Float64.zero, some .ErrSyntax)
      else
        let scaled : Nat × Nat :=
          let b : Nat := if r.hex then 2 else 10
          if 0 ≤ r.exp then (r.mant * b ^ r.exp.toNat, 1) else (r.mant, b ^ (-r.exp).toNat)
        match roundToFloat64 r.neg scaled.1 scaled.2 with
        | (v, true) => (v, some .ErrRange)
        | (v, false) => (v, none)


/-! ## Decoded JSON values -/

/-- A value decoded by `encoding/json` into `any`: `nil`, `bool`, `float64`,
`string`, `[]any` or `map[string]any`. A map is kept as the list of its
entries in the order a `range` loop visits them. -/
inductive JSON where
  | null
  | bool (b : Bool)
  | num (f : Float64)
  | str (s : String)
  | arr (xs : List JSON)
  | obj (kvs : List (String × JSON))

/-- Map indexing `m[k]`: the value stored under `k`, `none` for Go's `nil`
result on a missing key. -/
def mapGet (m : List (String × JSON)) (k : String) : Option JSON :=
  match m with
  | [] => none
  | (a, v) :: r => if a = k then some v else mapGet r k

/-! ## sort.Slice -/

/-- One pass of the inner loop of Go's `insertionSortLessFunc`: the new element
`x` is swapped toward the front while `less x y` holds for its left neighbour
`y`. The already processed prefix is held in reverse (nearest neighbour first). -/
def insertBack {α : Type} (less : α → α → Bool) (x : α) : List α → List α
  | [] => [x]
  | y :: r => if less x y then y :: insertBack less x r else x :: y :: r

/-- The call `sort.Slice(xs, less)`, as the insertion sort Go runs on short
slices (`insertionSortLessFunc`). On longer slices Go's pattern-defeating
quicksort returns a permutation that agrees with this one up to the order of
elements that `less` does not separate, provided `less` is a strict weak order. -/
def sortSlice {α : Type} (less : α → α → Bool) (xs : List α) : List α :=
  (xs.foldl (fun rev x => insertBack less x rev) []).reverse

/-! ## Ranking (`SaveDataToDB`, `createCSV`) -/

/-- The local type `pairVolume` of `SaveDataToDB`. -/
structure pairVolume where
  name : String
  volume : Float64
  data : List (String × JSON)

/-- The body of the ranking loop for one map entry: the nested type assertions
on `pairData`, `pairInfo["v"]` and `volumeData[1]`, then `ParseFloat`. Returns
the entry to append, or `none` when a check fails. -/
def volumeEntry (pairName : String) (pairData : JSON) : Option pairVolume :=
  match pairData with
  | .obj pairInfo =>
    match mapGet pairInfo "v" with
    | some (.arr volumeData) =>
      if volumeData.length > 1 then
        match volumeData.get? 1 with
        | some (.str volume24h) =>
          match ParseFloat volume24h with
          | (vol, none) => some ⟨pairName, vol, pairInfo⟩
          | (_, some _) => none
        | _ => none
      else none
    | _ => none
  | _ => none

/-- The loop `for pairName, pairData := range pairs` that fills `pairVolumes`. -/
def collectVolumes (pairs : List (String × JSON)) : List pairVolume :=
  pairs.filterMap (fun kv => volumeEntry kv.1 kv.2)

/-- The comparison passed to `sort.Slice`: `pairVolumes[i].volume > pairVolumes[j].volume`. -/
def volumeLess (a b : pairVolume) : Bool := a.volume.gt b.volume

/-- The slice `pairVolumes` after `sort.Slice`. -/
def rankedVolumes (pairs : List (String × JSON)) : List pairVolume :=
  sortSlice volumeLess (collectVolumes pairs)

/-- The entries visited by `for i := 0; i < len(pairVolumes) && i < 10; i++`. -/
def selectTop (pairs : List (String × JSON)) : List pairVolume :=
  (rankedVolumes pairs).take 10

/-- The slice `topPairs` built in `createCSV`. -/
def topPairs (pairs : List (String × JSON)) : List String :=
  (selectTop pairs).map (fun p => p.name)

/-! ## time -/

/-- A `*time.Location`: the offset east of UTC, in seconds, in effect at a
given Unix time. -/
abbrev Location := Int → Int

/-- The location `time.UTC`. -/
def UTC : Location := fun _ => 0

/-- A `time.Time`: an instant, in nanoseconds since the Unix epoch, and the
location it is presented in. -/
structure Time where
  unixNano : Int
  loc : Location

/-- Nanoseconds per second (`time.Second`). -/
def Second : Int := 1000000000

/-- The duration `time.Minute`. -/
def Minute : Int := 60 * Second

/-- Seconds from January 1, year 1 (the zero `time.Time`) to the Unix epoch:
the constant `unixToInternal` of package `time`. -/
def unixToInternal : Int := 62135596800

namespace Time

/-- The method `Time.Unix`: whole seconds since the Unix epoch. -/
def Unix (t : Time) : Int := t.unixNano / Second

/-- The method `Time.Truncate`: `t` rounded down to a multiple of `d` since the
zero time; `t` itself when `d ≤ 0`. The location is kept. -/
def Truncate (t : Time) (d : Int) : Time :=
  if d ≤ 0 then t
  else { t with unixNano := t.unixNano - (t.unixNano + unixToInternal * Second) % d }

/-- The method `Time.Equal`: same instant, whatever the locations. -/
def Equal (t u : Time) : Bool := decide (t.unixNano = u.unixNano)

/-- The method `Time.After`. -/
def After (t u : Time) : Bool := decide (u.unixNano < t.unixNano)

end Time

/-- The function `time.Unix(sec, 0)`, which presents the instant in the local
location. -/
def timeUnix (localLoc : Location) (sec : Int) : Time := ⟨sec * Second, localLoc⟩

/-- Days from 1970-01-01 to the given date of the proleptic Gregorian calendar. -/
def daysFromCivil (y m d : Int) : Int :=
  let y1 := if m ≤ 2 then y - 1 else y
  let era := y1 / 400
  let yoe := y1 - era * 400
  let mp := (m + 9) % 12
  let doy := (153 * mp + 2) / 5 + d - 1
  let doe := yoe * 365 + yoe / 4 - yoe / 100 + doy
  era * 146097 + doe - 719468

/-- Year, month and day of the proleptic Gregorian calendar for a number of
days since 1970-01-01. -/
def civilFromDays (z0 : Int) : Int × Int × Int :=
  let z := z0 + 719468
  let era := z / 146097
  let doe := z - era * 146097
  let yoe := (doe - doe / 1460 + doe / 36524 - doe / 146096) / 365
  let y := yoe + era * 400
  let doy := doe - (365 * yoe + yoe / 4 - yoe / 100)
  let mp := (5 * doy + 2) / 153
  let d := doy - (153 * mp + 2) / 5 + 1
  let m := if mp < 10 then mp + 3 else mp - 9
  (if m ≤ 2 then y + 1 else y, m, d)

/-- The function `isLeap` of package `time`. -/
def isLeap (year : Int) : Bool :=
  decide (year % 4 = 0) && (decide (year % 100 ≠ 0) || decide (year % 400 = 0))

/-- The function `daysIn` of package `time`. -/
def daysIn (month year : Int) : Int :=
  if month = 2 then (if isLeap year then 29 else 28)
  else if month = 4 ∨ month = 6 ∨ month = 9 ∨ month = 11 then 30
  else 31

/-- The fields `Time.Date` and `Time.Clock` return: the calendar date and the
time of day of the instant in the time's location. -/
structure Civil where
  year : Int
  month : Int
  day : Int
  hour : Int
  minute : Int
  second : Int
deriving DecidableEq, Repr

/-- Calendar fields of a time, read in its location. -/
def Time.civil (t : Time) : Civil :=
  let abs := t.Unix + t.loc t.Unix
  let ymd := civilFromDays (abs / 86400)
  let sod := abs % 86400
  ⟨ymd.1, ymd.2.1, ymd.2.2, sod / 3600, sod % 3600 / 60, sod % 60⟩

/-- The function `appendInt` of package `time`: a minus sign for a negative
number, then its decimal digits padded with zeros to `width`. -/
def appendInt (x : Int) (width : Nat) : List Char :=
  let ds := Nat.toDigits 10 x.natAbs
  (if x < 0 then ['-'] else []) ++ List.replicate (width - ds.length) '0' ++ ds

/-- The result of `t.Format("20060102")`. -/
def formatDate (t : Time) : String :=
  let c := t.civil
  ⟨appendInt c.year 4 ++ appendInt c.month 2 ++ appendInt c.day 2⟩

/-- The result of `t.Format("150405")`. -/
def formatClock (t : Time) : String :=
  let c := t.civil
  ⟨appendInt c.hour 2 ++ appendInt c.minute 2 ++ appendInt c.second 2⟩

/-- The result of `t.Format("2006-01-02 15:04:05")`. -/
def formatDateTime (t : Time) : String :=
  let c := t.civil
  ⟨appendInt c.year 4 ++ ['-'] ++ appendInt c.month 2 ++ ['-'] ++ appendInt c.day 2 ++ [' ']
    ++ appendInt c.hour 2 ++ [':'] ++ appendInt c.minute 2 ++ [':'] ++ appendInt c.second 2⟩

/-- The function `getnum` of package `time`: one or two leading digits, exactly
two when `fixed`. -/
def getnum (s : List Char) (fixed : Bool) : Option (Int × List Char) :=
  match s with
  | [] => none
  | c0 :: r =>
    if !isDigit c0 then none
    else
      match r with
      | c1 :: r2 =>
        if isDigit c1 then some ((digitVal c0 * 10 + digitVal c1 : Nat), r2)
        else if fixed then none else some ((digitVal c0 : Nat), r)
      | [] => if fixed then none else some ((digitVal c0 : Nat), r)

/-- Value of a run of decimal digits. -/
def digitsVal (ds : List Char) : Nat := ds.foldl (fun n c => n * 10 + digitVal c) 0

/-- The fractional-second special case of `time.Parse`: when the seconds are
followed by a comma or period and a digit, the digits are read as nanoseconds
(`parseNanoseconds`, which keeps at most nine of them). Returns the
nanoseconds and the unread rest. -/
def parseFraction (value : List Char) : Int × List Char :=
  match value with
  | c :: d :: r =>
    if (c = '.' ∨ c = ',') ∧ isDigit d then
      let ds := d :: r.takeWhile isDigit
      let kept := ds.take 9
      ((digitsVal kept * 10 ^ (9 - kept.length) : Nat), r.dropWhile isDigit)
    else (0, value)
  | _ => (0, value)

/-- The call `time.Parse("20060102150405", value)`: `none` when it returns an
error, otherwise the parsed time, in UTC. -/
def parseCompact (value : String) : Option Time :=
  let v := value.data
  if v.length < 4 then none
  else if !(v.take 4).all isDigit then none
  else
    let year : Int := (digitsVal (v.take 4) : Nat)
    match getnum (v.drop 4) true with
    | none => none
    | some (month, v1) =>
      if month ≤ 0 ∨ 12 < month then none
      else match getnum v1 true with
      | none => none
      | some (day, v2) =>
        match getnum v2 false with
        | none => none
        | some (hour, v3) =>
          if 24 ≤ hour then none
          else match getnum v3 true with
          | none => none
          | some (min, v4) =>
            if 60 ≤ min then none
            else match getnum v4 true with
            | none => none
            | some (sec, v5) =>
              if 60 ≤ sec then none
              else
                let (nsec, v6) := parseFraction v5
                if v6 ≠ [] then none
                else if day < 1 ∨ daysIn month year < day then none
                else some ⟨((daysFromCivil year month day * 86400 + hour * 3600 + min * 60 + sec)
                            * Second + nsec), UTC⟩

/-! ## strings, path/filepath -/

/-- Whether `p` is a prefix of `s`, on character lists. -/
def hasPrefixL : List Char → List Char → Bool
  | [], _ => true
  | _ :: _, [] => false
  | a :: p, b :: s => a == b && hasPrefixL p s

/-- The function `strings.HasPrefix`. -/
def HasPrefix (s pre : String) : Bool := hasPrefixL pre.data s.data

/-- The function `strings.HasSuffix`. -/
def HasSuffix (s suf : String) : Bool := hasPrefixL suf.data.reverse s.data.reverse

/-- The function `strings.TrimPrefix`. -/
def TrimPrefix (s pre : String) : String :=
  if HasPrefix s pre then ⟨s.data.drop pre.data.length⟩ else s

/-- The function `strings.TrimSuffix`. -/
def TrimSuffix (s suf : String) : String :=
  if HasSuffix s suf then ⟨s.data.take (s.data.length - suf.data.length)⟩ else s

/-- Splitting a character list at every occurrence of `sep`. -/
def splitL (sep : Char) : List Char → List (List Char)
  | [] => [[]]
  | c :: cs =>
    if c = sep then [] :: splitL sep cs
    else match splitL sep cs with
      | h :: t => (c :: h) :: t
      | [] => [[c]]

/-- The call `strings.Split(s, "_")`. -/
def SplitUnderscore (s : String) : List String := (splitL '_' s.data).map String.mk

/-- The part of a path after its last slash. -/
def baseL : List Char → List Char → List Char
  | [], acc => acc.reverse
  | c :: cs, acc => if c = '/' then baseL cs [] else baseL cs (c :: acc)

/-- The call `filepath.Join("csv", name)` for the name of a directory entry,
which `filepath.Clean` leaves as it is. -/
def joinCsv (name : String) : String := "csv/" ++ name

/-- The function `filepath.Base` on a path that does not end in a slash. -/
def Base (path : String) : String := ⟨baseL path.data []⟩

/-! ## The relational store (`database/database.go`, `models/models.go`) -/

/-- Go integer division by a positive constant, which truncates toward zero. -/
def quoTrunc (a b : Int) : Int := if a < 0 then -((-a) / b) else a / b

/-- The fractional part written by the layout element `.999999999`: nothing
for zero nanoseconds, otherwise a period and the nine digits without their
trailing zeros. -/
def appendNano (nanosec : Int) : List Char :=
  if nanosec = 0 then []
  else '.' :: ((appendInt nanosec 9).reverse.dropWhile (fun c => c == '0')).reverse

/-- The text the SQLite driver stores in a DATETIME column for a `time.Time`:
`t.Format("2006-01-02 15:04:05.999999999-07:00")`. -/
def sqliteTimestamp (t : Time) : String :=
  let offset := t.loc t.Unix
  let zone := quoTrunc offset 60
  let az := if zone < 0 then -zone else zone
  ⟨(formatDateTime t).data ++ appendNano (t.unixNano % Second)
    ++ [if zone < 0 then '-' else '+'] ++ appendInt (az / 60) 2 ++ [':'] ++ appendInt (az % 60) 2⟩

/-- The struct `models.ServerStatus`; the time is held as the store holds it. -/
structure ServerStatus where
  ID : Nat
  Timestamp : String
  Status : String
  Error : String
deriving DecidableEq, Repr

/-- The struct `models.TradingPair`; the time is held as the store holds it. -/
structure TradingPair where
  ID : Nat
  Name : String
  Base : String
  Quote : String
  LastUpdated : String
deriving DecidableEq, Repr

/-- The struct `models.PairInfo`; the time is held as the store holds it. -/
structure PairInfo where
  ID : Nat
  PairID : Nat
  Price : Float64
  Volume24h : Float64
  High24h : Float64
  Low24h : Float64
  Timestamp : String
deriving DecidableEq, Repr

/-- The struct `models.HistoricalData`; the time is held as the store holds it. -/
structure HistoricalData where
  ID : Nat
  PairID : Nat
  Timestamp : String
  Open : Float64
  High : Float64
  Low : Float64
  Close : Float64
  Volume : Float64
deriving DecidableEq, Repr

/-- The four tables created by `InitSchema`, each as the list of its rows in
insertion order. -/
structure Store where
  server_status : List ServerStatus
  trading_pairs : List TradingPair
  pair_info : List PairInfo
  historical_data : List HistoricalData
deriving DecidableEq, Repr

/-- The store right after `InitSchema` on a new database file. -/
def Store.empty : Store := ⟨[], [], [], []⟩

/-- The key `INTEGER PRIMARY KEY AUTOINCREMENT` assigns to a new row of a
table from which nothing is ever deleted: one more than the largest key. -/
def nextID (ids : List Nat) : Nat := ids.foldr max 0 + 1

/-- The method `DB.SaveServerStatus`. `fault` is the error of a failing write,
if the write fails. -/
def SaveServerStatus (fault : Option String) (db : Store) (timestamp status error : String) :
    Except String Store :=
  match fault with
  | some e => .error e
  | none =>
    .ok { db with server_status := db.server_status ++
            [⟨nextID (db.server_status.map (fun r => r.ID)), timestamp, status, error⟩] }

/-- The method `DB.SaveTradingPair`: a plain `INSERT`, rejected by the
constraint `UNIQUE(name, last_updated)` when the table already holds a row
with that name and time. On success the new row's key is returned (the value
written to `pair.ID`). -/
def SaveTradingPair (fault : Option String) (db : Store) (name base quote lastUpdated : String) :
    Except String (Store × Nat) :=
  match fault with
  | some e => .error e
  | none =>
    if db.trading_pairs.any (fun r => r.Name == name && r.LastUpdated == lastUpdated) then
      .error "UNIQUE constraint failed: trading_pairs.name, trading_pairs.last_updated"
    else
      let id := nextID (db.trading_pairs.map (fun r => r.ID))
      .ok ({ db with trading_pairs := db.trading_pairs ++ [⟨id, name, base, quote, lastUpdated⟩] }, id)

/-- The method `DB.SavePairInfo`. -/
def SavePairInfo (fault : Option String) (db : Store) (pairID : Nat)
    (price volume24h high24h low24h : Float64) (timestamp : String) : Except String Store :=
  match fault with
  | some e => .error e
  | none =>
    .ok { db with pair_info := db.pair_info ++
            [⟨nextID (db.pair_info.map (fun r => r.ID)), pairID, price, volume24h, high24h, low24h,
              timestamp⟩] }

/-- The method `DB.SaveHistoricalData`. -/
def SaveHistoricalData (fault : Option String) (db : Store) (pairID : Nat) (timestamp : String)
    (o h l c v : Float64) : Except String Store :=
  match fault with
  | some e => .error e
  | none =>
    .ok { db with historical_data := db.historical_data ++
            [⟨nextID (db.historical_data.map (fun r => r.ID)), pairID, timestamp, o, h, l, c, v⟩] }

/-- Byte-wise comparison of two texts (`memcmp` order), on character lists. -/
def textLtL : List Char → List Char → Bool
  | _, [] => false
  | [], _ :: _ => true
  | a :: as, b :: bs => decide (a.toNat < b.toNat) || (decide (a.toNat = b.toNat) && textLtL as bs)

/-- SQLite's comparison of two TEXT values under the default collation. -/
def textLt (a b : String) : Bool := textLtL a.data b.data

/-- The clause `ORDER BY <time column> DESC`: the stored texts are compared;
rows with equal texts stay in insertion order. -/
def orderByDesc {α : Type} (col : α → String) (rows : List α) : List α :=
  sortSlice (fun a b => textLt (col b) (col a)) rows

/-- The method `DB.GetTradingPairsFromDB`. -/
def GetTradingPairsFromDB (db : Store) : List TradingPair :=
  orderByDesc (fun r => r.LastUpdated) db.trading_pairs

/-- The method `DB.GetPairInfoFromDB`. -/
def GetPairInfoFromDB (db : Store) (pairID : Nat) : List PairInfo :=
  orderByDesc (fun r => r.Timestamp) (db.pair_info.filter (fun r => r.PairID == pairID))

/-- The method `DB.GetHistoricalDataFromDB`. -/
def GetHistoricalDataFromDB (db : Store) (pairID : Nat) : List HistoricalData :=
  orderByDesc (fun r => r.Timestamp) (db.historical_data.filter (fun r => r.PairID == pairID))

/-! ## `GET /api/db` -/

/-- The value stored under a pair's name in the response of `GetDBData`:
`gin.H{"pair_info": pair, "info": infos, "historical": historical}`. -/
structure DBEntry where
  pair_info : TradingPair
  info : List PairInfo
  historical : List HistoricalData
deriving DecidableEq, Repr

/-- The map assignment `m[k] = v`: the value under an existing key is
replaced, a new key is added. -/
def mapSet {β : Type} (m : List (String × β)) (k : String) (v : β) : List (String × β) :=
  match m with
  | [] => [(k, v)]
  | (a, w) :: r => if a = k then (a, v) :: r else (a, w) :: mapSet r k v

/-- The body of the `200 OK` response of `GetDBData`. -/
structure DBResponse where
  pairs : List (String × DBEntry)
  count : Nat
deriving DecidableEq, Repr

/-- The handler `GetDBData`, on a store whose queries succeed. -/
def GetDBData (db : Store) : DBResponse :=
  let pairs := GetTradingPairsFromDB db
  let result := pairs.foldl
    (fun result pair =>
      mapSet result pair.Name
        ⟨pair, GetPairInfoFromDB db pair.ID, GetHistoricalDataFromDB db pair.ID⟩)
    []
  ⟨result, pairs.length⟩

/-! ## The environment of a run -/

/-- Everything a run of the pipeline reads from outside: the clock, the
answers of the Kraken client (`kraken/client.go`) and the faults of the file
system and of the store. Each client answer is the decoded map or the error.
`createCSV` queries the client again, hence the separate `csv` answers. A
`Fault` field gives the error of a write that fails, `none` when it succeeds. -/
structure Env where
  localLoc : Location
  statusNow : Int
  now : Int
  GetServerStatus : Except String Unit
  GetTradingPairs : Except String (List (String × JSON))
  GetPairInfo : String → Except String (List (String × JSON))
  GetHistoricalData : String → Int → Int → Except String (List (String × JSON))
  csvGetTradingPairs : Except String (List (String × JSON))
  csvGetHistoricalData : String → Int → Int → Except String (List (String × JSON))
  mkdirFault : Option String
  createFault : Option String
  csvWriteFault : Nat → Option String
  statusFault : Option String
  pairFault : String → Option String
  infoFault : String → Option String
  historicalFault : String → Nat → Option String

/-- How a loop that looks for the candle of the bucket ends: no candle
matched, a candle matched, or a type assertion or index panicked. -/
inductive Found (α : Type) where
  | none
  | found (a : α)
  | panic

/-! ## The tabular sink (`createCSV`, `getLatestCSV`) -/

/-- A field of a CSV record: a literal text, or `fmt.Sprintf("%v", v)` of a
decoded value, kept as the value. -/
inductive Cell where
  | text (s : String)
  | value (v : JSON)

/-- An entry of the directory `csv`: its name, whether it is a directory, and
for a file the CSV records written to it. -/
structure File where
  name : String
  isDir : Bool
  records : List (List Cell)

/-- The directory `csv`: `none` while it does not exist. -/
abbrev CsvDir := Option (List File)

/-- The error values `createCSV` returns, each wrapping its cause. -/
inductive CsvError where
  | mkdirAll (cause : String)
  | create (cause : String)
  | writeHeader (cause : String)
  | getTradingPairs (cause : String)
  | writeRecord (cause : String)
deriving DecidableEq, Repr

/-- How a call ends: normally, with an error value, or with a panic. -/
inductive Outcome (ε : Type) where
  | ok
  | error (e : ε)
  | panic
deriving DecidableEq, Repr

/-- The prefix of every artifact name. -/
def csvPrefix : String := "top10_5min_highlow_"

/-- The name of the artifact of a candle inside the directory `csv`: the
`fmt.Sprintf` of `createCSV` without the leading `csv/`. -/
def csvName (lastCandleTime : Time) : String :=
  csvPrefix ++ formatDate lastCandleTime ++ "_" ++ formatClock lastCandleTime ++ ".csv"

/-- The variable `filename` of `createCSV`. -/
def csvFilename (targetTime : Time) : String :=
  "csv/" ++ csvName (targetTime.Truncate (5 * Minute))

/-- The header record of an artifact. -/
def csvHeader : List Cell :=
  [.text "Pair", .text "Timestamp", .text "Open", .text "High", .text "Low", .text "Close",
   .text "Volume"]

/-- The candle loop of `createCSV` for one pair: the record of the first
candle whose time equals `lastCandleTime`. -/
def findCandleCSV (localLoc : Location) (lastCandleTime : Time) (pair : String) :
    List JSON → Found (List Cell)
  | [] => .none
  | candle :: rest =>
    match candle with
    | .arr candleData =>
      match candleData.head? with
      | some (.num f) =>
        let candleTimestamp := timeUnix localLoc f.toInt64
        if candleTimestamp.Equal lastCandleTime then
          match candleData with
          | _ :: o :: h :: l :: c :: _ :: v :: _ =>
            .found [.text pair, .text (formatDateTime candleTimestamp),
                    .value o, .value h, .value l, .value c, .value v]
          | _ => .panic
        else findCandleCSV localLoc lastCandleTime pair rest
      | _ => .panic
    | _ => findCandleCSV localLoc lastCandleTime pair rest

/-- The loop `for _, pair := range topPairs` of `createCSV`; `recs` are the
records written so far. -/
def csvRows (env : Env) (lastCandleTime : Time) :
    List String → List (List Cell) → List (List Cell) × Outcome CsvError
  | [], recs => (recs, .ok)
  | pair :: rest, recs =>
    match env.csvGetHistoricalData pair 5 lastCandleTime.Unix with
    | .error _ => csvRows env lastCandleTime rest recs
    | .ok data =>
      match mapGet data "result" with
      | some (.obj result) =>
        match mapGet result pair with
        | some (.arr ohlc) =>
          if ohlc.length > 0 then
            match findCandleCSV env.localLoc lastCandleTime pair ohlc with
            | .panic => (recs, .panic)
            | .none => csvRows env lastCandleTime rest recs
            | .found record =>
              match env.csvWriteFault recs.length with
              | some e => (recs, .error (.writeRecord e))
              | none => csvRows env lastCandleTime rest (recs ++ [record])
          else csvRows env lastCandleTime rest recs
        | _ => csvRows env lastCandleTime rest recs
      | _ => csvRows env lastCandleTime rest recs

/-- What `createCSV` does once the file is open: the header, the ranking, the
rows. Returns the records written and how the call ends. -/
def csvBody (env : Env) (lastCandleTime : Time) : List (List Cell) × Outcome CsvError :=
  match env.csvWriteFault 0 with
  | some e => ([], .error (.writeHeader e))
  | none =>
    match env.csvGetTradingPairs with
    | .error e => ([csvHeader], .error (.getTradingPairs e))
    | .ok pairs => csvRows env lastCandleTime (topPairs pairs) [csvHeader]

/-- The call `os.Create`: the file is created, or truncated when it exists;
the call fails on a directory of that name. -/
def osCreate (fault : Option String) (files : List File) (name : String) :
    Except String (List File) :=
  match fault with
  | some e => .error e
  | none =>
    if files.any (fun f => f.name == name && f.isDir) then .error "is a directory"
    else .ok (files.filter (fun f => f.name != name) ++ [⟨name, false, []⟩])

/-- The records of the named file replaced by `recs`. -/
def setRecords (files : List File) (name : String) (recs : List (List Cell)) : List File :=
  files.map (fun f => if f.name = name then { f with records := recs } else f)

/-- The method `Handler.createCSV`: the directory afterwards and how the call
ends. -/
def createCSV (env : Env) (dir : CsvDir) (targetTime : Time) : CsvDir × Outcome CsvError :=
  let lastCandleTime := targetTime.Truncate (5 * Minute)
  match env.mkdirFault with
  | some e => (dir, .error (.mkdirAll e))
  | none =>
    let files := dir.getD []
    match osCreate env.createFault files (csvName lastCandleTime) with
    | .error e => (some files, .error (.create e))
    | .ok files1 =>
      let (recs, out) := csvBody env lastCandleTime
      (some (setRecords files1 (csvName lastCandleTime) recs), out)

/-- The call `os.ReadDir("csv")`: the entries sorted by name, `none` when the
directory does not exist. -/
def ReadDir (dir : CsvDir) : Option (List File) :=
  dir.map (sortSlice (fun a b => textLt a.name b.name))

/-- The time `getLatestCSV` reads from a file name: prefix and `.csv` removed,
the rest split at `_` into exactly two parts, which are parsed together. -/
def csvFileTime (name : String) : Option Time :=
  match SplitUnderscore (TrimSuffix (TrimPrefix name csvPrefix) ".csv") with
  | [dateStr, timeStr] => parseCompact (dateStr ++ timeStr)
  | _ => none

/-- The zero `time.Time`, January 1, year 1, 00:00 UTC. -/
def zeroTime : Time := ⟨-(unixToInternal * Second), UTC⟩

/-- One iteration of the loop of `getLatestCSV` over the directory entries;
the state is the pair `(latestFile, latestTime)`. -/
def latestStep (acc : String × Time) (file : File) : String × Time :=
  if !file.isDir && HasSuffix file.name ".csv" then
    match csvFileTime file.name with
    | none => acc
    | some fileTime =>
      if acc.1 = "" ∨ fileTime.After acc.2 then (file.name, fileTime) else acc
  else acc

/-- The method `Handler.getLatestCSV`: the path of the artifact with the
latest time in its name, `none` when it returns an error. -/
def getLatestCSV (dir : CsvDir) : Option String :=
  match ReadDir dir with
  | none => none
  | some files =>
    let latestFile := (files.foldl latestStep ("", zeroTime)).1
    if latestFile = "" then none else some (joinCsv latestFile)

/-! ## The pipeline (`SaveDataToDB`) -/

/-- How a part of the body of the pair loop ends: control falls through to the
next statement, a `continue` moves on to the next pair, or a type assertion or
index panics. The store is the one at that point. -/
inductive Step where
  | next (db : Store)
  | skip (db : Store)
  | panic (db : Store)

/-- The expression `v.([]any)[i].(string)`, `none` when it panics. -/
def stringAt (v : Option JSON) (i : Nat) : Option String :=
  match v with
  | some (.arr xs) =>
    match xs.get? i with
    | some (.str s) => some s
    | _ => none
  | _ => none

/-- The ticker-detail part of the pair loop: `GetPairInfo`, the extraction of
the four figures and `SavePairInfo`. -/
def pairInfoStep (env : Env) (db : Store) (name : String) (pairID : Nat)
    (lastCandleTime : Time) : Step :=
  match env.GetPairInfo name with
  | .error _ => .skip db
  | .ok info =>
    match mapGet info name with
    | some (.obj pairInfo) =>
      match stringAt (mapGet pairInfo "c") 0, stringAt (mapGet pairInfo "v") 1,
            stringAt (mapGet pairInfo "h") 1, stringAt (mapGet pairInfo "l") 1 with
      | some c, some v, some h, some l =>
        match SavePairInfo (env.infoFault name) db pairID (ParseFloat c).1 (ParseFloat v).1
                (ParseFloat h).1 (ParseFloat l).1 (sqliteTimestamp lastCandleTime) with
        | .error _ => .skip db
        | .ok db1 => .next db1
      | _, _, _, _ => .panic db
    | _ => .next db

/-- The candle loop of `SaveDataToDB` for one pair; `i` is the index of the
head of the list in the series. A failed insert moves on to the next candle,
a successful one ends the loop. -/
def candleLoop (env : Env) (name : String) (pairID : Nat) (lastCandleTime : Time) :
    Nat → List JSON → Store → Step
  | _, [], db => .next db
  | i, candle :: rest, db =>
    match candle with
    | .arr candleData =>
      match candleData.head? with
      | some (.num f) =>
        let candleTimestamp := timeUnix env.localLoc f.toInt64
        if candleTimestamp.Equal lastCandleTime then
          match candleData with
          | _ :: .str o :: .str h :: .str l :: .str c :: _ :: .str v :: _ =>
            match SaveHistoricalData (env.historicalFault name i) db pairID
                    (sqliteTimestamp candleTimestamp) (ParseFloat o).1 (ParseFloat h).1
                    (ParseFloat l).1 (ParseFloat c).1 (ParseFloat v).1 with
            | .error _ => candleLoop env name pairID lastCandleTime (i + 1) rest db
            | .ok db1 => .next db1
          | _ => .panic db
        else candleLoop env name pairID lastCandleTime (i + 1) rest db
      | _ => .panic db
    | _ => candleLoop env name pairID lastCandleTime (i + 1) rest db

/-- The historical-candle part of the pair loop: `GetHistoricalData` and the
candle loop. -/
def historicalStep (env : Env) (db : Store) (name : String) (pairID : Nat)
    (lastCandleTime : Time) : Step :=
  match env.GetHistoricalData name 5 lastCandleTime.Unix with
  | .error _ => .skip db
  | .ok historical =>
    match mapGet historical "result" with
    | some (.obj result) =>
      match mapGet result name with
      | some (.arr ohlc) =>
        if ohlc.length > 0 then candleLoop env name pairID lastCandleTime 0 ohlc db
        else .next db
      | _ => .next db
    | _ => .next db

/-- The loop `for i := 0; i < len(pairVolumes) && i < 10; i++` of
`SaveDataToDB` over the entries it visits: the store afterwards and whether
the loop panicked. -/
def relationalSink (env : Env) (lastCandleTime : Time) : List pairVolume → Store → Store × Bool
  | [], db => (db, false)
  | pv :: rest, db =>
    match mapGet pv.data "base", mapGet pv.data "quote" with
    | some (.str base), some (.str quote) =>
      match SaveTradingPair (env.pairFault pv.name) db pv.name base quote
              (sqliteTimestamp lastCandleTime) with
      | .error _ => relationalSink env lastCandleTime rest db
      | .ok (db1, pairID) =>
        match pairInfoStep env db1 pv.name pairID lastCandleTime with
        | .panic db2 => (db2, true)
        | .skip db2 => relationalSink env lastCandleTime rest db2
        | .next db2 =>
          match historicalStep env db2 pv.name pairID lastCandleTime with
          | .panic db3 => (db3, true)
          | .skip db3 => relationalSink env lastCandleTime rest db3
          | .next db3 => relationalSink env lastCandleTime rest db3
    | _, _ => (db, true)

/-- A line `SaveDataToDB` prints about the tabular sink. -/
inductive LogLine where
  | sameCandle
  | csvError (e : CsvError)
  | newCSV (candle : String)
  | firstCSV (candle : String)
deriving DecidableEq, Repr

/-- The tabular part of `SaveDataToDB`: the idempotence guard around
`createCSV`. Returns the directory afterwards, the line printed (none when
`createCSV` panics) and whether `createCSV` panicked. -/
def csvStep (env : Env) (dir : CsvDir) (now lastCandleTime : Time) :
    CsvDir × Option LogLine × Bool :=
  let create (first : Bool) : CsvDir × Option LogLine × Bool :=
    match createCSV env dir now with
    | (dir1, .panic) => (dir1, none, true)
    | (dir1, .error e) => (dir1, some (.csvError e), false)
    | (dir1, .ok) =>
      (dir1, some (if first then .firstCSV (formatDateTime lastCandleTime)
                   else .newCSV (formatDateTime lastCandleTime)), false)
  match getLatestCSV dir with
  | some lastCSV =>
    let lastCSVDate := TrimSuffix (TrimPrefix (Base lastCSV) csvPrefix) ".csv"
    match parseCompact lastCSVDate with
    | some lastCSVTime =>
      if lastCSVTime.Equal lastCandleTime then (dir, some .sameCandle, false)
      else create false
    | none => create false
  | none => create true

/-- What persists from one run to the next: the store, the directory `csv`
and the lines printed so far. -/
structure World where
  db : Store
  csv : CsvDir
  stdout : List LogLine

/-- The world of a fresh installation: empty tables, no directory `csv`. -/
def World.init : World := ⟨Store.empty, none, []⟩

/-- The method `Handler.SaveDataToDB`: the world afterwards and how the run
ends. -/
def SaveDataToDB (env : Env) (w : World) : World × Outcome String :=
  match env.GetServerStatus with
  | .error e => (w, .error e)
  | .ok _ =>
    let err : Option String := none
    let errorJSON := match err with
      | some e => "[\"" ++ e ++ "\"]"
      | none => "[]"
    match SaveServerStatus env.statusFault w.db
            (sqliteTimestamp ⟨env.statusNow, env.localLoc⟩) "online" errorJSON with
    | .error e => (w, .error e)
    | .ok db1 =>
      match env.GetTradingPairs with
      | .error e => ({ w with db := db1 }, .error e)
      | .ok pairs =>
        let now : Time := ⟨env.now, env.localLoc⟩
        let lastCandleTime := now.Truncate (5 * Minute)
        match csvStep env w.csv now lastCandleTime with
        | (dir1, _, true) => (⟨db1, dir1, w.stdout⟩, .panic)
        | (dir1, line, false) =>
          let out := w.stdout ++ line.toList
          match relationalSink env lastCandleTime (selectTop pairs) db1 with
          | (db2, true) => (⟨db2, dir1, out⟩, .panic)
          | (db2, false) => (⟨db2, dir1, out⟩, .ok)

/-- A sequence of runs, one after the other, whatever way each one ends. -/
def runs (envs : List Env) (w : World) : World :=
  envs.foldl (fun w env => (SaveDataToDB env w).1) w


/-! ## Predicates and sample inputs used by the theorems -/

/-- The Go comparison `a >= b` on `float64`. -/
def Float64.ge (a b : Float64) : Bool := !a.isNaN && !b.isNaN && decide (b.key ≤ a.key)

/-- A map entry passes the checks of the ranking loop: it is a record whose
field `v` is an array with a string at index 1 that `ParseFloat` accepts, with
value `vol`. -/
def ParsedVolume (pairData : JSON) (pairInfo : List (String × JSON)) (vol : Float64) : Prop :=
  ∃ volumeData s, pairData = .obj pairInfo ∧ mapGet pairInfo "v" = some (.arr volumeData) ∧
    volumeData.get? 1 = some (.str s) ∧ ParseFloat s = (vol, none)

/-- A ticker record with the given 24h volume field and string-valued `base`
and `quote`. -/
def ticker (volume24h : JSON) : JSON :=
  .obj [("base", .str "XBT"), ("quote", .str "USD"), ("v", .arr [.str "0", volume24h])]

/-- A ticker map with a NaN volume, in an order the `range` loop can take. -/
def nanTickers : List (String × JSON) :=
  [("A", ticker (.str "1")), ("B", ticker (.str "NaN")), ("C", ticker (.str "2"))]

/-- The ticker map of the partial-failure scenario: `XBTUSD` has the volume
string `"123.45"`, the volume of `BADPAIR` is a number, not a string. -/
def partialFailureTickers : List (String × JSON) :=
  [("XBTUSD", ticker (.str "123.45")), ("BADPAIR", ticker (.num (ParseFloat "7").1))]


/-- The `float64` a JSON integer decodes to. -/
def jsonInt (n : Int) : JSON := .num (roundToFloat64 (decide (n < 0)) n.natAbs 1).1

/-- A Kraken OHLC candle `[time, open, high, low, close, vwap, volume, count]`. -/
def candleAt (ts : Int) (o : String) : JSON :=
  .arr [jsonInt ts, .str o, .str "42100.0", .str "41900.0", .str "42050.0", .str "42010.0",
        .str "12.5", jsonInt 7]

/-- An OHLC answer for `name` with candles at `since - 300`, `since` and
`since + 300`. -/
def sampleOHLC (name : String) (since : Int) : List (String × JSON) :=
  [("error", .arr []),
   ("result", .obj [(name, .arr [candleAt (since - 300) "41000.0", candleAt since "42000.0",
                                 candleAt (since + 300) "43000.0"]),
                    ("last", jsonInt since)])]

/-- A ticker answer that holds a record under the pair name. -/
def sampleTicker (name : String) : List (String × JSON) :=
  [(name, .obj [("c", .arr [.str "42000.5", .str "0.1"]), ("v", .arr [.str "1.5", .str "123.45"]),
                ("h", .arr [.str "42100.0", .str "42200.0"]),
                ("l", .arr [.str "41900.0", .str "41800.0"])])]

/-- An environment in which every call succeeds: the clock reads `now`
(nanoseconds, UTC), the only pair is `XBTUSD`, and every OHLC answer holds the
candle of the requested time and its two neighbours. -/
def sampleEnv (now : Int) : Env :=
  { localLoc := UTC, statusNow := now, now := now,
    GetServerStatus := .ok (),
    GetTradingPairs := .ok [("XBTUSD", ticker (.str "123.45"))],
    GetPairInfo := fun name => .ok (sampleTicker name),
    GetHistoricalData := fun name _ since => .ok (sampleOHLC name since),
    csvGetTradingPairs := .ok [("XBTUSD", ticker (.str "123.45"))],
    csvGetHistoricalData := fun name _ since => .ok (sampleOHLC name since),
    mkdirFault := none, createFault := none, csvWriteFault := fun _ => none,
    statusFault := none, pairFault := fun _ => none, infoFault := fun _ => none,
    historicalFault := fun _ _ => none }

/-- The instant 2024-01-01T00:07:30Z, in nanoseconds since the Unix epoch. -/
def t0730 : Int := 1704067650 * Second

/-- The instant 2024-01-01T00:08:00Z, in the same 5-minute bucket. -/
def t0800 : Int := 1704067680 * Second

/-- The instant 2024-01-01T00:12:30Z, in the next bucket. -/
def t1230 : Int := 1704067950 * Second

/-- The names and record counts of the files of the directory `csv`. -/
def csvListing (dir : CsvDir) : List (String × Nat) :=
  (dir.getD []).map (fun f => (f.name, f.records.length))

/-- The store a step ends with. -/
def Step.db : Step → Store
  | .next db => db
  | .skip db => db
  | .panic db => db

/-- The pair a CSV record is about: the text of its first field. -/
def recordPair (record : List Cell) : Option String :=
  match record with
  | .text s :: _ => some s
  | _ => none

/-- The uniqueness invariant of the store, with the facts that carry it from
one insert to the next: one `trading_pairs` row per (name, last_updated),
distinct keys, at most one `pair_info` row and one `historical_data` row per
trading-pair key, and child rows that refer to existing keys. -/
def StoreInv (db : Store) : Prop :=
  (db.trading_pairs.map (fun r => (r.Name, r.LastUpdated))).Nodup ∧
  (db.trading_pairs.map (fun r => r.ID)).Nodup ∧
  (db.pair_info.map (fun r => r.PairID)).Nodup ∧
  (db.historical_data.map (fun r => r.PairID)).Nodup ∧
  (∀ r ∈ db.pair_info, r.PairID ∈ db.trading_pairs.map (fun r => r.ID)) ∧
  (∀ r ∈ db.historical_data, r.PairID ∈ db.trading_pairs.map (fun r => r.ID))

/-- Every table of `db` is an initial segment of the same table of `db1`:
rows were only appended. -/
def Store.Extends (db1 db : Store) : Prop :=
  db.server_status <+: db1.server_status ∧ db.trading_pairs <+: db1.trading_pairs ∧
  db.pair_info <+: db1.pair_info ∧ db.historical_data <+: db1.historical_data

/-- The sample environment with a ticker-detail fetch that fails. -/
def detailFailEnv (now : Int) : Env :=
  { sampleEnv now with GetPairInfo := fun _ => .error "timeout" }

/-- The ranked entry of the sample pair `XBTUSD`. -/
def samplePair : pairVolume :=
  ⟨"XBTUSD", (ParseFloat "123.45").1,
    [("base", .str "XBT"), ("quote", .str "USD"), ("v", .arr [.str "0", .str "123.45"])]⟩

/-- The bucket 2024-01-01T00:05:00Z of the sample runs. -/
def sampleBucket : Time := Time.Truncate ⟨t0730, UTC⟩ (5 * Minute)

/-- The local type `pairVolume` that `GetTradingPairs` and `createCSV` each
declare: a name and a volume, without the payload kept by `SaveDataToDB`. -/
structure nameVolume where
  name : String
  volume : Float64
deriving DecidableEq, Repr

/-- The body of the ranking loop of the handler `GetTradingPairs` for one map
entry. -/
def apiVolumeEntry (pairName : String) (pairData : JSON) : Option nameVolume :=
  match pairData with
  | .obj pairInfo =>
    match mapGet pairInfo "v" with
    | some (.arr volumeData) =>
      if volumeData.length > 1 then
        match volumeData.get? 1 with
        | some (.str volume24h) =>
          match ParseFloat volume24h with
          | (vol, none) => some ⟨pairName, vol⟩
          | (_, some _) => none
        | _ => none
      else none
    | _ => none
  | _ => none

/-- The slice `pairVolumes` of the handler `GetTradingPairs` after
`sort.Slice`. -/
def apiRankedVolumes (pairs : List (String × JSON)) : List nameVolume :=
  sortSlice (fun a b => a.volume.gt b.volume)
    (pairs.filterMap (fun kv => apiVolumeEntry kv.1 kv.2))

/-- The body of the `200 OK` response of the handler `GetTradingPairs`. -/
structure PairsResponse where
  pairs : List (String × JSON)
  count : Nat

/-- The handler `GetTradingPairs`, given the map its client call returned (in
the order its `range` loop visits it): the first 10 ranked names are entered
into the map `topPairs` with their payloads `pairs[name]`, and `count` is the
size of that map. -/
def GetTradingPairs (pairs : List (String × JSON)) : PairsResponse :=
  let pairVolumes := apiRankedVolumes pairs
  let topPairs := (pairVolumes.take 10).foldl
    (fun topPairs pv => mapSet topPairs pv.name ((mapGet pairs pv.name).getD .null)) []
  ⟨topPairs, topPairs.length⟩

/-- The body of the ranking loop of `createCSV` for one map entry. -/
def csvVolumeEntry (pairName : String) (pairData : JSON) : Option nameVolume :=
  match pairData with
  | .obj pairInfo =>
    match mapGet pairInfo "v" with
    | some (.arr volumeData) =>
      if volumeData.length > 1 then
        match volumeData.get? 1 with
        | some (.str volume24h) =>
          match ParseFloat volume24h with
          | (vol, none) => some ⟨pairName, vol⟩
          | (_, some _) => none
        | _ => none
      else none
    | _ => none
  | _ => none

/-- The slice `topPairs` of `createCSV`, from its own copy of the ranking:
collect, `sort.Slice`, the first 10 names. -/
def csvTopPairs (pairs : List (String × JSON)) : List String :=
  ((sortSlice (fun a b => a.volume.gt b.volume)
      (pairs.filterMap (fun kv => csvVolumeEntry kv.1 kv.2))).take 10).map (fun p => p.name)

/-- The name and volume of a ranked entry of `SaveDataToDB`. -/
def pairVolume.forget (p : pairVolume) : nameVolume := ⟨p.name, p.volume⟩

/-- Three tickers with the volumes 3, 2 and 1. -/
def tickerA : String × JSON := ("AAAUSD", ticker (.str "3"))

/-- The second of the three tickers. -/
def tickerB : String × JSON := ("BBBUSD", ticker (.str "2"))

/-- The third of the three tickers. -/
def tickerC : String × JSON := ("CCCUSD", ticker (.str "1"))

/-! ## The periodic trigger (`StartAutoSave`) -/

/-- A ticker map with three well-formed entries, whose volumes 1, 3 and 2 are
not in order. -/
def threeTickers : List (String × JSON) :=
  [("CCCUSD", ticker (.str "1")), ("AAAUSD", ticker (.str "3")), ("BBBUSD", ticker (.str "2"))]

/-- The text of a CSV field that is a literal or the `%v` of a string. -/
def cellString : Cell → Option String
  | .text s => some s
  | .value (.str s) => some s
  | .value _ => none

/-- The files of the directory `csv`, each with the texts of its records. -/
def csvTexts (dir : CsvDir) : List (String × List (List (Option String))) :=
  (dir.getD []).map (fun f => (f.name, f.records.map (fun r => r.map cellString)))

/-- A candle whose time, `1704067500.5`, lies half a second after the bucket
2024-01-01T00:05:00Z. -/
def halfSecondCandle : JSON :=
  .arr [.num (ParseFloat "1704067500.5").1, .str "42000.0", .str "42100.0", .str "41900.0",
        .str "42050.0", .str "42010.0", .str "12.5", jsonInt 7]

/-- The sample environment with OHLC answers that hold that candle only. -/
def halfSecondEnv (now : Int) : Env :=
  { sampleEnv now with
    GetHistoricalData := fun name _ _ =>
      .ok [("error", .arr []), ("result", .obj [(name, .arr [halfSecondCandle])])],
    csvGetHistoricalData := fun name _ _ =>
      .ok [("error", .arr []), ("result", .obj [(name, .arr [halfSecondCandle])])] }

/-- The sample environment with OHLC answers that hold the two neighbours of
the requested candle, not the candle itself. -/
def neighboursEnv (now : Int) : Env :=
  { sampleEnv now with
    GetHistoricalData := fun name _ since =>
      .ok [("error", .arr []),
           ("result", .obj [(name, .arr [candleAt (since - 300) "41000.0",
                                         candleAt (since + 300) "43000.0"])])],
    csvGetHistoricalData := fun name _ since =>
      .ok [("error", .arr []),
           ("result", .obj [(name, .arr [candleAt (since - 300) "41000.0",
                                         candleAt (since + 300) "43000.0"])])] }

/-- The store of the sample run after the insert of the pair `XBTUSD`. -/
def samplePairStore : Store :=
  { Store.empty with
    trading_pairs := [⟨1, "XBTUSD", "XBT", "USD", "2024-01-01 00:05:00+00:00"⟩] }

/-- The store of the sample run after the ticker-detail part of the pair. -/
def sampleInfoStore : Store :=
  (pairInfoStep (sampleEnv t0730) samplePairStore "XBTUSD" 1 sampleBucket).db

/-! # Theorems -/

/-! ## Ranking (C3, C5) -/

theorem volumeEntry_eq_some_iff (n : String) (d : JSON) (e : pairVolume) :
    volumeEntry n d = some e ↔ ∃ pairInfo vol, ParsedVolume d pairInfo vol ∧ e = ⟨n, vol, pairInfo⟩ := by
  unfold volumeEntry ParsedVolume
  constructor
  · intro h
    split at h <;> try simp at h
    split at h <;> try simp at h
    split at h <;> try simp at h
    split at h <;> try simp at h
    obtain ⟨_, rfl⟩ := h
    rename_i pd pi x2 vd hv x1 s hs x0 vol hp hlen
    exact ⟨pi, vol, ⟨vd, s, rfl, hv, by simpa using hs, hp⟩, rfl⟩
  · rintro ⟨pairInfo, vol, ⟨volumeData, s, rfl, hv, hs, hp⟩, rfl⟩
    rcases volumeData with _ | ⟨a, _ | ⟨b, r⟩⟩
    · simp at hs
    · simp at hs
    · simp at hs
      subst hs
      simp [hv, hp]

theorem insertBack_perm {α : Type} (less : α → α → Bool) (x : α) (l : List α) :
    (insertBack less x l).Perm (x :: l) := by
  induction l with
  | nil => simp [insertBack]
  | cons y r ih =>
    unfold insertBack
    split
    · exact (List.Perm.cons y ih).trans (List.Perm.swap x y r)
    · exact List.Perm.refl _

theorem foldl_insertBack_perm {α : Type} (less : α → α → Bool) (xs acc : List α) :
    (xs.foldl (fun rev x => insertBack less x rev) acc).Perm (xs ++ acc) := by
  induction xs generalizing acc with
  | nil => simp
  | cons x xs ih =>
    simp only [List.foldl_cons, List.cons_append]
    refine (ih _).trans ?_
    exact (List.Perm.append_left xs (insertBack_perm less x acc)).trans List.perm_middle

theorem sortSlice_perm {α : Type} (less : α → α → Bool) (xs : List α) :
    (sortSlice less xs).Perm xs := by
  unfold sortSlice
  refine (List.reverse_perm _).trans ?_
  simpa using foldl_insertBack_perm less xs []

theorem insertBack_sorted {α : Type} (less : α → α → Bool) (k : α → Int) (x : α) (l : List α)
    (hless : ∀ y ∈ l, less x y = decide (k y < k x))
    (hl : l.Pairwise (fun a b => k a ≤ k b)) :
    (insertBack less x l).Pairwise (fun a b => k a ≤ k b) := by
  induction l with
  | nil => simp [insertBack]
  | cons y r ih =>
    unfold insertBack
    have hy := hless y (List.mem_cons_self _ _)
    rw [List.pairwise_cons] at hl
    split
    · rename_i h
      rw [hy] at h
      have hlt : k y < k x := by simpa using h
      rw [List.pairwise_cons]
      refine ⟨?_, ih (fun z hz => hless z (List.mem_cons_of_mem _ hz)) hl.2⟩
      intro z hz
      rcases List.mem_cons.mp ((insertBack_perm less x r).mem_iff.mp hz) with h1 | h1
      · subst h1; omega
      · exact hl.1 z h1
    · rename_i h
      rw [hy] at h
      have hle : k x ≤ k y := by simpa using h
      rw [List.pairwise_cons]
      refine ⟨?_, List.pairwise_cons.mpr hl⟩
      intro z hz
      rcases List.mem_cons.mp hz with h1 | h1
      · subst h1; exact hle
      · exact le_trans hle (hl.1 z h1)

theorem foldl_insertBack_sorted {α : Type} (less : α → α → Bool) (k : α → Int) (xs acc : List α)
    (hless : ∀ a ∈ xs ++ acc, ∀ b ∈ xs ++ acc, less a b = decide (k b < k a))
    (hacc : acc.Pairwise (fun a b => k a ≤ k b)) :
    (xs.foldl (fun rev x => insertBack less x rev) acc).Pairwise (fun a b => k a ≤ k b) := by
  induction xs generalizing acc with
  | nil => simpa using hacc
  | cons x xs ih =>
    simp only [List.foldl_cons]
    apply ih
    · intro a ha b hb
      apply hless
      · rcases List.mem_append.mp ha with h | h
        · simp [h]
        · have := (insertBack_perm less x acc).mem_iff.mp h
          simp at this ⊢; tauto
      · rcases List.mem_append.mp hb with h | h
        · simp [h]
        · have := (insertBack_perm less x acc).mem_iff.mp h
          simp at this ⊢; tauto
    · apply insertBack_sorted less k x acc _ hacc
      intro y hy
      exact hless x (by simp) y (by simp [hy])

theorem sortSlice_sorted {α : Type} (less : α → α → Bool) (k : α → Int) (xs : List α)
    (hless : ∀ a ∈ xs, ∀ b ∈ xs, less a b = decide (k b < k a)) :
    (sortSlice less xs).Pairwise (fun a b => k b ≤ k a) := by
  unfold sortSlice
  rw [List.pairwise_reverse]
  exact foldl_insertBack_sorted less k xs [] (by simpa using hless) List.Pairwise.nil

theorem mem_collectVolumes (pairs : List (String × JSON)) (e : pairVolume) :
    e ∈ collectVolumes pairs ↔
      ∃ pairData, (e.name, pairData) ∈ pairs ∧ ParsedVolume pairData e.data e.volume := by
  unfold collectVolumes
  rw [List.mem_filterMap]
  constructor
  · rintro ⟨⟨n, d⟩, hmem, h⟩
    obtain ⟨pairInfo, vol, hp, rfl⟩ := (volumeEntry_eq_some_iff n d e).mp h
    exact ⟨d, hmem, hp⟩
  · rintro ⟨d, hmem, hp⟩
    exact ⟨(e.name, d), hmem, (volumeEntry_eq_some_iff e.name d e).mpr ⟨e.data, e.volume, hp, rfl⟩⟩

theorem mem_selectTop_imp (pairs : List (String × JSON)) (e : pairVolume)
    (h : e ∈ selectTop pairs) : e ∈ collectVolumes pairs :=
  (sortSlice_perm volumeLess (collectVolumes pairs)).mem_iff.mp (List.mem_of_mem_take h)

theorem value_unique_of_nodup_keys {β : Type} (l : List (String × β)) (h : (l.map Prod.fst).Nodup)
    (k : String) (v w : β) (hv : (k, v) ∈ l) (hw : (k, w) ∈ l) : v = w := by
  induction l with
  | nil => simp at hv
  | cons p r ih =>
    simp only [List.map_cons, List.nodup_cons, List.mem_map, not_exists, not_and] at h
    rcases List.mem_cons.mp hv with h1 | h1 <;> rcases List.mem_cons.mp hw with h2 | h2
    · rw [← h1] at h2; exact (Prod.mk.inj h2).2.symm
    · exact absurd (by rw [← h1]) (h.1 (k, w) h2)
    · exact absurd (by rw [← h2]) (h.1 (k, v) h1)
    · exact ih h.2 h1 h2

/-- C3 (ranking), as the code has it. For every raw ticker map the selection
has at most 10 entries and every entry is a pair of the input whose 24h volume
string `ParseFloat` accepted; when none of the accepted volumes is NaN, the
entries are ordered non-increasing by volume. -/
theorem ranking_selection (pairs : List (String × JSON)) :
    (selectTop pairs).length ≤ 10 ∧
    (∀ e ∈ selectTop pairs,
      ∃ pairData, (e.name, pairData) ∈ pairs ∧ ParsedVolume pairData e.data e.volume) ∧
    ((∀ e ∈ collectVolumes pairs, e.volume.isNaN = false) →
      (selectTop pairs).Pairwise (fun a b => a.volume.ge b.volume = true)) := by
  refine ⟨?_, ?_, ?_⟩
  · simp [selectTop, List.length_take]
  · intro e he
    exact (mem_collectVolumes pairs e).mp (mem_selectTop_imp pairs e he)
  · intro hnan
    have hs : (rankedVolumes pairs).Pairwise (fun a b => b.volume.key ≤ a.volume.key) := by
      apply sortSlice_sorted volumeLess (fun p => p.volume.key)
      intro a ha b hb
      simp [volumeLess, Float64.gt, hnan a ha, hnan b hb]
    have hs2 := List.Pairwise.sublist (List.take_sublist 10 _) hs
    have hmem : ∀ e ∈ selectTop pairs, e.volume.isNaN = false :=
      fun e he => hnan e (mem_selectTop_imp pairs e he)
    unfold selectTop at hmem ⊢
    refine List.Pairwise.imp_of_mem ?_ hs2
    intro a b ha hb hab
    simp [Float64.ge, hmem a ha, hmem b hb, hab]

/-- Witness for C3: a map of three entries without NaN, whose volumes 1, 3, 2
are visited out of order; the selection holds the three of them by decreasing
volume. -/
theorem ranking_selection_witness :
    (selectTop threeTickers).map (fun e => e.name) = ["AAAUSD", "BBBUSD", "CCCUSD"] ∧
    (selectTop threeTickers).map (fun e => e.volume)
      = [(ParseFloat "3").1, (ParseFloat "2").1, (ParseFloat "1").1] ∧
    (∀ e ∈ collectVolumes threeTickers, e.volume.isNaN = false) ∧
    (selectTop threeTickers).Pairwise (fun a b => a.volume.ge b.volume = true) :=
  ⟨by decide, by decide, by decide, (ranking_selection threeTickers).2.2 (by decide)⟩

/-- C3 as stated fails: with the volume strings `"1"`, `"NaN"`, `"2"` visited
in this order, all three parse, the sort leaves them in place, and the
selection is not ordered: the last volume is greater than the first. -/
theorem ranking_not_ordered_with_nan :
    (selectTop nanTickers).map (fun e => e.name) = ["A", "B", "C"] ∧
    (selectTop nanTickers).map (fun e => e.volume)
      = [(ParseFloat "1").1, Float64.nan, (ParseFloat "2").1] ∧
    (ParseFloat "2").1.gt (ParseFloat "1").1 = true ∧
    ¬ (selectTop nanTickers).Pairwise (fun a b => a.volume.ge b.volume = true) := by
  decide

/-- C5 (partial-failure tolerance of ranking). Ranking is a total function of
the ticker map: it returns a selection and no error. An entry that fails a
shape check or whose volume string does not parse is not selected, and when at
most 10 entries pass, every entry that passes is selected. In the scenario of
the specification `XBTUSD` is selected and `BADPAIR` is not. -/
theorem partial_failure_tolerance (pairs : List (String × JSON))
    (hkeys : (pairs.map Prod.fst).Nodup) :
    (∀ name pairData, (name, pairData) ∈ pairs →
      (¬ ∃ pairInfo vol, ParsedVolume pairData pairInfo vol) → name ∉ topPairs pairs) ∧
    ((collectVolumes pairs).length ≤ 10 →
      ∀ name pairData pairInfo vol, (name, pairData) ∈ pairs →
        ParsedVolume pairData pairInfo vol → name ∈ topPairs pairs) ∧
    topPairs partialFailureTickers = ["XBTUSD"] := by
  refine ⟨?_, ?_, by decide⟩
  · intro name pairData hmem hbad hsel
    obtain ⟨e, he, rfl⟩ := List.mem_map.mp hsel
    obtain ⟨d, hd, hp⟩ := (mem_collectVolumes pairs e).mp (mem_selectTop_imp pairs e he)
    have : d = pairData := value_unique_of_nodup_keys pairs hkeys e.name d pairData hd hmem
    subst this
    exact hbad ⟨e.data, e.volume, hp⟩
  · intro hlen name pairData pairInfo vol hmem hp
    have he : (⟨name, vol, pairInfo⟩ : pairVolume) ∈ collectVolumes pairs :=
      (mem_collectVolumes pairs _).mpr ⟨pairData, hmem, hp⟩
    have hr : (⟨name, vol, pairInfo⟩ : pairVolume) ∈ rankedVolumes pairs :=
      (sortSlice_perm volumeLess (collectVolumes pairs)).mem_iff.mpr he
    have hl : (rankedVolumes pairs).length ≤ 10 := by
      rw [rankedVolumes, (sortSlice_perm volumeLess (collectVolumes pairs)).length_eq]
      exact hlen
    have : selectTop pairs = rankedVolumes pairs := List.take_of_length_le hl
    exact List.mem_map.mpr ⟨_, this ▸ hr, rfl⟩

/-- Witness for C5: the scenario of the specification. -/
theorem partial_failure_tolerance_witness :
    (partialFailureTickers.map Prod.fst).Nodup ∧
    "BADPAIR" ∉ topPairs partialFailureTickers ∧
    "XBTUSD" ∈ topPairs partialFailureTickers :=
  ⟨by decide,
   (partial_failure_tolerance partialFailureTickers (by decide)).1 "BADPAIR"
      (ticker (.num (ParseFloat "7").1)) (by simp [partialFailureTickers])
      (by
        rintro ⟨pairInfo, vol, volumeData, s, h1, h2, h3, _⟩
        simp only [ticker, JSON.obj.injEq] at h1
        subst h1
        simp [mapGet] at h2
        subst h2
        simp at h3),
   (partial_failure_tolerance partialFailureTickers (by decide)).2.1 (by decide) "XBTUSD"
      (ticker (.str "123.45"))
      [("base", .str "XBT"), ("quote", .str "USD"), ("v", .arr [.str "0", .str "123.45"])]
      (ParseFloat "123.45").1 (by simp [partialFailureTickers])
      ⟨[.str "0", .str "123.45"], "123.45", rfl, by simp [mapGet], by simp, by decide⟩⟩

/-! ## The candle clock and the artifact name (C2, C6) -/

theorem truncate_five_minutes (t : Time) :
    (t.Truncate (5 * Minute)).Unix % 300 = 0 ∧
    (t.Truncate (5 * Minute)).unixNano = (t.Truncate (5 * Minute)).Unix * Second ∧
    (t.Truncate (5 * Minute)).unixNano ≤ t.unixNano ∧
    t.unixNano < (t.Truncate (5 * Minute)).unixNano + 300 * Second := by
  simp only [Time.Truncate, Time.Unix, Minute, Second, unixToInternal]
  norm_num
  omega

/-- C2 (bucket alignment). For every instant `t`, the bucket the pipeline
computes, `t.Truncate(5 * time.Minute)`, is a whole number of seconds, its Unix
timestamp is divisible by 300, and `bucket ≤ t < bucket + 300s`. -/
theorem bucket_alignment (t : Time) :
    (t.Truncate (5 * Minute)).Unix % 300 = 0 ∧
    (t.Truncate (5 * Minute)).unixNano = (t.Truncate (5 * Minute)).Unix * Second ∧
    (t.Truncate (5 * Minute)).unixNano ≤ t.unixNano ∧
    t.unixNano < (t.Truncate (5 * Minute)).unixNano + 300 * Second := by
  simp only [Time.Truncate, Time.Unix, Minute, Second, unixToInternal]
  norm_num
  omega

theorem Truncate_loc (t : Time) (d : Int) : (t.Truncate d).loc = t.loc := by
  unfold Time.Truncate
  split <;> rfl

/-- C6 (artifact naming). For every instant `t` taken in UTC, with `c` the
calendar fields of the bucket of `t`: the file `createCSV` opens is
`csv/top10_5min_highlow_<YYYYMMDD>_<HHMMSS>.csv` built from `c`; `c` is the
date and time of day of the bucket (seconds zero, minutes a multiple of five);
when neither `MkdirAll` nor `Create` fails, the directory afterwards holds a
file of that name; and for `t = 2024-01-01T00:07:30Z` the bucket is
`2024-01-01T00:05:00Z` and the name `top10_5min_highlow_20240101_000500.csv`. -/
theorem artifact_naming (ns : Int) :
    csvFilename ⟨ns, UTC⟩ =
      "csv/" ++ ("top10_5min_highlow_"
        ++ String.mk (appendInt (Time.civil (Time.Truncate ⟨ns, UTC⟩ (5 * Minute))).year 4
            ++ appendInt (Time.civil (Time.Truncate ⟨ns, UTC⟩ (5 * Minute))).month 2
            ++ appendInt (Time.civil (Time.Truncate ⟨ns, UTC⟩ (5 * Minute))).day 2)
        ++ "_"
        ++ String.mk (appendInt (Time.civil (Time.Truncate ⟨ns, UTC⟩ (5 * Minute))).hour 2
            ++ appendInt (Time.civil (Time.Truncate ⟨ns, UTC⟩ (5 * Minute))).minute 2
            ++ appendInt (Time.civil (Time.Truncate ⟨ns, UTC⟩ (5 * Minute))).second 2)
        ++ ".csv") ∧
    ((Time.civil (Time.Truncate ⟨ns, UTC⟩ (5 * Minute))).year,
      (Time.civil (Time.Truncate ⟨ns, UTC⟩ (5 * Minute))).month,
      (Time.civil (Time.Truncate ⟨ns, UTC⟩ (5 * Minute))).day)
      = civilFromDays ((Time.Truncate ⟨ns, UTC⟩ (5 * Minute)).Unix / 86400) ∧
    (Time.civil (Time.Truncate ⟨ns, UTC⟩ (5 * Minute))).hour * 3600
      + (Time.civil (Time.Truncate ⟨ns, UTC⟩ (5 * Minute))).minute * 60
      = (Time.Truncate ⟨ns, UTC⟩ (5 * Minute)).Unix % 86400 ∧
    (Time.civil (Time.Truncate ⟨ns, UTC⟩ (5 * Minute))).second = 0 ∧
    (Time.civil (Time.Truncate ⟨ns, UTC⟩ (5 * Minute))).minute % 5 = 0 ∧
    (∀ (env : Env) (dir : CsvDir), env.mkdirFault = none →
      osCreate env.createFault (dir.getD []) (csvName (Time.Truncate ⟨ns, UTC⟩ (5 * Minute)))
        = .ok ((dir.getD []).filter
            (fun f => f.name != csvName (Time.Truncate ⟨ns, UTC⟩ (5 * Minute)))
            ++ [⟨csvName (Time.Truncate ⟨ns, UTC⟩ (5 * Minute)), false, []⟩]) →
      ∃ f ∈ (createCSV env dir ⟨ns, UTC⟩).1.getD [],
        f.name = csvName (Time.Truncate ⟨ns, UTC⟩ (5 * Minute)) ∧ f.isDir = false) ∧
    (Time.Truncate ⟨t0730, UTC⟩ (5 * Minute)).Unix = 1704067500 ∧
    formatDateTime (Time.Truncate ⟨t0730, UTC⟩ (5 * Minute)) = "2024-01-01 00:05:00" ∧
    csvFilename ⟨t0730, UTC⟩ = "csv/top10_5min_highlow_20240101_000500.csv" := by
  have hb := (truncate_five_minutes ⟨ns, UTC⟩).1
  have hloc : ∀ u : Int, (Time.Truncate ⟨ns, UTC⟩ (5 * Minute)).loc u = 0 := by
    intro u
    rw [Truncate_loc]
    rfl
  refine ⟨rfl, ?_, ?_, ?_, ?_, ?_, by decide, by decide, by decide⟩
  · simp only [Time.civil, hloc, add_zero]
  · simp only [Time.civil, hloc, add_zero]
    omega
  · simp only [Time.civil, hloc, add_zero]
    omega
  · simp only [Time.civil, hloc, add_zero]
    omega
  · intro env dir hmk hcr
    simp only [createCSV, hmk, hcr]
    refine ⟨⟨csvName (Time.Truncate ⟨ns, UTC⟩ (5 * Minute)), false,
      (csvBody env (Time.Truncate ⟨ns, UTC⟩ (5 * Minute))).1⟩, ?_, rfl, rfl⟩
    simp [setRecords]

theorem artifact_naming_witness :
    ∃ f ∈ (createCSV (sampleEnv t0730) none ⟨t0730, UTC⟩).1.getD [],
      f.name = csvName (Time.Truncate ⟨t0730, UTC⟩ (5 * Minute)) ∧ f.isDir = false :=
  (artifact_naming t0730).2.2.2.2.2.1 (sampleEnv t0730) none rfl rfl

theorem equal_bucket_iff (loc : Location) (s : Int) (t : Time) :
    (timeUnix loc s).Equal (t.Truncate (5 * Minute)) = true ↔ s = (t.Truncate (5 * Minute)).Unix := by
  have hb := (truncate_five_minutes t).2.1
  simp only [Time.Equal, timeUnix, decide_eq_true_eq]
  rw [hb]
  simp only [Second]
  omega

/-! ## The idempotence guard of the tabular sink (C1) -/

/-- C1, where the code departs from it. Two consecutive runs at
2024-01-01T00:07:30Z and 00:08:00Z fall in the bucket 00:05:00. The first run
creates the artifact of the bucket, which is then the latest artifact. The
second run does not print the same-candle line: it calls `createCSV` again,
which truncates the artifact (here the second `createCSV` cannot list the pairs
and the artifact is left with its header only). -/
theorem tabular_sink_rewritten_in_same_bucket :
    (Time.Truncate ⟨t0730, UTC⟩ (5 * Minute)).Unix = (Time.Truncate ⟨t0800, UTC⟩ (5 * Minute)).Unix ∧
    (SaveDataToDB (sampleEnv t0730) World.init).1.stdout = [.firstCSV "2024-01-01 00:05:00"] ∧
    csvListing (SaveDataToDB (sampleEnv t0730) World.init).1.csv
      = [("top10_5min_highlow_20240101_000500.csv", 2)] ∧
    getLatestCSV (SaveDataToDB (sampleEnv t0730) World.init).1.csv
      = some "csv/top10_5min_highlow_20240101_000500.csv" ∧
    (SaveDataToDB (sampleEnv t0800) (SaveDataToDB (sampleEnv t0730) World.init).1).1.stdout
      = [.firstCSV "2024-01-01 00:05:00", .newCSV "2024-01-01 00:05:00"] ∧
    (SaveDataToDB { sampleEnv t0800 with csvGetTradingPairs := .error "timeout" }
        (SaveDataToDB (sampleEnv t0730) World.init).1).1.stdout
      = [.firstCSV "2024-01-01 00:05:00", .csvError (.getTradingPairs "timeout")] ∧
    csvListing (SaveDataToDB { sampleEnv t0800 with csvGetTradingPairs := .error "timeout" }
        (SaveDataToDB (sampleEnv t0730) World.init).1).1.csv
      = [("top10_5min_highlow_20240101_000500.csv", 1)] := by
  decide

theorem getnum_keeps_underscore (s : List Char) (isFixed : Bool) (n : Int) (rest : List Char)
    (h : getnum s isFixed = some (n, rest)) (hu : '_' ∈ s) : '_' ∈ rest := by
  unfold getnum at h
  split at h
  · simp at h
  · rename_i c0 r
    split at h
    · simp at h
    · rename_i hd0
      have hc0 : c0 ≠ '_' := by
        intro hc; subst hc; exact hd0 (by decide)
      have hr : '_' ∈ r := by
        rcases List.mem_cons.mp hu with h1 | h1
        · exact absurd h1.symm hc0
        · exact h1
      split at h
      · rename_i c1 r2
        split at h
        · rename_i hd1
          have hc1 : c1 ≠ '_' := by
            intro hc; subst hc; revert hd1; decide
          simp only [Option.some.injEq, Prod.mk.injEq] at h
          rw [← h.2]
          rcases List.mem_cons.mp hr with h1 | h1
          · exact absurd h1.symm hc1
          · exact h1
        · split at h
          · simp at h
          · simp only [Option.some.injEq, Prod.mk.injEq] at h
            rw [← h.2]; exact hr
      · simp at hr

theorem parseFraction_keeps_underscore (v : List Char) (hu : '_' ∈ v) :
    '_' ∈ (parseFraction v).2 := by
  unfold parseFraction
  split
  · rename_i c d r
    split
    · rename_i hcd
      have hc : c ≠ '_' := by
        rcases hcd.1 with h | h <;> (rw [h]; decide)
      have hd : d ≠ '_' := by
        intro h; rw [h] at hcd; exact absurd hcd.2 (by decide)
      have hr : '_' ∈ r := by
        rcases List.mem_cons.mp hu with h1 | h1
        · exact absurd h1.symm hc
        · rcases List.mem_cons.mp h1 with h2 | h2
          · exact absurd h2.symm hd
          · exact h2
      show '_' ∈ r.dropWhile isDigit
      rw [← List.takeWhile_append_dropWhile isDigit r] at hr
      rcases List.mem_append.mp hr with h1 | h1
      · have := List.mem_takeWhile_imp h1
        exact absurd this (by decide)
      · exact h1
    · exact hu
  · exact hu

theorem parseCompact_no_underscore (value : String) (t : Time)
    (h : parseCompact value = some t) : '_' ∉ value.data := by
  intro hu
  unfold parseCompact at h
  simp only at h
  split at h
  · simp at h
  split at h
  · simp at h
  rename_i hlen hdig
  have hu4 : '_' ∈ value.data.drop 4 := by
    rw [← List.take_append_drop 4 value.data] at hu
    rcases List.mem_append.mp hu with h1 | h1
    · simp only [Bool.not_eq_true, Bool.not_eq_false_eq_eq_true, List.all_eq_true] at hdig
      exact absurd (hdig _ h1) (by decide)
    · exact h1
  split at h
  · simp at h
  rename_i month v1 hm
  have hu1 := getnum_keeps_underscore _ _ _ _ hm hu4
  split at h
  · simp at h
  split at h
  · simp at h
  rename_i day v2 hd
  have hu2 := getnum_keeps_underscore _ _ _ _ hd hu1
  split at h
  · simp at h
  rename_i hour v3 hh
  have hu3 := getnum_keeps_underscore _ _ _ _ hh hu2
  split at h
  · simp at h
  split at h
  · simp at h
  rename_i min v4 hmin
  have hu5 := getnum_keeps_underscore _ _ _ _ hmin hu3
  split at h
  · simp at h
  split at h
  · simp at h
  rename_i sec v5 hsec
  have hu6 := getnum_keeps_underscore _ _ _ _ hsec hu5
  split at h
  · simp at h
  have hu7 := parseFraction_keeps_underscore v5 hu6
  split at h
  · simp at h
  · rename_i hv6
    simp only [ne_eq, Decidable.not_not] at hv6
    rw [hv6] at hu7
    simp at hu7

theorem splitL_of_not_mem (sep : Char) (l : List Char) (h : sep ∉ l) : splitL sep l = [l] := by
  induction l with
  | nil => rfl
  | cons c cs ih =>
    have hc : c ≠ sep := fun e => h (e ▸ List.mem_cons_self _ _)
    have hcs : sep ∉ cs := fun e => h (List.mem_cons_of_mem _ e)
    simp [splitL, hc, ih hcs]

theorem csvFileTime_underscore (name : String) (t : Time) (h : csvFileTime name = some t) :
    '_' ∈ (TrimSuffix (TrimPrefix name csvPrefix) ".csv").data := by
  by_contra hno
  unfold csvFileTime SplitUnderscore at h
  rw [splitL_of_not_mem _ _ hno] at h
  simp at h

theorem latestStep_fold (files : List File) (acc : String × Time) :
    (files.foldl latestStep acc).1 = acc.1 ∨
    ∃ f ∈ files, f.name = (files.foldl latestStep acc).1 ∧ (csvFileTime f.name).isSome = true := by
  induction files generalizing acc with
  | nil => left; rfl
  | cons f rest ih =>
    simp only [List.foldl_cons]
    rcases ih (latestStep acc f) with h | ⟨g, hg, hn, hs⟩
    · rw [h]
      unfold latestStep
      split
      · split
        · left; rfl
        · rename_i fileTime hft
          split
          · right
            exact ⟨f, List.mem_cons_self _ _, rfl, by rw [hft]; rfl⟩
          · left; rfl
      · left; rfl
    · right
      exact ⟨g, List.mem_cons_of_mem _ hg, hn, hs⟩

theorem baseL_of_no_slash (l acc : List Char) (h : '/' ∉ l) : baseL l acc = acc.reverse ++ l := by
  induction l generalizing acc with
  | nil => simp [baseL]
  | cons c cs ih =>
    have hc : c ≠ '/' := fun e => h (e ▸ List.mem_cons_self _ _)
    have hcs : '/' ∉ cs := fun e => h (List.mem_cons_of_mem _ e)
    simp [baseL, hc, ih _ hcs]

theorem Base_joinCsv (name : String) (h : '/' ∉ name.data) : Base (joinCsv name) = name := by
  unfold Base joinCsv
  have : ("csv/" ++ name).data = 'c' :: 's' :: 'v' :: '/' :: name.data := rfl
  rw [this]
  simp only [baseL, Char.reduceEq, if_false, if_true]
  rw [baseL_of_no_slash _ _ h]
  rfl

/-- The guard of the tabular sink never holds: whatever the directory `csv`
contains (entry names have no slash) and whatever the instant, `SaveDataToDB`
does not print the same-candle line, that is, it always calls `createCSV`.
The text it passes to `time.Parse` still contains the underscore between date
and time, which the layout `20060102150405` does not accept. -/
theorem idempotence_guard_never_passes (env : Env) (dir : CsvDir) (now lct : Time)
    (hdir : ∀ f ∈ dir.getD [], '/' ∉ f.name.data) :
    (csvStep env dir now lct).2.1 ≠ some .sameCandle := by
  have hcreate : ∀ isFirst : Bool,
      (match createCSV env dir now with
        | (dir1, .panic) => ((dir1, none, true) : CsvDir × Option LogLine × Bool)
        | (dir1, .error e) => (dir1, some (.csvError e), false)
        | (dir1, .ok) =>
          (dir1, some (if isFirst then .firstCSV (formatDateTime lct)
                       else .newCSV (formatDateTime lct)), false)).2.1 ≠ some .sameCandle := by
    intro isFirst
    rcases createCSV env dir now with ⟨dir1, _ | e | _⟩
    · cases isFirst <;> simp
    · simp
    · simp
  unfold csvStep
  simp only
  cases hlatest : getLatestCSV dir with
  | none => exact hcreate true
  | some lastCSV =>
    simp only
    have hparse : parseCompact (TrimSuffix (TrimPrefix (Base lastCSV) csvPrefix) ".csv") = none := by
      unfold getLatestCSV at hlatest
      cases hrd : ReadDir dir with
      | none => rw [hrd] at hlatest; simp at hlatest
      | some files =>
        rw [hrd] at hlatest
        simp only at hlatest
        split at hlatest
        · simp at hlatest
        · rename_i hne
          simp only [Option.some.injEq] at hlatest
          rcases latestStep_fold files ("", zeroTime) with h0 | ⟨f, hf, hn, hs⟩
          · exact absurd h0 hne
          · have hfdir : f ∈ dir.getD [] := by
              unfold ReadDir at hrd
              cases dir with
              | none => simp at hrd
              | some fs =>
                simp only [Option.map_some', Option.some.injEq] at hrd
                rw [← hrd] at hf
                exact (sortSlice_perm _ fs).mem_iff.mp hf
            obtain ⟨t, ht⟩ := Option.isSome_iff_exists.mp hs
            have hund := csvFileTime_underscore f.name t ht
            rw [← hlatest, ← hn, Base_joinCsv f.name (hdir f hfdir)]
            cases hp : parseCompact (TrimSuffix (TrimPrefix f.name csvPrefix) ".csv") with
            | none => rfl
            | some t' => exact absurd hund (parseCompact_no_underscore _ t' hp)
    rw [hparse]
    exact hcreate false

/-- Witness: the directory left by the first sample run. -/
theorem idempotence_guard_never_passes_witness :
    (csvStep (sampleEnv t0800) (SaveDataToDB (sampleEnv t0730) World.init).1.csv ⟨t0800, UTC⟩
      (Time.Truncate ⟨t0800, UTC⟩ (5 * Minute))).2.1 ≠ some .sameCandle :=
  idempotence_guard_never_passes (sampleEnv t0800) (SaveDataToDB (sampleEnv t0730) World.init).1.csv
    ⟨t0800, UTC⟩ (Time.Truncate ⟨t0800, UTC⟩ (5 * Minute)) (by decide)

/-! ## The exact-match policy (C4) -/

theorem findCandleCSV_found (loc : Location) (lct : Time) (pair : String) (ohlc : List JSON)
    (record : List Cell) (hfound : findCandleCSV loc lct pair ohlc = .found record) :
    ∃ f o h l c x v rest, JSON.arr (.num f :: o :: h :: l :: c :: x :: v :: rest) ∈ ohlc ∧
      (timeUnix loc f.toInt64).Equal lct = true ∧
      record = [.text pair, .text (formatDateTime (timeUnix loc f.toInt64)),
                .value o, .value h, .value l, .value c, .value v] := by
  induction ohlc with
  | nil => simp [findCandleCSV] at hfound
  | cons candle rest ih =>
    unfold findCandleCSV at hfound
    split at hfound
    · split at hfound
      · split at hfound
        · rename_i a o h l c x v r hhead
          simp only [List.head?_cons, Option.some.injEq] at hhead
          subst hhead
          simp only at hfound
          split at hfound
          · rename_i heq
            simp only [Found.found.injEq] at hfound
            exact ⟨_, o, h, l, c, x, v, r, List.mem_cons_self _ _, heq, hfound.symm⟩
          · obtain ⟨f, o, h, l, c, x, v, r, hm, he, hr⟩ := ih hfound
            exact ⟨f, o, h, l, c, x, v, r, List.mem_cons_of_mem _ hm, he, hr⟩
        · simp only at hfound
          split at hfound
          · simp at hfound
          · obtain ⟨f, o, h, l, c, x, v, r, hm, he, hr⟩ := ih hfound
            exact ⟨f, o, h, l, c, x, v, r, List.mem_cons_of_mem _ hm, he, hr⟩
      · simp at hfound
    · obtain ⟨f, o, h, l, c, x, v, r, hm, he, hr⟩ := ih hfound
      exact ⟨f, o, h, l, c, x, v, r, List.mem_cons_of_mem _ hm, he, hr⟩

theorem findCandleCSV_no_match (loc : Location) (lct : Time) (pair : String) (ohlc : List JSON)
    (hno : ∀ candleData f, JSON.arr candleData ∈ ohlc → candleData.head? = some (.num f) →
      (timeUnix loc f.toInt64).Equal lct = false)
    (record : List Cell) : findCandleCSV loc lct pair ohlc ≠ .found record := by
  intro hfound
  obtain ⟨f, o, h, l, c, x, v, r, hm, he, _⟩ := findCandleCSV_found loc lct pair ohlc record hfound
  have := hno _ f hm rfl
  rw [he] at this
  exact Bool.noConfusion this

theorem candleLoop_spec (env : Env) (name : String) (pairID : Nat) (lct : Time)
    (ohlc : List JSON) (i : Nat) (db : Store) :
    (candleLoop env name pairID lct i ohlc db).db = db ∨
    ∃ f o h l c x v rest,
      JSON.arr (.num f :: .str o :: .str h :: .str l :: .str c :: x :: .str v :: rest) ∈ ohlc ∧
      (timeUnix env.localLoc f.toInt64).Equal lct = true ∧
      candleLoop env name pairID lct i ohlc db =
        .next { db with historical_data := db.historical_data ++
          [⟨nextID (db.historical_data.map (fun r => r.ID)), pairID,
            sqliteTimestamp (timeUnix env.localLoc f.toInt64), (ParseFloat o).1, (ParseFloat h).1,
            (ParseFloat l).1, (ParseFloat c).1, (ParseFloat v).1⟩] } := by
  induction ohlc generalizing i with
  | nil => left; rfl
  | cons candle rest ih =>
    have lift : ∀ j, candleLoop env name pairID lct i (candle :: rest) db
          = candleLoop env name pairID lct j rest db →
        ((candleLoop env name pairID lct i (candle :: rest) db).db = db ∨
          ∃ f o h l c x v rest',
            JSON.arr (.num f :: .str o :: .str h :: .str l :: .str c :: x :: .str v :: rest')
              ∈ candle :: rest ∧
            (timeUnix env.localLoc f.toInt64).Equal lct = true ∧
            candleLoop env name pairID lct i (candle :: rest) db =
              .next { db with historical_data := db.historical_data ++
                [⟨nextID (db.historical_data.map (fun r => r.ID)), pairID,
                  sqliteTimestamp (timeUnix env.localLoc f.toInt64), (ParseFloat o).1,
                  (ParseFloat h).1, (ParseFloat l).1, (ParseFloat c).1, (ParseFloat v).1⟩] }) := by
      intro j hj
      rw [hj]
      rcases ih j with h1 | ⟨f, o, h, l, c, x, v, r, hm, he, hr⟩
      · exact Or.inl h1
      · exact Or.inr ⟨f, o, h, l, c, x, v, r, List.mem_cons_of_mem _ hm, he, hr⟩
    cases candle with
    | arr candleData =>
      cases candleData with
      | nil => left; simp [candleLoop, Step.db]
      | cons a tl =>
        cases a with
        | num f =>
          by_cases heq : (timeUnix env.localLoc f.toInt64).Equal lct = true
          · rcases tl with _ | ⟨o, _ | ⟨h, _ | ⟨l, _ | ⟨c, _ | ⟨x, _ | ⟨v, r⟩⟩⟩⟩⟩⟩
            all_goals try (left; simp [candleLoop, Step.db, heq]; done)
            cases o <;> try (left; simp [candleLoop, Step.db, heq]; done)
            cases h <;> try (left; simp [candleLoop, Step.db, heq]; done)
            cases l <;> try (left; simp [candleLoop, Step.db, heq]; done)
            cases c <;> try (left; simp [candleLoop, Step.db, heq]; done)
            cases v <;> try (left; simp [candleLoop, Step.db, heq]; done)
            rename_i o h l c v
            cases hf : env.historicalFault name i with
            | some e =>
              apply lift (i + 1)
              simp [candleLoop, heq, SaveHistoricalData, hf]
            | none =>
              right
              exact ⟨f, o, h, l, c, x, v, r, List.mem_cons_self _ _, heq,
                by simp [candleLoop, heq, SaveHistoricalData, hf]⟩
          · apply lift (i + 1)
            simp [candleLoop, heq]
        | null => left; simp [candleLoop, Step.db]
        | bool _ => left; simp [candleLoop, Step.db]
        | str _ => left; simp [candleLoop, Step.db]
        | arr _ => left; simp [candleLoop, Step.db]
        | obj _ => left; simp [candleLoop, Step.db]
    | null => exact lift (i + 1) (by simp [candleLoop])
    | bool _ => exact lift (i + 1) (by simp [candleLoop])
    | num _ => exact lift (i + 1) (by simp [candleLoop])
    | str _ => exact lift (i + 1) (by simp [candleLoop])
    | obj _ => exact lift (i + 1) (by simp [candleLoop])

theorem csvRows_spec (env : Env) (lct : Time) (pairs : List String) (recs : List (List Cell)) :
    ∃ newRecs, (csvRows env lct pairs recs).1 = recs ++ newRecs ∧
      (newRecs.map recordPair).Sublist (pairs.map some) ∧
      ∀ record ∈ newRecs, ∃ pair data result ohlc, pair ∈ pairs ∧
        env.csvGetHistoricalData pair 5 lct.Unix = .ok data ∧
        mapGet data "result" = some (.obj result) ∧ mapGet result pair = some (.arr ohlc) ∧
        findCandleCSV env.localLoc lct pair ohlc = .found record := by
  induction pairs generalizing recs with
  | nil => exact ⟨[], by simp [csvRows], by simp, by simp⟩
  | cons pair rest ih =>
    have skip : (csvRows env lct (pair :: rest) recs).1 = (csvRows env lct rest recs).1 →
        ∃ newRecs, (csvRows env lct (pair :: rest) recs).1 = recs ++ newRecs ∧
          (newRecs.map recordPair).Sublist ((pair :: rest).map some) ∧
          ∀ record ∈ newRecs, ∃ p data result ohlc, p ∈ pair :: rest ∧
            env.csvGetHistoricalData p 5 lct.Unix = .ok data ∧
            mapGet data "result" = some (.obj result) ∧ mapGet result p = some (.arr ohlc) ∧
            findCandleCSV env.localLoc lct p ohlc = .found record := by
      intro h
      obtain ⟨n, h1, h2, h3⟩ := ih recs
      refine ⟨n, h.trans h1, List.Sublist.cons _ h2, ?_⟩
      intro r hr
      obtain ⟨p, d, res, o, hp, hrest⟩ := h3 r hr
      exact ⟨p, d, res, o, List.mem_cons_of_mem _ hp, hrest⟩
    have stop : (csvRows env lct (pair :: rest) recs).1 = recs →
        ∃ newRecs, (csvRows env lct (pair :: rest) recs).1 = recs ++ newRecs ∧
          (newRecs.map recordPair).Sublist ((pair :: rest).map some) ∧
          ∀ record ∈ newRecs, ∃ p data result ohlc, p ∈ pair :: rest ∧
            env.csvGetHistoricalData p 5 lct.Unix = .ok data ∧
            mapGet data "result" = some (.obj result) ∧ mapGet result p = some (.arr ohlc) ∧
            findCandleCSV env.localLoc lct p ohlc = .found record := by
      intro h
      exact ⟨[], by simpa using h, by simp, by simp⟩
    rcases h1 : env.csvGetHistoricalData pair 5 lct.Unix with e | data
    · exact skip (by simp [csvRows, h1])
    rcases h2 : mapGet data "result" with _ | r2
    · exact skip (by simp [csvRows, h1, h2])
    cases r2 with
    | obj result =>
      rcases h3 : mapGet result pair with _ | r3
      · exact skip (by simp [csvRows, h1, h2, h3])
      cases r3 with
      | arr ohlc =>
        by_cases hlen : ohlc.length > 0
        · cases h4 : findCandleCSV env.localLoc lct pair ohlc with
          | panic => exact stop (by simp [csvRows, h1, h2, h3, hlen, h4])
          | none => exact skip (by simp [csvRows, h1, h2, h3, hlen, h4])
          | found record =>
            cases h5 : env.csvWriteFault recs.length with
            | some e => exact stop (by simp [csvRows, h1, h2, h3, hlen, h4, h5])
            | none =>
              have hstep : (csvRows env lct (pair :: rest) recs).1
                  = (csvRows env lct rest (recs ++ [record])).1 := by
                simp [csvRows, h1, h2, h3, hlen, h4, h5]
              obtain ⟨n, hn1, hn2, hn3⟩ := ih (recs ++ [record])
              obtain ⟨f, o, h, l, c, x, v, r, _, _, hshape⟩ :=
                findCandleCSV_found _ _ _ _ _ h4
              refine ⟨record :: n, ?_, ?_, ?_⟩
              · rw [hstep, hn1]; simp
              · have : recordPair record = some pair := by rw [hshape]; rfl
                simpa [this] using hn2
              · intro r' hr'
                rcases List.mem_cons.mp hr' with h0 | h0
                · subst h0
                  exact ⟨pair, data, result, ohlc, List.mem_cons_self _ _, h1, h2, h3, h4⟩
                · obtain ⟨p, d, res, o', hp, hrest⟩ := hn3 r' h0
                  exact ⟨p, d, res, o', List.mem_cons_of_mem _ hp, hrest⟩
        · exact skip (by simp [csvRows, h1, h2, h3, hlen])
      | null => exact skip (by simp [csvRows, h1, h2, h3])
      | bool _ => exact skip (by simp [csvRows, h1, h2, h3])
      | num _ => exact skip (by simp [csvRows, h1, h2, h3])
      | str _ => exact skip (by simp [csvRows, h1, h2, h3])
      | obj _ => exact skip (by simp [csvRows, h1, h2, h3])
    | null => exact skip (by simp [csvRows, h1, h2])
    | bool _ => exact skip (by simp [csvRows, h1, h2])
    | num _ => exact skip (by simp [csvRows, h1, h2])
    | str _ => exact skip (by simp [csvRows, h1, h2])
    | arr _ => exact skip (by simp [csvRows, h1, h2])

theorem csvRows_of_series (env : Env) (lct : Time) (pair : String) (rest : List String)
    (recs : List (List Cell)) (data result : List (String × JSON)) (ohlc : List JSON)
    (hcsv : env.csvGetHistoricalData pair 5 lct.Unix = .ok data)
    (hres : mapGet data "result" = some (.obj result))
    (hser : mapGet result pair = some (.arr ohlc)) :
    (findCandleCSV env.localLoc lct pair ohlc = .none →
      csvRows env lct (pair :: rest) recs = csvRows env lct rest recs) ∧
    (findCandleCSV env.localLoc lct pair ohlc = .panic →
      csvRows env lct (pair :: rest) recs = (recs, .panic)) ∧
    (∀ record, findCandleCSV env.localLoc lct pair ohlc = .found record →
      (∀ e, env.csvWriteFault recs.length = some e →
        csvRows env lct (pair :: rest) recs = (recs, .error (.writeRecord e))) ∧
      (env.csvWriteFault recs.length = none →
        csvRows env lct (pair :: rest) recs = csvRows env lct rest (recs ++ [record]))) := by
  cases ohlc with
  | nil =>
    refine ⟨fun _ => ?_, fun h => ?_, fun record h => ?_⟩
    · rw [csvRows]
      simp [hcsv, hres, hser]
    · simp [findCandleCSV] at h
    · simp [findCandleCSV] at h
  | cons candle more =>
    have hlen : (candle :: more).length > 0 := by simp
    refine ⟨fun h => ?_, fun h => ?_, fun record h => ⟨fun e he => ?_, fun he => ?_⟩⟩
    · rw [csvRows]
      simp only [hcsv, hres, hser, hlen, if_true, h]
    · rw [csvRows]
      simp only [hcsv, hres, hser, hlen, if_true, h]
    · rw [csvRows]
      simp only [hcsv, hres, hser, hlen, if_true, h, he]
    · rw [csvRows]
      simp only [hcsv, hres, hser, hlen, if_true, h, he]

theorem csvRows_prefix (env : Env) (lct : Time) (pairs : List String) (recs : List (List Cell)) :
    recs <+: (csvRows env lct pairs recs).1 := by
  obtain ⟨newRecs, h, -, -⟩ := csvRows_spec env lct pairs recs
  exact ⟨newRecs, h.symm⟩

theorem historicalStep_of_series (env : Env) (lct : Time) (pair : String) (pairID : Nat)
    (db : Store) (hist histResult : List (String × JSON)) (ohlc : List JSON)
    (hdb : env.GetHistoricalData pair 5 lct.Unix = .ok hist)
    (hres : mapGet hist "result" = some (.obj histResult))
    (hser : mapGet histResult pair = some (.arr ohlc)) :
    historicalStep env db pair pairID lct = candleLoop env pair pairID lct 0 ohlc db := by
  cases ohlc with
  | nil =>
    rw [historicalStep]
    simp [hdb, hres, hser, candleLoop]
  | cons candle more =>
    have hlen : (candle :: more).length > 0 := by simp
    rw [historicalStep]
    simp only [hdb, hres, hser, hlen, if_true]

theorem csvRows_from_matching_candle (env : Env) (lct : Time) (pairs : List String)
    (recs : List (List Cell)) :
    ∃ newRecs, (csvRows env lct pairs recs).1 = recs ++ newRecs ∧
      (newRecs.map recordPair).Sublist (pairs.map some) ∧
      ∀ record ∈ newRecs, ∃ p data result series f o h l c x v r, p ∈ pairs ∧
        env.csvGetHistoricalData p 5 lct.Unix = .ok data ∧
        mapGet data "result" = some (.obj result) ∧ mapGet result p = some (.arr series) ∧
        JSON.arr (.num f :: o :: h :: l :: c :: x :: v :: r) ∈ series ∧
        (timeUnix env.localLoc f.toInt64).Equal lct = true ∧
        record = [.text p, .text (formatDateTime (timeUnix env.localLoc f.toInt64)),
                  .value o, .value h, .value l, .value c, .value v] := by
  obtain ⟨newRecs, h1, h2, h3⟩ := csvRows_spec env lct pairs recs
  refine ⟨newRecs, h1, h2, ?_⟩
  intro record hr
  obtain ⟨p, data, result, series, hp, hd, hres, hser, hfound⟩ := h3 record hr
  obtain ⟨f, o, h, l, c, x, v, r, hm, he, hrec⟩ := findCandleCSV_found _ _ _ _ _ hfound
  exact ⟨p, data, result, series, f, o, h, l, c, x, v, r, hp, hd, hres, hser, hm, he, hrec⟩

/-! ## The pair loop of the relational sink (C8, C9) -/

theorem le_foldr_max (ids : List Nat) (x : Nat) (h : x ∈ ids) : x ≤ ids.foldr max 0 := by
  induction ids with
  | nil => simp at h
  | cons a r ih =>
    simp only [List.foldr_cons]
    rcases List.mem_cons.mp h with h1 | h1
    · subst h1; exact le_max_left _ _
    · exact le_trans (ih h1) (le_max_right _ _)

theorem nextID_not_mem (ids : List Nat) : nextID ids ∉ ids := by
  intro h
  have := le_foldr_max ids _ h
  unfold nextID at this
  omega

theorem Store.Extends.refl (db : Store) : db.Extends db :=
  ⟨List.prefix_refl _, List.prefix_refl _, List.prefix_refl _, List.prefix_refl _⟩

theorem Store.Extends.trans {a b c : Store} (h1 : a.Extends b) (h2 : b.Extends c) : a.Extends c :=
  ⟨h2.1.trans h1.1, h2.2.1.trans h1.2.1, h2.2.2.1.trans h1.2.2.1, h2.2.2.2.trans h1.2.2.2⟩

theorem SaveTradingPair_ok (fault : Option String) (db db1 : Store) (name base quote lu : String)
    (id : Nat) (h : SaveTradingPair fault db name base quote lu = .ok (db1, id)) :
    id = nextID (db.trading_pairs.map (fun r => r.ID)) ∧
    db1 = { db with trading_pairs := db.trading_pairs ++ [⟨id, name, base, quote, lu⟩] } ∧
    (name, lu) ∉ db.trading_pairs.map (fun r => (r.Name, r.LastUpdated)) := by
  unfold SaveTradingPair at h
  split at h
  · simp at h
  · split at h
    · simp at h
    · rename_i hany
      simp only [Except.ok.injEq, Prod.mk.injEq] at h
      refine ⟨h.2.symm, ?_, ?_⟩
      · rw [← h.1, ← h.2]
      · intro hmem
        apply hany
        obtain ⟨r, hr, he⟩ := List.mem_map.mp hmem
        simp only [Prod.mk.injEq] at he
        simp only [List.any_eq_true, Bool.and_eq_true, beq_iff_eq]
        exact ⟨r, hr, he.1, he.2⟩

theorem pairInfoStep_effect (env : Env) (db : Store) (name : String) (pairID : Nat) (lct : Time) :
    (pairInfoStep env db name pairID lct).db = db ∨
    ∃ row : PairInfo, row.PairID = pairID ∧
      pairInfoStep env db name pairID lct = .next { db with pair_info := db.pair_info ++ [row] } := by
  unfold pairInfoStep
  split
  · left; rfl
  · split
    · split
      · split
        · left; rfl
        · rename_i db1 hsave
          unfold SavePairInfo at hsave
          split at hsave
          · simp at hsave
          · simp only [Except.ok.injEq] at hsave
            right
            exact ⟨_, rfl, by rw [← hsave]⟩
      · left; rfl
    · left; rfl

theorem historicalStep_effect (env : Env) (db : Store) (name : String) (pairID : Nat) (lct : Time) :
    (historicalStep env db name pairID lct).db = db ∨
    ∃ row : HistoricalData, row.PairID = pairID ∧
      (historicalStep env db name pairID lct).db
        = { db with historical_data := db.historical_data ++ [row] } := by
  unfold historicalStep
  split
  · left; rfl
  · split
    · split
      · split
        · rename_i ohlc _ _
          rcases candleLoop_spec env name pairID lct ohlc 0 db with h | ⟨f, o, h, l, c, x, v, r, _, _, hr⟩
          · exact Or.inl h
          · right
            exact ⟨_, rfl, by rw [hr]; rfl⟩
        · left; rfl
      · left; rfl
    · left; rfl

theorem storeInv_add_info (db : Store) (row : PairInfo) (hinv : StoreInv db)
    (hid : row.PairID ∈ db.trading_pairs.map (fun r => r.ID))
    (hfree : row.PairID ∉ db.pair_info.map (fun r => r.PairID)) :
    StoreInv { db with pair_info := db.pair_info ++ [row] } := by
  obtain ⟨h1, h2, h3, h4, h5, h6⟩ := hinv
  refine ⟨h1, h2, ?_, h4, ?_, h6⟩
  · simp only [List.map_append, List.map_cons, List.map_nil]
    rw [List.nodup_append]
    refine ⟨h3, List.nodup_singleton _, ?_⟩
    intro a ha hb
    simp only [List.mem_singleton] at hb
    subst hb
    exact hfree ha
  · intro r hr
    rcases List.mem_append.mp hr with h | h
    · exact h5 r h
    · simp only [List.mem_singleton] at h
      subst h
      exact hid

theorem storeInv_add_historical (db : Store) (row : HistoricalData) (hinv : StoreInv db)
    (hid : row.PairID ∈ db.trading_pairs.map (fun r => r.ID))
    (hfree : row.PairID ∉ db.historical_data.map (fun r => r.PairID)) :
    StoreInv { db with historical_data := db.historical_data ++ [row] } := by
  obtain ⟨h1, h2, h3, h4, h5, h6⟩ := hinv
  refine ⟨h1, h2, h3, ?_, h5, ?_⟩
  · simp only [List.map_append, List.map_cons, List.map_nil]
    rw [List.nodup_append]
    refine ⟨h4, List.nodup_singleton _, ?_⟩
    intro a ha hb
    simp only [List.mem_singleton] at hb
    subst hb
    exact hfree ha
  · intro r hr
    rcases List.mem_append.mp hr with h | h
    · exact h6 r h
    · simp only [List.mem_singleton] at h
      subst h
      exact hid

theorem storeInv_add_pair (db : Store) (row : TradingPair) (hinv : StoreInv db)
    (hid : row.ID = nextID (db.trading_pairs.map (fun r => r.ID)))
    (hkey : (row.Name, row.LastUpdated) ∉ db.trading_pairs.map (fun r => (r.Name, r.LastUpdated))) :
    StoreInv { db with trading_pairs := db.trading_pairs ++ [row] } ∧
    row.ID ∉ db.pair_info.map (fun r => r.PairID) ∧
    row.ID ∉ db.historical_data.map (fun r => r.PairID) := by
  obtain ⟨h1, h2, h3, h4, h5, h6⟩ := hinv
  have hfresh : row.ID ∉ db.trading_pairs.map (fun r => r.ID) := by
    rw [hid]; exact nextID_not_mem _
  refine ⟨⟨?_, ?_, h3, h4, ?_, ?_⟩, ?_, ?_⟩
  · simp only [List.map_append, List.map_cons, List.map_nil]
    rw [List.nodup_append]
    refine ⟨h1, List.nodup_singleton _, ?_⟩
    intro a ha hb
    simp only [List.mem_singleton] at hb
    subst hb
    exact hkey ha
  · simp only [List.map_append, List.map_cons, List.map_nil]
    rw [List.nodup_append]
    refine ⟨h2, List.nodup_singleton _, ?_⟩
    intro a ha hb
    simp only [List.mem_singleton] at hb
    subst hb
    exact hfresh ha
  · intro r hr
    simp only [List.map_append, List.mem_append]
    exact Or.inl (h5 r hr)
  · intro r hr
    simp only [List.map_append, List.mem_append]
    exact Or.inl (h6 r hr)
  · intro hmem
    obtain ⟨r, hr, he⟩ := List.mem_map.mp hmem
    exact hfresh (he ▸ h5 r hr)
  · intro hmem
    obtain ⟨r, hr, he⟩ := List.mem_map.mp hmem
    exact hfresh (he ▸ h6 r hr)

theorem relationalSink_inv (env : Env) (lct : Time) (l : List pairVolume) (db : Store)
    (hinv : StoreInv db) : StoreInv (relationalSink env lct l db).1 := by
  induction l generalizing db with
  | nil => exact hinv
  | cons pv rest ih =>
    unfold relationalSink
    split
    · rename_i base quote _ _
      split
      · exact ih db hinv
      · rename_i db1 pairID hsave
        obtain ⟨hid, hdb1, hkey⟩ := SaveTradingPair_ok _ _ _ _ _ _ _ _ hsave
        obtain ⟨hinv1, hfi, hfh⟩ :=
          storeInv_add_pair db ⟨pairID, pv.name, base, quote, sqliteTimestamp lct⟩ hinv hid hkey
        rw [← hdb1] at hinv1
        have hmem1 : pairID ∈ db1.trading_pairs.map (fun r => r.ID) := by
          rw [hdb1]; simp
        have hfi1 : pairID ∉ db1.pair_info.map (fun r => r.PairID) := by rw [hdb1]; exact hfi
        have hfh1 : pairID ∉ db1.historical_data.map (fun r => r.PairID) := by rw [hdb1]; exact hfh
        -- the store after the ticker-detail part
        have hP2 : StoreInv (pairInfoStep env db1 pv.name pairID lct).db ∧
            pairID ∈ (pairInfoStep env db1 pv.name pairID lct).db.trading_pairs.map (fun r => r.ID) ∧
            pairID ∉ (pairInfoStep env db1 pv.name pairID lct).db.historical_data.map
              (fun r => r.PairID) := by
          rcases pairInfoStep_effect env db1 pv.name pairID lct with h | ⟨row, hrow, h⟩
          · rw [h]; exact ⟨hinv1, hmem1, hfh1⟩
          · rw [h]
            exact ⟨storeInv_add_info db1 row hinv1 (hrow ▸ hmem1) (hrow ▸ hfi1), hmem1, hfh1⟩
        have hP3 : ∀ db2, StoreInv db2 → pairID ∈ db2.trading_pairs.map (fun r => r.ID) →
            pairID ∉ db2.historical_data.map (fun r => r.PairID) →
            StoreInv (historicalStep env db2 pv.name pairID lct).db := by
          intro db2 hi hm hf
          rcases historicalStep_effect env db2 pv.name pairID lct with h | ⟨row, hrow, h⟩
          · rw [h]; exact hi
          · rw [h]
            exact storeInv_add_historical db2 row hi (hrow ▸ hm) (hrow ▸ hf)
        split
        · rename_i db2 hstep
          rw [hstep] at hP2
          exact hP2.1
        · rename_i db2 hstep
          rw [hstep] at hP2
          exact ih db2 hP2.1
        · rename_i db2 hstep
          rw [hstep] at hP2
          have h3 := hP3 db2 hP2.1 hP2.2.1 hP2.2.2
          split
          · rename_i db3 hs3
            rw [hs3] at h3; exact h3
          · rename_i db3 hs3
            rw [hs3] at h3; exact ih db3 h3
          · rename_i db3 hs3
            rw [hs3] at h3; exact ih db3 h3
    · exact hinv

theorem SaveDataToDB_inv (env : Env) (w : World) (hinv : StoreInv w.db) :
    StoreInv (SaveDataToDB env w).1.db := by
  unfold SaveDataToDB
  split
  · exact hinv
  · simp only
    split
    · exact hinv
    · rename_i db1 hsave
      have hinv1 : StoreInv db1 := by
        unfold SaveServerStatus at hsave
        split at hsave
        · simp at hsave
        · simp only [Except.ok.injEq] at hsave
          rw [← hsave]
          exact hinv
      split
      · exact hinv1
      · split
        · exact hinv1
        · rename_i pairs _ _ dir1 line _
          have := relationalSink_inv env
            (Time.Truncate ⟨env.now, env.localLoc⟩ (5 * Minute)) (selectTop pairs) db1 hinv1
          split
          · rename_i db2 hrs
            rw [hrs] at this; exact this
          · rename_i db2 hrs
            rw [hrs] at this; exact this

theorem runs_inv (envs : List Env) (w : World) (hinv : StoreInv w.db) :
    StoreInv (runs envs w).db := by
  induction envs generalizing w with
  | nil => exact hinv
  | cons env rest ih =>
    unfold runs
    simp only [List.foldl_cons]
    exact ih _ (SaveDataToDB_inv env w hinv)

/-- C9 (store uniqueness invariant). After any sequence of `SaveDataToDB` runs
from an empty store, whatever the environment of each run and however each run
ends, `trading_pairs` holds at most one row per (name, last_updated), and each
trading-pair key is referenced by at most one `pair_info` row and at most one
`historical_data` row. Two sample runs in the same bucket leave one row per
table. -/
theorem store_uniqueness (envs : List Env) :
    ((runs envs World.init).db.trading_pairs.map (fun r => (r.Name, r.LastUpdated))).Nodup ∧
    ((runs envs World.init).db.trading_pairs.map (fun r => r.ID)).Nodup ∧
    ((runs envs World.init).db.pair_info.map (fun r => r.PairID)).Nodup ∧
    ((runs envs World.init).db.historical_data.map (fun r => r.PairID)).Nodup ∧
    ((runs [sampleEnv t0730, sampleEnv t0800] World.init).db.trading_pairs.length = 1 ∧
     (runs [sampleEnv t0730, sampleEnv t0800] World.init).db.pair_info.length = 1 ∧
     (runs [sampleEnv t0730, sampleEnv t0800] World.init).db.historical_data.length = 1) := by
  have h := runs_inv envs World.init
    ⟨List.nodup_nil, List.nodup_nil, List.nodup_nil, List.nodup_nil, by simp [World.init, Store.empty],
      by simp [World.init, Store.empty]⟩
  exact ⟨h.1, h.2.1, h.2.2.1, h.2.2.2.1, by decide⟩

theorem pairInfoStep_extends (env : Env) (db : Store) (name : String) (pairID : Nat) (lct : Time) :
    (pairInfoStep env db name pairID lct).db.Extends db := by
  rcases pairInfoStep_effect env db name pairID lct with h | ⟨row, _, h⟩
  · rw [h]; exact Store.Extends.refl db
  · rw [h]
    exact ⟨List.prefix_refl _, List.prefix_refl _, List.prefix_append _ _, List.prefix_refl _⟩

theorem historicalStep_extends (env : Env) (db : Store) (name : String) (pairID : Nat)
    (lct : Time) : (historicalStep env db name pairID lct).db.Extends db := by
  rcases historicalStep_effect env db name pairID lct with h | ⟨row, _, h⟩
  · rw [h]; exact Store.Extends.refl db
  · rw [h]
    exact ⟨List.prefix_refl _, List.prefix_refl _, List.prefix_refl _, List.prefix_append _ _⟩

theorem SaveTradingPair_extends (fault : Option String) (db db1 : Store)
    (name base quote lu : String) (id : Nat)
    (h : SaveTradingPair fault db name base quote lu = .ok (db1, id)) : db1.Extends db := by
  obtain ⟨_, hdb1, _⟩ := SaveTradingPair_ok _ _ _ _ _ _ _ _ h
  rw [hdb1]
  exact ⟨List.prefix_refl _, List.prefix_append _ _, List.prefix_refl _, List.prefix_refl _⟩

/-- What the body of the pair loop does for a pair whose `TradingPair` row was
inserted, as one expression: the ticker-detail part, then the historical part
unless the first ended the iteration, then the remaining pairs. -/
theorem relationalSink_cons_of_saved (env : Env) (lct : Time) (pv : pairVolume)
    (rest : List pairVolume) (db db1 : Store) (pairID : Nat) (base quote : String)
    (hbase : mapGet pv.data "base" = some (.str base))
    (hquote : mapGet pv.data "quote" = some (.str quote))
    (hsave : SaveTradingPair (env.pairFault pv.name) db pv.name base quote (sqliteTimestamp lct)
      = .ok (db1, pairID)) :
    relationalSink env lct (pv :: rest) db =
      match pairInfoStep env db1 pv.name pairID lct with
      | .panic db2 => (db2, true)
      | .skip db2 => relationalSink env lct rest db2
      | .next db2 =>
        match historicalStep env db2 pv.name pairID lct with
        | .panic db3 => (db3, true)
        | .skip db3 => relationalSink env lct rest db3
        | .next db3 => relationalSink env lct rest db3 := by
  rw [relationalSink]
  simp only [hbase, hquote, hsave]

theorem relationalSink_extends (env : Env) (lct : Time) (l : List pairVolume) (db : Store) :
    (relationalSink env lct l db).1.Extends db := by
  induction l generalizing db with
  | nil => exact Store.Extends.refl db
  | cons pv rest ih =>
    unfold relationalSink
    split
    · split
      · exact ih db
      · rename_i db1 pairID hsave
        have h1 := SaveTradingPair_extends _ _ _ _ _ _ _ _ hsave
        have h2 := pairInfoStep_extends env db1 pv.name pairID lct
        split
        · rename_i db2 hstep
          rw [hstep] at h2
          exact Store.Extends.trans h2 h1
        · rename_i db2 hstep
          rw [hstep] at h2
          exact Store.Extends.trans (ih db2) (Store.Extends.trans h2 h1)
        · rename_i db2 hstep
          rw [hstep] at h2
          have h3 := historicalStep_extends env db2 pv.name pairID lct
          split
          · rename_i db3 hs3
            rw [hs3] at h3
            exact Store.Extends.trans h3 (Store.Extends.trans h2 h1)
          · rename_i db3 hs3
            rw [hs3] at h3
            exact Store.Extends.trans (ih db3) (Store.Extends.trans h3 (Store.Extends.trans h2 h1))
          · rename_i db3 hs3
            rw [hs3] at h3
            exact Store.Extends.trans (ih db3) (Store.Extends.trans h3 (Store.Extends.trans h2 h1))
    · exact Store.Extends.refl db

theorem relationalSink_new_refs (env : Env) (lct : Time) (l : List pairVolume) (db : Store) :
    (∀ r ∈ (relationalSink env lct l db).1.pair_info,
      r ∈ db.pair_info ∨ r.PairID ∉ db.trading_pairs.map (fun r => r.ID)) ∧
    (∀ r ∈ (relationalSink env lct l db).1.historical_data,
      r ∈ db.historical_data ∨ r.PairID ∉ db.trading_pairs.map (fun r => r.ID)) := by
  induction l generalizing db with
  | nil => exact ⟨fun r hr => Or.inl hr, fun r hr => Or.inl hr⟩
  | cons pv rest ih =>
    -- a store reached from `db1` by steps that add rows for the new key only
    have key : ∀ (db1 dbk : Store) (pairID : Nat),
        pairID ∉ db.trading_pairs.map (fun r => r.ID) →
        db.trading_pairs <+: dbk.trading_pairs →
        (∀ r ∈ dbk.pair_info, r ∈ db.pair_info ∨ r.PairID = pairID) →
        (∀ r ∈ dbk.historical_data, r ∈ db.historical_data ∨ r.PairID = pairID) →
        ∀ dbf : Store,
          ((∀ r ∈ dbf.pair_info,
              r ∈ dbk.pair_info ∨ r.PairID ∉ dbk.trading_pairs.map (fun r => r.ID)) ∧
            (∀ r ∈ dbf.historical_data,
              r ∈ dbk.historical_data ∨ r.PairID ∉ dbk.trading_pairs.map (fun r => r.ID))) →
          (∀ r ∈ dbf.pair_info,
              r ∈ db.pair_info ∨ r.PairID ∉ db.trading_pairs.map (fun r => r.ID)) ∧
            (∀ r ∈ dbf.historical_data,
              r ∈ db.historical_data ∨ r.PairID ∉ db.trading_pairs.map (fun r => r.ID)) := by
      intro db1 dbk pairID hfresh hpre hi hh dbf hf
      have hsub : ∀ x, x ∈ db.trading_pairs.map (fun r => r.ID) →
          x ∈ dbk.trading_pairs.map (fun r => r.ID) := by
        intro x hx
        obtain ⟨r, hr, he⟩ := List.mem_map.mp hx
        exact List.mem_map.mpr ⟨r, hpre.subset hr, he⟩
      constructor
      · intro r hr
        rcases hf.1 r hr with h | h
        · rcases hi r h with h' | h'
          · exact Or.inl h'
          · exact Or.inr (h' ▸ hfresh)
        · exact Or.inr (fun hx => h (hsub _ hx))
      · intro r hr
        rcases hf.2 r hr with h | h
        · rcases hh r h with h' | h'
          · exact Or.inl h'
          · exact Or.inr (h' ▸ hfresh)
        · exact Or.inr (fun hx => h (hsub _ hx))
    have same : ∀ dbk : Store, (∀ r ∈ dbk.pair_info, r ∈ dbk.pair_info ∨ r.PairID ∉
          dbk.trading_pairs.map (fun r => r.ID)) ∧
        (∀ r ∈ dbk.historical_data, r ∈ dbk.historical_data ∨ r.PairID ∉
          dbk.trading_pairs.map (fun r => r.ID)) :=
      fun dbk => ⟨fun r hr => Or.inl hr, fun r hr => Or.inl hr⟩
    unfold relationalSink
    split
    · rename_i base quote _ _
      split
      · exact ih db
      · rename_i db1 pairID hsave
        obtain ⟨hid, hdb1, _⟩ := SaveTradingPair_ok _ _ _ _ _ _ _ _ hsave
        have hfresh : pairID ∉ db.trading_pairs.map (fun r => r.ID) := by
          rw [hid]; exact nextID_not_mem _
        have hpre1 : db.trading_pairs <+: db1.trading_pairs :=
          (SaveTradingPair_extends _ _ _ _ _ _ _ _ hsave).2.1
        have hi1 : ∀ r ∈ db1.pair_info, r ∈ db.pair_info ∨ r.PairID = pairID := by
          rw [hdb1]; exact fun r hr => Or.inl hr
        have hh1 : ∀ r ∈ db1.historical_data, r ∈ db.historical_data ∨ r.PairID = pairID := by
          rw [hdb1]; exact fun r hr => Or.inl hr
        -- after the ticker-detail part
        have e2 := pairInfoStep_extends env db1 pv.name pairID lct
        have hi2 : ∀ r ∈ (pairInfoStep env db1 pv.name pairID lct).db.pair_info,
            r ∈ db.pair_info ∨ r.PairID = pairID := by
          rcases pairInfoStep_effect env db1 pv.name pairID lct with h | ⟨row, hrow, h⟩
          · rw [h]; exact hi1
          · rw [h]
            intro r hr
            rcases List.mem_append.mp hr with h' | h'
            · exact hi1 r h'
            · simp only [List.mem_singleton] at h'
              exact Or.inr (h' ▸ hrow)
        have hh2 : ∀ r ∈ (pairInfoStep env db1 pv.name pairID lct).db.historical_data,
            r ∈ db.historical_data ∨ r.PairID = pairID := by
          rcases pairInfoStep_effect env db1 pv.name pairID lct with h | ⟨row, hrow, h⟩
          · rw [h]; exact hh1
          · rw [h]; exact hh1
        have hpre2 := hpre1.trans e2.2.1
        -- after the historical part
        have step3 : ∀ db2 : Store, db.trading_pairs <+: db2.trading_pairs →
            (∀ r ∈ db2.pair_info, r ∈ db.pair_info ∨ r.PairID = pairID) →
            (∀ r ∈ db2.historical_data, r ∈ db.historical_data ∨ r.PairID = pairID) →
            db.trading_pairs <+: (historicalStep env db2 pv.name pairID lct).db.trading_pairs ∧
            (∀ r ∈ (historicalStep env db2 pv.name pairID lct).db.pair_info,
              r ∈ db.pair_info ∨ r.PairID = pairID) ∧
            (∀ r ∈ (historicalStep env db2 pv.name pairID lct).db.historical_data,
              r ∈ db.historical_data ∨ r.PairID = pairID) := by
          intro db2 hp hi hh
          rcases historicalStep_effect env db2 pv.name pairID lct with h | ⟨row, hrow, h⟩
          · rw [h]; exact ⟨hp, hi, hh⟩
          · rw [h]
            refine ⟨hp, hi, ?_⟩
            intro r hr
            rcases List.mem_append.mp hr with h' | h'
            · exact hh r h'
            · simp only [List.mem_singleton] at h'
              exact Or.inr (h' ▸ hrow)
        split
        · rename_i db2 hstep
          rw [hstep] at hi2 hh2 hpre2
          exact key db1 db2 pairID hfresh hpre2 hi2 hh2 db2 (same db2)
        · rename_i db2 hstep
          rw [hstep] at hi2 hh2 hpre2
          exact key db1 db2 pairID hfresh hpre2 hi2 hh2 _ (ih db2)
        · rename_i db2 hstep
          rw [hstep] at hi2 hh2 hpre2
          obtain ⟨hp3, hi3, hh3⟩ := step3 db2 hpre2 hi2 hh2
          split
          · rename_i db3 hs3
            rw [hs3] at hp3 hi3 hh3
            exact key db1 db3 pairID hfresh hp3 hi3 hh3 db3 (same db3)
          · rename_i db3 hs3
            rw [hs3] at hp3 hi3 hh3
            exact key db1 db3 pairID hfresh hp3 hi3 hh3 _ (ih db3)
          · rename_i db3 hs3
            rw [hs3] at hp3 hi3 hh3
            exact key db1 db3 pairID hfresh hp3 hi3 hh3 _ (ih db3)
    · exact ⟨fun r hr => Or.inl hr, fun r hr => Or.inl hr⟩

theorem relationalSink_extends_saved (env : Env) (lct : Time) (pv : pairVolume)
    (rest : List pairVolume) (db db1 : Store) (pairID : Nat) (base quote : String)
    (hbase : mapGet pv.data "base" = some (.str base))
    (hquote : mapGet pv.data "quote" = some (.str quote))
    (hsave : SaveTradingPair (env.pairFault pv.name) db pv.name base quote (sqliteTimestamp lct)
      = .ok (db1, pairID)) :
    (relationalSink env lct (pv :: rest) db).1.Extends db1 := by
  rw [relationalSink_cons_of_saved env lct pv rest db db1 pairID base quote hbase hquote hsave]
  have h2 := pairInfoStep_extends env db1 pv.name pairID lct
  cases hstep : pairInfoStep env db1 pv.name pairID lct with
  | panic db2 => rw [hstep] at h2; exact h2
  | skip db2 => rw [hstep] at h2; exact Store.Extends.trans (relationalSink_extends _ _ _ _) h2
  | next db2 =>
    rw [hstep] at h2
    have h3 := historicalStep_extends env db2 pv.name pairID lct
    simp only
    cases hs3 : historicalStep env db2 pv.name pairID lct with
    | panic db3 => rw [hs3] at h3; exact Store.Extends.trans h3 h2
    | skip db3 =>
      rw [hs3] at h3
      exact Store.Extends.trans (relationalSink_extends _ _ _ _) (Store.Extends.trans h3 h2)
    | next db3 =>
      rw [hs3] at h3
      exact Store.Extends.trans (relationalSink_extends _ _ _ _) (Store.Extends.trans h3 h2)

/-- C8, as the code has it. For a selected pair whose `TradingPair` row was
inserted (into a store that satisfies the uniqueness invariant):
(1) the row is still there when the pair loop ends;
(2) when the ticker-detail fetch fails, the loop moves on to the next pair at
once: no `PairInfo` row and no `HistoricalData` row is written for the pair,
the historical-candle part is not executed for it;
(3) when the fetch succeeds but the answer holds no record under the pair
name, only the `PairInfo` part is skipped: the loop goes on with the
historical-candle part of the same pair. -/
theorem detail_fetch_failure_scope (env : Env) (lct : Time) (pv : pairVolume)
    (rest : List pairVolume) (db db1 : Store) (pairID : Nat) (base quote : String)
    (hinv : StoreInv db)
    (hbase : mapGet pv.data "base" = some (.str base))
    (hquote : mapGet pv.data "quote" = some (.str quote))
    (hsave : SaveTradingPair (env.pairFault pv.name) db pv.name base quote (sqliteTimestamp lct)
      = .ok (db1, pairID)) :
    (⟨pairID, pv.name, base, quote, sqliteTimestamp lct⟩ : TradingPair)
      ∈ (relationalSink env lct (pv :: rest) db).1.trading_pairs ∧
    (∀ e, env.GetPairInfo pv.name = .error e →
      relationalSink env lct (pv :: rest) db = relationalSink env lct rest db1 ∧
      (∀ r ∈ (relationalSink env lct (pv :: rest) db).1.pair_info, r.PairID ≠ pairID) ∧
      (∀ r ∈ (relationalSink env lct (pv :: rest) db).1.historical_data, r.PairID ≠ pairID)) ∧
    (∀ info, env.GetPairInfo pv.name = .ok info → (∀ m, mapGet info pv.name ≠ some (.obj m)) →
      relationalSink env lct (pv :: rest) db =
        match historicalStep env db1 pv.name pairID lct with
        | .panic db3 => (db3, true)
        | .skip db3 => relationalSink env lct rest db3
        | .next db3 => relationalSink env lct rest db3) := by
  obtain ⟨hid, hdb1, _⟩ := SaveTradingPair_ok _ _ _ _ _ _ _ _ hsave
  have hcons := relationalSink_cons_of_saved env lct pv rest db db1 pairID base quote hbase hquote
    hsave
  refine ⟨?_, ?_, ?_⟩
  · have hext := relationalSink_extends_saved env lct pv rest db db1 pairID base quote hbase hquote
      hsave
    apply hext.2.1.subset
    rw [hdb1]
    simp
  · intro e he
    have hskip : pairInfoStep env db1 pv.name pairID lct = .skip db1 := by
      simp [pairInfoStep, he]
    have heq : relationalSink env lct (pv :: rest) db = relationalSink env lct rest db1 := by
      rw [hcons, hskip]
    have hfresh : pairID ∉ db.trading_pairs.map (fun r => r.ID) := by
      rw [hid]; exact nextID_not_mem _
    have hmem1 : pairID ∈ db1.trading_pairs.map (fun r => r.ID) := by
      rw [hdb1]; simp
    obtain ⟨_, _, _, _, h5, h6⟩ := hinv
    have hrefs := relationalSink_new_refs env lct rest db1
    refine ⟨heq, ?_, ?_⟩
    · intro r hr hrid
      rw [heq] at hr
      rcases hrefs.1 r hr with h | h
      · rw [hdb1] at h
        exact hfresh (hrid ▸ h5 r h)
      · exact h (hrid ▸ hmem1)
    · intro r hr hrid
      rw [heq] at hr
      rcases hrefs.2 r hr with h | h
      · rw [hdb1] at h
        exact hfresh (hrid ▸ h6 r h)
      · exact h (hrid ▸ hmem1)
  · intro info hinfo hnone
    have hnext : pairInfoStep env db1 pv.name pairID lct = .next db1 := by
      cases hm : mapGet info pv.name with
      | none => simp [pairInfoStep, hinfo, hm]
      | some j =>
        cases j with
        | obj m => exact absurd hm (hnone m)
        | null => simp [pairInfoStep, hinfo, hm]
        | bool _ => simp [pairInfoStep, hinfo, hm]
        | num _ => simp [pairInfoStep, hinfo, hm]
        | str _ => simp [pairInfoStep, hinfo, hm]
        | arr _ => simp [pairInfoStep, hinfo, hm]
    rw [hcons, hnext]

/-- Witness for C8: the sample pair in the sample run whose ticker-detail
fetch times out. -/
theorem detail_fetch_failure_scope_witness :
    relationalSink (detailFailEnv t0730) sampleBucket [samplePair] Store.empty
      = relationalSink (detailFailEnv t0730) sampleBucket []
          { Store.empty with trading_pairs :=
              [⟨1, "XBTUSD", "XBT", "USD", sqliteTimestamp sampleBucket⟩] } ∧
    (∀ r ∈ (relationalSink (detailFailEnv t0730) sampleBucket [samplePair] Store.empty).1.pair_info,
      r.PairID ≠ 1) ∧
    (∀ r ∈ (relationalSink (detailFailEnv t0730) sampleBucket [samplePair]
        Store.empty).1.historical_data, r.PairID ≠ 1) :=
  (detail_fetch_failure_scope (detailFailEnv t0730) sampleBucket samplePair [] Store.empty
    { Store.empty with trading_pairs := [⟨1, "XBTUSD", "XBT", "USD", sqliteTimestamp sampleBucket⟩] }
    1 "XBT" "USD"
    ⟨List.nodup_nil, List.nodup_nil, List.nodup_nil, List.nodup_nil, by simp [Store.empty],
      by simp [Store.empty]⟩
    rfl rfl rfl).2.1 "timeout" rfl

/-- C8 as stated fails. In the sample run whose ticker-detail fetch times out,
the `TradingPair` row of `XBTUSD` is inserted and the series the client returns
holds a candle at the bucket, which the historical-candle part would insert;
yet the run ends without any `HistoricalData` row. -/
theorem history_skipped_when_detail_fetch_fails :
    (SaveDataToDB (detailFailEnv t0730) World.init).1.db.trading_pairs
      = [⟨1, "XBTUSD", "XBT", "USD", "2024-01-01 00:05:00+00:00"⟩] ∧
    (SaveDataToDB (detailFailEnv t0730) World.init).1.db.historical_data = [] ∧
    (historicalStep (detailFailEnv t0730) (SaveDataToDB (detailFailEnv t0730) World.init).1.db
        "XBTUSD" 1 sampleBucket).db.historical_data.map (fun r => (r.PairID, r.Timestamp))
      = [(1, "2024-01-01 00:05:00+00:00")] := by
  decide

/-! ## The exact-match policy at the two sinks (C4) -/

/-- C4 (exact-match policy), as the code has it. The time of a candle is read
as `time.Unix(int64(candle[0]), 0)`: the number cut to whole seconds. Let
`b = t.Truncate(5 min)` and let the OHLC call of each sink return the series
`ohlc` for the pair.
(1) The iteration of `createCSV` for the pair writes no record (it moves on,
or the call ends there with an error or a panic) or exactly one record, built
from a candle of the series whose whole-second time is `b`.
(2) The historical part of the pair loop of `SaveDataToDB` leaves the store as
it is or appends exactly one `HistoricalData` row, built from a candle of the
series whose whole-second time is `b`.
(3) When no candle of the series has the whole-second time `b`, neither sink
gets a row for the pair.
(4) One pass of `createCSV` over any list of pairs appends at most one record
per pair, in the order of the pairs, each built from a candle of that pair
whose whole-second time is `b`.
(5) For a series with candles at `b-300`, `b`, `b+300` the record of
`createCSV` is the one of the candle at `b` and it is in the records the call
leaves, when the write succeeds; the row of `SaveDataToDB` is the one of the
candle at `b`, when the insert succeeds.
(6) The pair loop of `SaveDataToDB` goes on from the store its historical part
leaves, and the rows of that store stay in the store the loop ends with.
(7) The sample run, whose series holds the candles at 00:00, 00:05 and 00:10
for the bucket 00:05, leaves one record and one row, both of the candle at
00:05. -/
theorem exact_match_policy (env : Env) (t : Time) (pair : String) (rest : List String)
    (recs : List (List Cell)) (pairID : Nat) (db : Store)
    (data result hist histResult : List (String × JSON)) (ohlc : List JSON)
    (hcsv : env.csvGetHistoricalData pair 5 (t.Truncate (5 * Minute)).Unix = .ok data)
    (hres : mapGet data "result" = some (.obj result))
    (hser : mapGet result pair = some (.arr ohlc))
    (hdb : env.GetHistoricalData pair 5 (t.Truncate (5 * Minute)).Unix = .ok hist)
    (hres2 : mapGet hist "result" = some (.obj histResult))
    (hser2 : mapGet histResult pair = some (.arr ohlc)) :
    (csvRows env (t.Truncate (5 * Minute)) (pair :: rest) recs
        = csvRows env (t.Truncate (5 * Minute)) rest recs ∨
      (∃ out, out ≠ .ok ∧
        csvRows env (t.Truncate (5 * Minute)) (pair :: rest) recs = (recs, out)) ∨
      ∃ f o h l c x v r, JSON.arr (.num f :: o :: h :: l :: c :: x :: v :: r) ∈ ohlc ∧
        f.toInt64 = (t.Truncate (5 * Minute)).Unix ∧
        csvRows env (t.Truncate (5 * Minute)) (pair :: rest) recs
          = csvRows env (t.Truncate (5 * Minute)) rest
              (recs ++ [[.text pair, .text (formatDateTime (timeUnix env.localLoc f.toInt64)),
                         .value o, .value h, .value l, .value c, .value v]])) ∧
    ((historicalStep env db pair pairID (t.Truncate (5 * Minute))).db = db ∨
      ∃ f o h l c x v r,
        JSON.arr (.num f :: .str o :: .str h :: .str l :: .str c :: x :: .str v :: r) ∈ ohlc ∧
        f.toInt64 = (t.Truncate (5 * Minute)).Unix ∧
        historicalStep env db pair pairID (t.Truncate (5 * Minute)) =
          .next { db with historical_data := db.historical_data ++
            [⟨nextID (db.historical_data.map (fun r => r.ID)), pairID,
              sqliteTimestamp (timeUnix env.localLoc f.toInt64), (ParseFloat o).1,
              (ParseFloat h).1, (ParseFloat l).1, (ParseFloat c).1, (ParseFloat v).1⟩] }) ∧
    ((∀ candleData f, JSON.arr candleData ∈ ohlc → candleData.head? = some (.num f) →
        f.toInt64 ≠ (t.Truncate (5 * Minute)).Unix) →
      (csvRows env (t.Truncate (5 * Minute)) (pair :: rest) recs
          = csvRows env (t.Truncate (5 * Minute)) rest recs ∨
        csvRows env (t.Truncate (5 * Minute)) (pair :: rest) recs = (recs, .panic)) ∧
      (historicalStep env db pair pairID (t.Truncate (5 * Minute))).db = db) ∧
    (∀ pairs : List String, ∃ newRecs,
      (csvRows env (t.Truncate (5 * Minute)) pairs recs).1 = recs ++ newRecs ∧
      (newRecs.map recordPair).Sublist (pairs.map some) ∧
      ∀ record ∈ newRecs, ∃ p d res series f o h l c x v r, p ∈ pairs ∧
        env.csvGetHistoricalData p 5 (t.Truncate (5 * Minute)).Unix = .ok d ∧
        mapGet d "result" = some (.obj res) ∧ mapGet res p = some (.arr series) ∧
        JSON.arr (.num f :: o :: h :: l :: c :: x :: v :: r) ∈ series ∧
        f.toInt64 = (t.Truncate (5 * Minute)).Unix ∧
        record = [.text p, .text (formatDateTime (timeUnix env.localLoc f.toInt64)),
                  .value o, .value h, .value l, .value c, .value v]) ∧
    (∀ (f1 f2 f3 : Float64) (o1 h1 l1 c1 w1 v1 o h l c w v o3 h3 l3 c3 w3 v3 : String)
        (r1 r2 r3 : List JSON),
      ohlc = [.arr (.num f1 :: .str o1 :: .str h1 :: .str l1 :: .str c1 :: .str w1 :: .str v1 :: r1),
              .arr (.num f2 :: .str o :: .str h :: .str l :: .str c :: .str w :: .str v :: r2),
              .arr (.num f3 :: .str o3 :: .str h3 :: .str l3 :: .str c3 :: .str w3 :: .str v3
                :: r3)] →
      f1.toInt64 = (t.Truncate (5 * Minute)).Unix - 300 →
      f2.toInt64 = (t.Truncate (5 * Minute)).Unix →
      f3.toInt64 = (t.Truncate (5 * Minute)).Unix + 300 →
      (env.csvWriteFault recs.length = none →
        csvRows env (t.Truncate (5 * Minute)) (pair :: rest) recs
          = csvRows env (t.Truncate (5 * Minute)) rest
              (recs ++ [[.text pair, .text (formatDateTime (timeUnix env.localLoc f2.toInt64)),
                         .value (.str o), .value (.str h), .value (.str l), .value (.str c),
                         .value (.str v)]]) ∧
        (recs ++ [[.text pair, .text (formatDateTime (timeUnix env.localLoc f2.toInt64)),
                   .value (.str o), .value (.str h), .value (.str l), .value (.str c),
                   .value (.str v)]])
          <+: (csvRows env (t.Truncate (5 * Minute)) (pair :: rest) recs).1) ∧
      (env.historicalFault pair 1 = none →
        historicalStep env db pair pairID (t.Truncate (5 * Minute))
          = .next { db with historical_data := db.historical_data ++
              [⟨nextID (db.historical_data.map (fun r => r.ID)), pairID,
                sqliteTimestamp (timeUnix env.localLoc f2.toInt64), (ParseFloat o).1,
                (ParseFloat h).1, (ParseFloat l).1, (ParseFloat c).1, (ParseFloat v).1⟩] })) ∧
    (∀ (pv : pairVolume) (others : List pairVolume) (db0 db1 db3 : Store) (base quote : String),
      pv.name = pair →
      mapGet pv.data "base" = some (.str base) → mapGet pv.data "quote" = some (.str quote) →
      SaveTradingPair (env.pairFault pair) db0 pair base quote
        (sqliteTimestamp (t.Truncate (5 * Minute))) = .ok (db1, pairID) →
      pairInfoStep env db1 pair pairID (t.Truncate (5 * Minute)) = .next db →
      historicalStep env db pair pairID (t.Truncate (5 * Minute)) = .next db3 →
      relationalSink env (t.Truncate (5 * Minute)) (pv :: others) db0
        = relationalSink env (t.Truncate (5 * Minute)) others db3 ∧
      db3.historical_data
        <+: (relationalSink env (t.Truncate (5 * Minute)) (pv :: others) db0).1.historical_data) ∧
    (csvTexts (SaveDataToDB (sampleEnv t0730) World.init).1.csv
      = [("top10_5min_highlow_20240101_000500.csv",
          [[some "Pair", some "Timestamp", some "Open", some "High", some "Low", some "Close",
            some "Volume"],
           [some "XBTUSD", some "2024-01-01 00:05:00", some "42000.0", some "42100.0",
            some "41900.0", some "42050.0", some "12.5"]])] ∧
      (SaveDataToDB (sampleEnv t0730) World.init).1.db.historical_data
        = [⟨1, 1, "2024-01-01 00:05:00+00:00", (ParseFloat "42000.0").1,
            (ParseFloat "42100.0").1, (ParseFloat "41900.0").1, (ParseFloat "42050.0").1,
            (ParseFloat "12.5").1⟩]) := by
  have hstep := historicalStep_of_series env (t.Truncate (5 * Minute)) pair pairID db hist
    histResult ohlc hdb hres2 hser2
  obtain ⟨hnone, hpanic, hfound⟩ := csvRows_of_series env (t.Truncate (5 * Minute)) pair rest recs
    data result ohlc hcsv hres hser
  have hno_csv : (∀ candleData f, JSON.arr candleData ∈ ohlc → candleData.head? = some (.num f) →
        f.toInt64 ≠ (t.Truncate (5 * Minute)).Unix) →
      ∀ candleData f, JSON.arr candleData ∈ ohlc → candleData.head? = some (.num f) →
        (timeUnix env.localLoc f.toInt64).Equal (t.Truncate (5 * Minute)) = false := by
    intro hno cd f hm hh
    have := hno cd f hm hh
    rw [← Bool.not_eq_true, equal_bucket_iff]
    exact this
  refine ⟨?_, ?_, ?_, ?_, ?_, ?_, by decide, by decide⟩
  · cases hf : findCandleCSV env.localLoc (t.Truncate (5 * Minute)) pair ohlc with
    | none => exact Or.inl (hnone hf)
    | panic => exact Or.inr (Or.inl ⟨.panic, by simp, hpanic hf⟩)
    | found record =>
      cases hw : env.csvWriteFault recs.length with
      | some e => exact Or.inr (Or.inl ⟨.error (.writeRecord e), by simp, (hfound record hf).1 e hw⟩)
      | none =>
        obtain ⟨f, o, h, l, c, x, v, r, hm, he, hr⟩ := findCandleCSV_found _ _ _ _ _ hf
        refine Or.inr (Or.inr ⟨f, o, h, l, c, x, v, r, hm, (equal_bucket_iff _ _ _).mp he, ?_⟩)
        rw [← hr]
        exact (hfound record hf).2 hw
  · rw [hstep]
    rcases candleLoop_spec env pair pairID (t.Truncate (5 * Minute)) ohlc 0 db with h0 | h0
    · exact Or.inl h0
    · obtain ⟨f, o, h, l, c, x, v, r, hm, he, hr⟩ := h0
      exact Or.inr ⟨f, o, h, l, c, x, v, r, hm, (equal_bucket_iff _ _ _).mp he, hr⟩
  · intro hno
    constructor
    · cases hf : findCandleCSV env.localLoc (t.Truncate (5 * Minute)) pair ohlc with
      | none => exact Or.inl (hnone hf)
      | panic => exact Or.inr (hpanic hf)
      | found record => exact absurd hf (findCandleCSV_no_match _ _ _ _ (hno_csv hno) record)
    · rw [hstep]
      rcases candleLoop_spec env pair pairID (t.Truncate (5 * Minute)) ohlc 0 db with h0 | h0
      · exact h0
      · obtain ⟨f, o, h, l, c, x, v, r, hm, he, _⟩ := h0
        exact absurd ((equal_bucket_iff _ _ _).mp he) (hno _ f hm rfl)
  · intro pairs
    obtain ⟨newRecs, h1, h2, h3⟩ := csvRows_from_matching_candle env (t.Truncate (5 * Minute))
      pairs recs
    refine ⟨newRecs, h1, h2, ?_⟩
    intro record hr
    obtain ⟨p, d, res, series, f, o, h, l, c, x, v, r, hp, hd, hre, hse, hm, he, hrec⟩ :=
      h3 record hr
    exact ⟨p, d, res, series, f, o, h, l, c, x, v, r, hp, hd, hre, hse, hm,
      (equal_bucket_iff _ _ _).mp he, hrec⟩
  · intro f1 f2 f3 o1 h1 l1 c1 w1 v1 o h l c w v o3 h3 l3 c3 w3 v3 r1 r2 r3 hohlc e1 e2 e3
    have n1 : (timeUnix env.localLoc f1.toInt64).Equal (t.Truncate (5 * Minute)) = false := by
      rw [← Bool.not_eq_true, equal_bucket_iff]; omega
    have n2 : (timeUnix env.localLoc f2.toInt64).Equal (t.Truncate (5 * Minute)) = true := by
      rw [equal_bucket_iff]; exact e2
    constructor
    · intro hw
      have hf : findCandleCSV env.localLoc (t.Truncate (5 * Minute)) pair ohlc
          = .found [.text pair, .text (formatDateTime (timeUnix env.localLoc f2.toInt64)),
                    .value (.str o), .value (.str h), .value (.str l), .value (.str c),
                    .value (.str v)] := by
        rw [hohlc]
        simp [findCandleCSV, n1, n2]
      have hrow := (hfound _ hf).2 hw
      refine ⟨hrow, ?_⟩
      rw [hrow]
      exact csvRows_prefix env _ rest _
    · intro hf
      rw [hstep, hohlc]
      simp [candleLoop, n1, n2, SaveHistoricalData, hf]
  · intro pv others db0 db1 db3 base quote hname hbase hquote hsave hinfo hhist
    subst hname
    have hcons := relationalSink_cons_of_saved env (t.Truncate (5 * Minute)) pv others db0 db1
      pairID base quote hbase hquote hsave
    rw [hinfo] at hcons
    simp only [hhist] at hcons
    refine ⟨hcons, ?_⟩
    rw [hcons]
    exact (relationalSink_extends env (t.Truncate (5 * Minute)) others db3).2.2.2

/-- Witness for C4: the sample series with candles at 00:00, 00:05 and 00:10
for the bucket 00:05. Both sinks take the candle at 00:05 and the pair loop
goes on from the store with its row; a series holding only the two neighbours
leaves both sinks without a row. -/
theorem exact_match_policy_witness :
    csvRows (sampleEnv t0730) (Time.Truncate ⟨t0730, UTC⟩ (5 * Minute)) ["XBTUSD"] [csvHeader]
      = csvRows (sampleEnv t0730) (Time.Truncate ⟨t0730, UTC⟩ (5 * Minute)) []
          ([csvHeader] ++ [[.text "XBTUSD",
            .text (formatDateTime (timeUnix UTC (roundToFloat64 false 1704067500 1).1.toInt64)),
            .value (.str "42000.0"), .value (.str "42100.0"), .value (.str "41900.0"),
            .value (.str "42050.0"), .value (.str "12.5")]]) ∧
    historicalStep (sampleEnv t0730) sampleInfoStore "XBTUSD" 1
        (Time.Truncate ⟨t0730, UTC⟩ (5 * Minute))
      = .next { sampleInfoStore with historical_data := sampleInfoStore.historical_data ++
          [⟨nextID (sampleInfoStore.historical_data.map (fun r => r.ID)), 1,
            sqliteTimestamp (timeUnix UTC (roundToFloat64 false 1704067500 1).1.toInt64),
            (ParseFloat "42000.0").1, (ParseFloat "42100.0").1, (ParseFloat "41900.0").1,
            (ParseFloat "42050.0").1, (ParseFloat "12.5").1⟩] } ∧
    relationalSink (sampleEnv t0730) (Time.Truncate ⟨t0730, UTC⟩ (5 * Minute)) [samplePair]
        Store.empty
      = relationalSink (sampleEnv t0730) (Time.Truncate ⟨t0730, UTC⟩ (5 * Minute)) []
          (historicalStep (sampleEnv t0730) sampleInfoStore "XBTUSD" 1
            (Time.Truncate ⟨t0730, UTC⟩ (5 * Minute))).db ∧
    (historicalStep (neighboursEnv t0730) sampleInfoStore "XBTUSD" 1
        (Time.Truncate ⟨t0730, UTC⟩ (5 * Minute))).db = sampleInfoStore ∧
    (csvRows (neighboursEnv t0730) (Time.Truncate ⟨t0730, UTC⟩ (5 * Minute)) ["XBTUSD"] [csvHeader]
        = csvRows (neighboursEnv t0730) (Time.Truncate ⟨t0730, UTC⟩ (5 * Minute)) [] [csvHeader] ∨
      csvRows (neighboursEnv t0730) (Time.Truncate ⟨t0730, UTC⟩ (5 * Minute)) ["XBTUSD"]
        [csvHeader] = ([csvHeader], .panic)) :=
  have h := exact_match_policy (sampleEnv t0730) ⟨t0730, UTC⟩ "XBTUSD" [] [csvHeader] 1
    sampleInfoStore (sampleOHLC "XBTUSD" 1704067500)
    [("XBTUSD", .arr [candleAt 1704067200 "41000.0", candleAt 1704067500 "42000.0",
                      candleAt 1704067800 "43000.0"]), ("last", jsonInt 1704067500)]
    (sampleOHLC "XBTUSD" 1704067500)
    [("XBTUSD", .arr [candleAt 1704067200 "41000.0", candleAt 1704067500 "42000.0",
                      candleAt 1704067800 "43000.0"]), ("last", jsonInt 1704067500)]
    [candleAt 1704067200 "41000.0", candleAt 1704067500 "42000.0", candleAt 1704067800 "43000.0"]
    rfl rfl rfl rfl rfl rfl
  have h5 := h.2.2.2.2.1 (roundToFloat64 false 1704067200 1).1 (roundToFloat64 false 1704067500 1).1
    (roundToFloat64 false 1704067800 1).1
    "41000.0" "42100.0" "41900.0" "42050.0" "42010.0" "12.5"
    "42000.0" "42100.0" "41900.0" "42050.0" "42010.0" "12.5"
    "43000.0" "42100.0" "41900.0" "42050.0" "42010.0" "12.5"
    [jsonInt 7] [jsonInt 7] [jsonInt 7] rfl (by decide) (by decide) (by decide)
  have g := exact_match_policy (neighboursEnv t0730) ⟨t0730, UTC⟩ "XBTUSD" [] [csvHeader] 1
    sampleInfoStore
    [("error", .arr []),
     ("result", .obj [("XBTUSD", .arr [candleAt 1704067200 "41000.0",
                                       candleAt 1704067800 "43000.0"])])]
    [("XBTUSD", .arr [candleAt 1704067200 "41000.0", candleAt 1704067800 "43000.0"])]
    [("error", .arr []),
     ("result", .obj [("XBTUSD", .arr [candleAt 1704067200 "41000.0",
                                       candleAt 1704067800 "43000.0"])])]
    [("XBTUSD", .arr [candleAt 1704067200 "41000.0", candleAt 1704067800 "43000.0"])]
    [candleAt 1704067200 "41000.0", candleAt 1704067800 "43000.0"]
    rfl rfl rfl rfl rfl rfl
  have g3 := g.2.2.1 (by
    intro cd f hm hh
    simp only [List.mem_cons, List.mem_singleton, candleAt, JSON.arr.injEq, List.not_mem_nil,
      or_false] at hm
    rcases hm with rfl | rfl
    · simp only [List.head?_cons, Option.some.injEq, jsonInt, JSON.num.injEq] at hh
      subst hh
      decide
    · simp only [List.head?_cons, Option.some.injEq, jsonInt, JSON.num.injEq] at hh
      subst hh
      decide)
  ⟨(h5.1 rfl).1, h5.2 rfl,
   (h.2.2.2.2.2.1 samplePair [] Store.empty samplePairStore
      (historicalStep (sampleEnv t0730) sampleInfoStore "XBTUSD" 1
        (Time.Truncate ⟨t0730, UTC⟩ (5 * Minute))).db "XBT" "USD" rfl rfl rfl rfl rfl
      (by rw [h5.2 rfl]; rfl)).1,
   g3.2, g3.1⟩

/-- C4 as stated fails. The series of the pair holds one candle, at
`1704067500.5`: half a second after the bucket 2024-01-01T00:05:00Z
(`1704067500`), so no candle's timestamp equals the bucket. The conversion
`int64` cuts the time to `1704067500`, the candle is taken as a match, and the
run writes its record to the artifact and its row to the store, both under the
time 00:05:00. -/
theorem candle_off_the_bucket_is_taken :
    sampleBucket.Unix = 1704067500 ∧
    (ParseFloat "1704067500.5").1.gt (roundToFloat64 false 1704067500 1).1 = true ∧
    (ParseFloat "1704067500.5").1.toInt64 = 1704067500 ∧
    csvTexts (SaveDataToDB (halfSecondEnv t0730) World.init).1.csv
      = [("top10_5min_highlow_20240101_000500.csv",
          [[some "Pair", some "Timestamp", some "Open", some "High", some "Low", some "Close",
            some "Volume"],
           [some "XBTUSD", some "2024-01-01 00:05:00", some "42000.0", some "42100.0",
            some "41900.0", some "42050.0", some "12.5"]])] ∧
    (SaveDataToDB (halfSecondEnv t0730) World.init).1.db.historical_data
      = [⟨1, 1, "2024-01-01 00:05:00+00:00", (ParseFloat "42000.0").1, (ParseFloat "42100.0").1,
          (ParseFloat "41900.0").1, (ParseFloat "42050.0").1, (ParseFloat "12.5").1⟩] := by
  decide

/-! ## The heartbeat record (C7) -/

/-- C7, where the code departs from it. When the status fetch fails,
`SaveDataToDB` returns the error at once: the world is unchanged, so no
`ServerStatus` record is written for that run. -/
theorem no_heartbeat_when_status_fetch_fails (env : Env) (w : World) (e : String)
    (h : env.GetServerStatus = .error e) :
    SaveDataToDB env w = (w, .error e) := by
  simp [SaveDataToDB, h]

/-- Witness for C7: a run whose status fetch times out leaves `server_status`
empty. -/
theorem no_heartbeat_when_status_fetch_fails_witness :
    (SaveDataToDB { sampleEnv t0730 with GetServerStatus := .error "timeout" } World.init).1.db.server_status
      = [] :=
  congrArg (fun r => r.1.db.server_status)
    (no_heartbeat_when_status_fetch_fails
      { sampleEnv t0730 with GetServerStatus := .error "timeout" } World.init "timeout" rfl)

theorem relationalSink_server_status (env : Env) (lct : Time) (l : List pairVolume) (db : Store) :
    (relationalSink env lct l db).1.server_status = db.server_status := by
  induction l generalizing db with
  | nil => rfl
  | cons pv rest ih =>
    unfold relationalSink
    split
    · split
      · exact ih db
      · rename_i db1 pairID hsave
        obtain ⟨_, hdb1, _⟩ := SaveTradingPair_ok _ _ _ _ _ _ _ _ hsave
        have h1 : db1.server_status = db.server_status := by rw [hdb1]
        have h2 : (pairInfoStep env db1 pv.name pairID lct).db.server_status = db.server_status := by
          rcases pairInfoStep_effect env db1 pv.name pairID lct with h | ⟨row, _, h⟩
          · rw [h]; exact h1
          · rw [h]; exact h1
        have h3 : ∀ db2 : Store, db2.server_status = db.server_status →
            (historicalStep env db2 pv.name pairID lct).db.server_status = db.server_status := by
          intro db2 hdb2
          rcases historicalStep_effect env db2 pv.name pairID lct with h | ⟨row, _, h⟩
          · rw [h]; exact hdb2
          · rw [h]; exact hdb2
        split
        · rename_i db2 hstep
          rw [hstep] at h2; exact h2
        · rename_i db2 hstep
          rw [hstep] at h2; exact (ih db2).trans h2
        · rename_i db2 hstep
          rw [hstep] at h2
          have h4 := h3 db2 h2
          split
          · rename_i db3 hs3
            rw [hs3] at h4; exact h4
          · rename_i db3 hs3
            rw [hs3] at h4; exact (ih db3).trans h4
          · rename_i db3 hs3
            rw [hs3] at h4; exact (ih db3).trans h4
    · rfl

/-- The part of C7 the code keeps: once the status fetch and the insert of the
record have succeeded, the run leaves exactly one new `ServerStatus` record,
whatever fails afterwards (pair listing, CSV sink, a later insert, a panic). -/
theorem heartbeat_written_once_after_status_ok (env : Env) (w : World)
    (hs : env.GetServerStatus = .ok ()) (hf : env.statusFault = none) :
    (SaveDataToDB env w).1.db.server_status = w.db.server_status ++
      [⟨nextID (w.db.server_status.map (fun r => r.ID)),
        sqliteTimestamp ⟨env.statusNow, env.localLoc⟩, "online", "[]"⟩] := by
  unfold SaveDataToDB
  simp only [hs, SaveServerStatus, hf]
  split
  · rfl
  · split
    · rfl
    · split
      · rename_i db2 hrs
        have h := congrArg (fun r : Store × Bool => r.1.server_status) hrs
        simp only [relationalSink_server_status] at h
        exact h.symm
      · rename_i db2 hrs
        have h := congrArg (fun r : Store × Bool => r.1.server_status) hrs
        simp only [relationalSink_server_status] at h
        exact h.symm

/-- Witness: the sample run whose pair listing fails still leaves one record. -/
theorem heartbeat_written_once_after_status_ok_witness :
    (SaveDataToDB { sampleEnv t0730 with GetTradingPairs := .error "timeout" }
        World.init).1.db.server_status
      = [⟨1, "2024-01-01 00:07:30+00:00", "online", "[]"⟩] :=
  heartbeat_written_once_after_status_ok
    { sampleEnv t0730 with GetTradingPairs := .error "timeout" } World.init rfl rfl

/-! ## The `/api/db` response (C10) -/

/-- C10, where the code departs from it. After two runs in two different
buckets the store holds two `XBTUSD` rows (keys 1 and 2), each with its
`pair_info` and `historical_data` row. The response of `GetDBData` reports
`count = 2` but holds a single entry, the row of the older bucket: the row
with key 2 and its child rows are missing. -/
theorem db_response_drops_rows_sharing_a_name :
    (runs [sampleEnv t0730, sampleEnv t1230] World.init).db.trading_pairs
      = [⟨1, "XBTUSD", "XBT", "USD", "2024-01-01 00:05:00+00:00"⟩,
         ⟨2, "XBTUSD", "XBT", "USD", "2024-01-01 00:10:00+00:00"⟩] ∧
    (runs [sampleEnv t0730, sampleEnv t1230] World.init).db.pair_info.map (fun r => r.PairID) = [1, 2] ∧
    (runs [sampleEnv t0730, sampleEnv t1230] World.init).db.historical_data.map (fun r => r.PairID)
      = [1, 2] ∧
    (GetDBData (runs [sampleEnv t0730, sampleEnv t1230] World.init).db).count = 2 ∧
    (GetDBData (runs [sampleEnv t0730, sampleEnv t1230] World.init).db).pairs.map
        (fun kv => (kv.1, kv.2.pair_info.ID, kv.2.info.map (fun r => r.PairID),
                    kv.2.historical.map (fun r => r.PairID)))
      = [("XBTUSD", 1, [1], [1])] := by
  decide

theorem mapSet_keys {β : Type} (m : List (String × β)) (k : String) (v : β) :
    (mapSet m k v).map Prod.fst = if k ∈ m.map Prod.fst then m.map Prod.fst
      else m.map Prod.fst ++ [k] := by
  induction m with
  | nil => simp [mapSet]
  | cons p r ih =>
    obtain ⟨a, w⟩ := p
    unfold mapSet
    by_cases h : a = k
    · simp [h]
    · have hk : ¬ k = a := fun e => h e.symm
      simp only [h, if_false, List.map_cons, ih, List.mem_cons, hk, false_or]
      split <;> simp

theorem foldl_mapSet_keys {α β : Type} (key : α → String) (val : α → β) (rows : List α)
    (m : List (String × β)) (hm : (m.map Prod.fst).Nodup) :
    ((rows.foldl (fun result row => mapSet result (key row) (val row)) m).map Prod.fst).Nodup ∧
    ∀ k ∈ (rows.foldl (fun result row => mapSet result (key row) (val row)) m).map Prod.fst,
      k ∈ m.map Prod.fst ∨ k ∈ rows.map key := by
  induction rows generalizing m with
  | nil => exact ⟨hm, fun k hk => Or.inl hk⟩
  | cons row rest ih =>
    simp only [List.foldl_cons]
    have hm1 : ((mapSet m (key row) (val row)).map Prod.fst).Nodup := by
      rw [mapSet_keys]
      split
      · exact hm
      · rename_i hk
        rw [List.nodup_append]
        exact ⟨hm, List.nodup_singleton _, by
          intro a ha hb
          simp only [List.mem_singleton] at hb
          exact hk (hb ▸ ha)⟩
    obtain ⟨h1, h2⟩ := ih _ hm1
    refine ⟨h1, ?_⟩
    intro k hk
    rcases h2 k hk with h | h
    · rw [mapSet_keys] at h
      split at h
      · exact Or.inl h
      · rcases List.mem_append.mp h with h' | h'
        · exact Or.inl h'
        · simp only [List.mem_singleton] at h'
          exact Or.inr (by simp [h'])
    · exact Or.inr (by simp only [List.map_cons, List.mem_cons]; exact Or.inr h)

/-- The response of `GetDBData` holds at most one entry per pair name, while
`count` is the number of rows: as soon as two persisted rows share a name, the
response holds fewer entries than rows. -/
theorem db_response_one_entry_per_name (db : Store) :
    ((GetDBData db).pairs.map Prod.fst).Nodup ∧
    (GetDBData db).count = db.trading_pairs.length ∧
    (¬ (db.trading_pairs.map (fun r => r.Name)).Nodup →
      (GetDBData db).pairs.length < (GetDBData db).count) := by
  have hperm := sortSlice_perm (fun a b : TradingPair => textLt b.LastUpdated a.LastUpdated)
    db.trading_pairs
  obtain ⟨hnd, hsub⟩ := foldl_mapSet_keys (fun r : TradingPair => r.Name)
    (fun pair => (⟨pair, GetPairInfoFromDB db pair.ID, GetHistoricalDataFromDB db pair.ID⟩ : DBEntry))
    (GetTradingPairsFromDB db) [] List.nodup_nil
  have hcount : (GetDBData db).count = db.trading_pairs.length := hperm.length_eq
  refine ⟨hnd, hcount, ?_⟩
  intro hdup
  have hsubset : (GetDBData db).pairs.map Prod.fst ⊆ (db.trading_pairs.map (fun r => r.Name)).dedup := by
    intro k hk
    rcases hsub k hk with h | h
    · simp at h
    · rw [List.mem_dedup]
      exact (hperm.map _).mem_iff.mp h
  have hle : ((GetDBData db).pairs.map Prod.fst).length
      ≤ ((db.trading_pairs.map (fun r => r.Name)).dedup).length :=
    (List.Nodup.subperm hnd hsubset).length_le
  have hlt : ((db.trading_pairs.map (fun r => r.Name)).dedup).length
      < (db.trading_pairs.map (fun r => r.Name)).length := by
    rcases Nat.lt_or_ge ((db.trading_pairs.map (fun r => r.Name)).dedup).length
      (db.trading_pairs.map (fun r => r.Name)).length with h | h
    · exact h
    · exfalso
      apply hdup
      have := (List.dedup_sublist (db.trading_pairs.map (fun r => r.Name))).eq_of_length_le h
      exact List.dedup_eq_self.mp this
  rw [hcount]
  simp only [List.length_map] at hle hlt
  omega

/-- Witness: the store after two sample runs in two buckets. -/
theorem db_response_one_entry_per_name_witness :
    (GetDBData (runs [sampleEnv t0730, sampleEnv t1230] World.init).db).pairs.length
      < (GetDBData (runs [sampleEnv t0730, sampleEnv t1230] World.init).db).count :=
  (db_response_one_entry_per_name (runs [sampleEnv t0730, sampleEnv t1230] World.init).db).2.2
    (by decide)

/-! ## The file name round trip (C11) -/

theorem yoe_doy_bounds (doe : Int) (h0 : 0 ≤ doe) (h1 : doe ≤ 146096) :
    0 ≤ (doe - doe / 1460 + doe / 36524 - doe / 146096) / 365 ∧
    (doe - doe / 1460 + doe / 36524 - doe / 146096) / 365 ≤ 399 ∧
    0 ≤ doe - (365 * ((doe - doe / 1460 + doe / 36524 - doe / 146096) / 365)
        + ((doe - doe / 1460 + doe / 36524 - doe / 146096) / 365) / 4
        - ((doe - doe / 1460 + doe / 36524 - doe / 146096) / 365) / 100) ∧
    doe - (365 * ((doe - doe / 1460 + doe / 36524 - doe / 146096) / 365)
        + ((doe - doe / 1460 + doe / 36524 - doe / 146096) / 365) / 4
        - ((doe - doe / 1460 + doe / 36524 - doe / 146096) / 365) / 100) ≤ 365 ∧
    (doe - (365 * ((doe - doe / 1460 + doe / 36524 - doe / 146096) / 365)
        + ((doe - doe / 1460 + doe / 36524 - doe / 146096) / 365) / 4
        - ((doe - doe / 1460 + doe / 36524 - doe / 146096) / 365) / 100) = 365 →
      ((doe - doe / 1460 + doe / 36524 - doe / 146096) / 365 + 1) % 4 = 0 ∧
      (((doe - doe / 1460 + doe / 36524 - doe / 146096) / 365 + 1) % 100 ≠ 0 ∨
        (doe - doe / 1460 + doe / 36524 - doe / 146096) / 365 = 399)) := by
  by_cases hlast : doe = 146096
  · subst hlast; decide
  have hf : doe / 146096 = 0 := by omega
  have he : doe / 36524 = 0 ∨ doe / 36524 = 1 ∨ doe / 36524 = 2 ∨ doe / 36524 = 3 := by omega
  rw [hf]
  rcases he with he | he | he | he <;> rw [he]
  · generalize hy : (doe - doe / 1460 + 0 - 0) / 365 = y
    have hy100 : y / 100 = 0 := by omega
    rw [hy100]
    have hy4 : y % 4 = 0 ∨ y % 4 = 1 ∨ y % 4 = 2 ∨ y % 4 = 3 := by omega
    refine ⟨by omega, by omega, by omega, by omega, ?_⟩
    intro hd
    rcases hy4 with hy4 | hy4 | hy4 | hy4 <;> omega
  · generalize hy : (doe - doe / 1460 + 1 - 0) / 365 = y
    have hy100 : y / 100 = 1 := by omega
    rw [hy100]
    have hy4 : y % 4 = 0 ∨ y % 4 = 1 ∨ y % 4 = 2 ∨ y % 4 = 3 := by omega
    refine ⟨by omega, by omega, by omega, by omega, ?_⟩
    intro hd
    rcases hy4 with hy4 | hy4 | hy4 | hy4 <;> omega
  · generalize hy : (doe - doe / 1460 + 2 - 0) / 365 = y
    have hy100 : y / 100 = 2 := by omega
    rw [hy100]
    have hy4 : y % 4 = 0 ∨ y % 4 = 1 ∨ y % 4 = 2 ∨ y % 4 = 3 := by omega
    refine ⟨by omega, by omega, by omega, by omega, ?_⟩
    intro hd
    rcases hy4 with hy4 | hy4 | hy4 | hy4 <;> omega
  · generalize hy : (doe - doe / 1460 + 3 - 0) / 365 = y
    have hy100 : y / 100 = 3 := by omega
    rw [hy100]
    have hy4 : y % 4 = 0 ∨ y % 4 = 1 ∨ y % 4 = 2 ∨ y % 4 = 3 := by omega
    refine ⟨by omega, by omega, by omega, by omega, ?_⟩
    intro hd
    rcases hy4 with hy4 | hy4 | hy4 | hy4 <;> omega

theorem civilFromDays_spec (z : Int) :
    ∃ era doe yoe doy mp : Int,
      0 ≤ doe ∧ doe ≤ 146096 ∧ 0 ≤ yoe ∧ yoe ≤ 399 ∧ 0 ≤ doy ∧ doy ≤ 365 ∧
      (doy = 365 → (yoe + 1) % 4 = 0 ∧ ((yoe + 1) % 100 ≠ 0 ∨ yoe = 399)) ∧
      z + 719468 = era * 146097 + doe ∧
      doe = 365 * yoe + yoe / 4 - yoe / 100 + doy ∧
      mp = (5 * doy + 2) / 153 ∧
      civilFromDays z =
        (if (if mp < 10 then mp + 3 else mp - 9) ≤ 2 then yoe + era * 400 + 1 else yoe + era * 400,
          if mp < 10 then mp + 3 else mp - 9, doy - (153 * mp + 2) / 5 + 1) := by
  have h0 : 0 ≤ z + 719468 - (z + 719468) / 146097 * 146097 := by omega
  have h1 : z + 719468 - (z + 719468) / 146097 * 146097 ≤ 146096 := by omega
  obtain ⟨hy0, hy1, hd0, hd1, hleap⟩ := yoe_doy_bounds _ h0 h1
  exact ⟨(z + 719468) / 146097, z + 719468 - (z + 719468) / 146097 * 146097, _, _, _,
    h0, h1, hy0, hy1, hd0, hd1, hleap, by omega, by omega, rfl, rfl⟩

theorem civilFromDays_valid (z : Int) :
    1 ≤ (civilFromDays z).2.1 ∧ (civilFromDays z).2.1 ≤ 12 ∧
    1 ≤ (civilFromDays z).2.2 ∧
    (civilFromDays z).2.2 ≤ daysIn (civilFromDays z).2.1 (civilFromDays z).1 ∧
    daysFromCivil (civilFromDays z).1 (civilFromDays z).2.1 (civilFromDays z).2.2 = z := by
  obtain ⟨era, doe, yoe, doy, mp, hdoe0, hdoe1, hy0, hy1, hd0, hd1, hleap, hz, hdoe, hmp, hciv⟩ :=
    civilFromDays_spec z
  rw [hciv]
  have hcases : mp = 0 ∨ mp = 1 ∨ mp = 2 ∨ mp = 3 ∨ mp = 4 ∨ mp = 5 ∨ mp = 6 ∨ mp = 7 ∨
      mp = 8 ∨ mp = 9 ∨ mp = 10 ∨ mp = 11 := by omega
  have hfeb : mp = 11 → doy - (153 * mp + 2) / 5 + 1 = 29 → isLeap (yoe + era * 400 + 1) = true := by
    intro h11 h29
    have h365 : doy = 365 := by omega
    obtain ⟨h4, h100⟩ := hleap h365
    simp only [isLeap, Bool.and_eq_true, Bool.or_eq_true, decide_eq_true_eq]
    omega
  have hera : (yoe + era * 400) / 400 = era := by omega
  have hyoe : yoe + era * 400 - era * 400 = yoe := by ring
  have hnotfeb : isLeap (yoe + era * 400 + 1) = false → mp = 11 →
      doy - (153 * mp + 2) / 5 + 1 ≤ 28 := by
    intro hl h11
    have hne : doy - (153 * mp + 2) / 5 + 1 ≠ 29 := by
      intro h29
      rw [hfeb h11 h29] at hl
      exact Bool.noConfusion hl
    omega
  rcases hcases with h | h | h | h | h | h | h | h | h | h | h | h <;>
    simp only [h, daysFromCivil, daysIn] <;> norm_num <;>
    simp only [hera, hyoe] <;>
    first
      | omega
      | skip
  refine ⟨by omega, ?_, by omega⟩
  cases hl : isLeap (yoe + era * 400 + 1)
  · have h28 := hnotfeb hl h
    simp only [Bool.false_eq_true, if_false]
    omega
  · simp only [if_true]
    omega

theorem civilFromDays_lt (z1 z2 : Int) (h : z1 < z2) :
    (civilFromDays z1).1 < (civilFromDays z2).1 ∨
    ((civilFromDays z1).1 = (civilFromDays z2).1 ∧
      ((civilFromDays z1).2.1 < (civilFromDays z2).2.1 ∨
        ((civilFromDays z1).2.1 = (civilFromDays z2).2.1 ∧
          (civilFromDays z1).2.2 < (civilFromDays z2).2.2))) := by
  obtain ⟨era1, doe1, yoe1, doy1, mp1, hdoe0, hdoe1, hy0, hy1, hd0, hd1, hleap, hz, hdoe, hmp,
    hciv⟩ := civilFromDays_spec z1
  obtain ⟨era2, doe2, yoe2, doy2, mp2, hdoe0', hdoe1', hy0', hy1', hd0', hd1', hleap', hz', hdoe',
    hmp', hciv'⟩ := civilFromDays_spec z2
  rw [hciv, hciv']
  simp only
  have hera : era1 ≤ era2 := by omega
  have hyear : era1 = era2 → yoe1 ≤ yoe2 := by
    intro he
    by_contra hlt
    have h365 : doy2 ≤ 364 ∨ doy2 = 365 := by omega
    rcases h365 with h365 | h365
    · omega
    · obtain ⟨h4, h100⟩ := hleap' h365
      omega
  have hday : era1 = era2 → yoe1 = yoe2 → doy1 < doy2 := by
    intro he hy
    subst hy
    omega
  have hmp1 : 0 ≤ mp1 ∧ mp1 ≤ 11 := by omega
  have hmp2 : 0 ≤ mp2 ∧ mp2 ≤ 11 := by omega
  have hmono : era1 = era2 → yoe1 = yoe2 → mp1 ≤ mp2 := by
    intro he hy
    have := hday he hy
    omega
  have hdd : era1 = era2 → yoe1 = yoe2 → mp1 = mp2 →
      doy1 - (153 * mp1 + 2) / 5 + 1 < doy2 - (153 * mp2 + 2) / 5 + 1 := by
    intro he hy hm
    have := hday he hy
    rw [hm]
    omega
  generalize doy1 - (153 * mp1 + 2) / 5 + 1 = d1 at hdd ⊢
  generalize doy2 - (153 * mp2 + 2) / 5 + 1 = d2 at hdd ⊢
  clear hciv hciv' hmp hmp' hdoe hdoe' hz hz' hleap hleap' hday hd0 hd1 hd0' hd1' hdoe0 hdoe1
    hdoe0' hdoe1' h
  by_cases c1 : mp1 < 10 <;> by_cases c2 : mp2 < 10 <;> simp only [c1, c2, if_true, if_false] <;>
    split_ifs <;> omega

theorem toDigitsCore_step (fuel n : Nat) (ds : List Char) :
    Nat.toDigitsCore 10 (fuel + 1) n ds =
      if n / 10 = 0 then Nat.digitChar (n % 10) :: ds
      else Nat.toDigitsCore 10 fuel (n / 10) (Nat.digitChar (n % 10) :: ds) := by
  simp [Nat.toDigitsCore]

theorem toDigits_one (n : Nat) (h : n < 10) : Nat.toDigits 10 n = [Nat.digitChar n] := by
  have h0 : n / 10 = 0 := by omega
  have h1 : n % 10 = n := by omega
  rw [Nat.toDigits, toDigitsCore_step, if_pos h0, h1]

theorem toDigits_two (n : Nat) (h0 : 10 ≤ n) (h : n < 100) :
    Nat.toDigits 10 n = [Nat.digitChar (n / 10), Nat.digitChar (n % 10)] := by
  obtain ⟨k, hk⟩ : ∃ k, n = k + 1 := ⟨n - 1, by omega⟩
  have h1 : ¬ n / 10 = 0 := by omega
  have h2 : n / 10 / 10 = 0 := by omega
  have h3 : n / 10 % 10 = n / 10 := by omega
  rw [Nat.toDigits, toDigitsCore_step, if_neg h1]
  nth_rewrite 1 [hk]
  rw [toDigitsCore_step, if_pos h2, h3]

theorem toDigits_three (n : Nat) (h0 : 100 ≤ n) (h : n < 1000) :
    Nat.toDigits 10 n =
      [Nat.digitChar (n / 100), Nat.digitChar (n / 10 % 10), Nat.digitChar (n % 10)] := by
  obtain ⟨k, hk⟩ : ∃ k, n = k + 2 := ⟨n - 2, by omega⟩
  have h1 : ¬ n / 10 = 0 := by omega
  have h2 : ¬ n / 10 / 10 = 0 := by omega
  have h3 : n / 10 / 10 / 10 = 0 := by omega
  have h4 : n / 10 / 10 % 10 = n / 100 := by omega
  rw [Nat.toDigits, toDigitsCore_step, if_neg h1]
  nth_rewrite 1 [hk]
  rw [toDigitsCore_step, if_neg h2, toDigitsCore_step, if_pos h3, h4]

theorem toDigits_four (n : Nat) (h0 : 1000 ≤ n) (h : n < 10000) :
    Nat.toDigits 10 n =
      [Nat.digitChar (n / 1000), Nat.digitChar (n / 100 % 10), Nat.digitChar (n / 10 % 10),
        Nat.digitChar (n % 10)] := by
  obtain ⟨k, hk⟩ : ∃ k, n = k + 3 := ⟨n - 3, by omega⟩
  have h1 : ¬ n / 10 = 0 := by omega
  have h2 : ¬ n / 10 / 10 = 0 := by omega
  have h3 : ¬ n / 10 / 10 / 10 = 0 := by omega
  have h4 : n / 10 / 10 / 10 / 10 = 0 := by omega
  have h5 : n / 10 / 10 / 10 % 10 = n / 1000 := by omega
  have h6 : n / 10 / 10 % 10 = n / 100 % 10 := by omega
  rw [Nat.toDigits, toDigitsCore_step, if_neg h1]
  nth_rewrite 1 [hk]
  rw [toDigitsCore_step, if_neg h2, toDigitsCore_step, if_neg h3, toDigitsCore_step, if_pos h4,
    h5, h6]

theorem appendInt_two (n : Nat) (h : n < 100) :
    appendInt (n : Int) 2 = [Nat.digitChar (n / 10), Nat.digitChar (n % 10)] := by
  have hneg : ¬ ((n : Int) < 0) := by omega
  simp only [appendInt, Int.natAbs_ofNat, if_neg hneg, List.nil_append]
  by_cases h10 : n < 10
  · have hq : n / 10 = 0 := by omega
    have hr : n % 10 = n := by omega
    rw [toDigits_one n h10, hq, hr]
    rfl
  · rw [toDigits_two n (by omega) h]
    rfl

theorem appendInt_four (n : Nat) (h : n < 10000) :
    appendInt (n : Int) 4 =
      [Nat.digitChar (n / 1000), Nat.digitChar (n / 100 % 10), Nat.digitChar (n / 10 % 10),
        Nat.digitChar (n % 10)] := by
  have hneg : ¬ ((n : Int) < 0) := by omega
  simp only [appendInt, Int.natAbs_ofNat, if_neg hneg, List.nil_append]
  by_cases h10 : n < 10
  · have e1 : n / 1000 = 0 := by omega
    have e2 : n / 100 % 10 = 0 := by omega
    have e3 : n / 10 % 10 = 0 := by omega
    have e4 : n % 10 = n := by omega
    rw [toDigits_one n h10, e1, e2, e3, e4]
    rfl
  by_cases h100 : n < 100
  · have e1 : n / 1000 = 0 := by omega
    have e2 : n / 100 % 10 = 0 := by omega
    have e3 : n / 10 % 10 = n / 10 := by omega
    rw [toDigits_two n (by omega) h100, e1, e2, e3]
    rfl
  by_cases h1000 : n < 1000
  · have e1 : n / 1000 = 0 := by omega
    have e2 : n / 100 % 10 = n / 100 := by omega
    rw [toDigits_three n (by omega) h1000, e1, e2]
    rfl
  · rw [toDigits_four n (by omega) h]
    rfl

theorem digitChar_facts : ∀ a < 10,
    isDigit (Nat.digitChar a) = true ∧ digitVal (Nat.digitChar a) = a ∧
    (Nat.digitChar a).toNat = 48 + a ∧ Nat.digitChar a ≠ '_' := by
  decide
theorem hasPrefixL_append (p s : List Char) : hasPrefixL p (p ++ s) = true := by
  induction p with
  | nil => rfl
  | cons a p ih => simp [hasPrefixL, ih]

theorem TrimPrefix_append (p s : List Char) : TrimPrefix ⟨p ++ s⟩ ⟨p⟩ = ⟨s⟩ := by
  simp [TrimPrefix, HasPrefix, hasPrefixL_append]

theorem TrimSuffix_append (s suf : List Char) : TrimSuffix ⟨s ++ suf⟩ ⟨suf⟩ = ⟨s⟩ := by
  simp [TrimSuffix, HasSuffix, hasPrefixL_append]

theorem HasSuffix_append (s suf : List Char) : HasSuffix ⟨s ++ suf⟩ ⟨suf⟩ = true := by
  simp [HasSuffix, hasPrefixL_append]

theorem splitL_append_sep (sep : Char) (a b : List Char) (ha : sep ∉ a) :
    splitL sep (a ++ sep :: b) = a :: splitL sep b := by
  induction a with
  | nil => simp [splitL]
  | cons c a ih =>
    have hc : c ≠ sep := fun h => ha (by simp [h])
    have ha2 : sep ∉ a := fun h => ha (by simp [h])
    simp [splitL, hc, ih ha2]


theorem getnum_two_digits (c0 c1 : Char) (rest : List Char) (fixed : Bool)
    (h0 : isDigit c0 = true) (h1 : isDigit c1 = true) :
    getnum (c0 :: c1 :: rest) fixed = some (((digitVal c0 * 10 + digitVal c1 : Nat) : Int), rest) := by
  simp [getnum, h0, h1]

theorem parseCompact_digits (y1 y2 y3 y4 m1 m2 d1 d2 h1 h2 i1 i2 s1 s2 : Char)
    (hy1 : isDigit y1 = true) (hy2 : isDigit y2 = true) (hy3 : isDigit y3 = true)
    (hy4 : isDigit y4 = true) (hm1 : isDigit m1 = true) (hm2 : isDigit m2 = true)
    (hd1 : isDigit d1 = true) (hd2 : isDigit d2 = true) (hh1 : isDigit h1 = true)
    (hh2 : isDigit h2 = true) (hi1 : isDigit i1 = true) (hi2 : isDigit i2 = true)
    (hs1 : isDigit s1 = true) (hs2 : isDigit s2 = true)
    (hmonth : 1 ≤ digitVal m1 * 10 + digitVal m2 ∧ digitVal m1 * 10 + digitVal m2 ≤ 12)
    (hday : 1 ≤ ((digitVal d1 * 10 + digitVal d2 : Nat) : Int) ∧
      ((digitVal d1 * 10 + digitVal d2 : Nat) : Int)
        ≤ daysIn ((digitVal m1 * 10 + digitVal m2 : Nat) : Int)
            ((digitsVal [y1, y2, y3, y4] : Nat) : Int))
    (hhour : digitVal h1 * 10 + digitVal h2 < 24)
    (hmin : digitVal i1 * 10 + digitVal i2 < 60)
    (hsec : digitVal s1 * 10 + digitVal s2 < 60) :
    parseCompact ⟨[y1, y2, y3, y4, m1, m2, d1, d2, h1, h2, i1, i2, s1, s2]⟩ =
      some ⟨(daysFromCivil ((digitsVal [y1, y2, y3, y4] : Nat) : Int)
              ((digitVal m1 * 10 + digitVal m2 : Nat) : Int)
              ((digitVal d1 * 10 + digitVal d2 : Nat) : Int) * 86400
            + ((digitVal h1 * 10 + digitVal h2 : Nat) : Int) * 3600
            + ((digitVal i1 * 10 + digitVal i2 : Nat) : Int) * 60
            + ((digitVal s1 * 10 + digitVal s2 : Nat) : Int)) * Second + 0, UTC⟩ := by
  have hlen : ¬ ([y1, y2, y3, y4, m1, m2, d1, d2, h1, h2, i1, i2, s1, s2].length < 4) := by
    simp
  have hall : ¬ ((!([y1, y2, y3, y4].all isDigit)) = true) := by
    simp [hy1, hy2, hy3, hy4]
  have hmo : ¬ (((digitVal m1 * 10 + digitVal m2 : Nat) : Int) ≤ 0 ∨
      12 < ((digitVal m1 * 10 + digitVal m2 : Nat) : Int)) := by omega
  have hho : ¬ (24 ≤ ((digitVal h1 * 10 + digitVal h2 : Nat) : Int)) := by omega
  have hmi : ¬ (60 ≤ ((digitVal i1 * 10 + digitVal i2 : Nat) : Int)) := by omega
  have hse : ¬ (60 ≤ ((digitVal s1 * 10 + digitVal s2 : Nat) : Int)) := by omega
  have hda : ¬ (((digitVal d1 * 10 + digitVal d2 : Nat) : Int) < 1 ∨
      daysIn ((digitVal m1 * 10 + digitVal m2 : Nat) : Int)
            ((digitsVal [y1, y2, y3, y4] : Nat) : Int)
        < ((digitVal d1 * 10 + digitVal d2 : Nat) : Int)) := by omega
  unfold parseCompact
  simp only [if_neg hlen, if_neg hall, List.take, List.drop,
    getnum_two_digits _ _ _ _ hm1 hm2, getnum_two_digits _ _ _ _ hd1 hd2,
    getnum_two_digits _ _ _ _ hh1 hh2, getnum_two_digits _ _ _ _ hi1 hi2,
    getnum_two_digits _ _ _ _ hs1 hs2, if_neg hmo, if_neg hho, if_neg hmi, if_neg hse,
    parseFraction, ne_eq, not_true_eq_false, if_false, if_neg hda]

theorem daysIn_le (month year : Int) : daysIn month year ≤ 31 := by
  unfold daysIn
  split_ifs <;> omega

theorem csvFileTime_csvName (t : Time)
    (hy : 0 ≤ t.civil.year ∧ t.civil.year ≤ 9999)
    (hm : 1 ≤ t.civil.month ∧ t.civil.month ≤ 12)
    (hd : 1 ≤ t.civil.day ∧ t.civil.day ≤ daysIn t.civil.month t.civil.year)
    (hh : 0 ≤ t.civil.hour ∧ t.civil.hour < 24)
    (hi : 0 ≤ t.civil.minute ∧ t.civil.minute < 60)
    (hs : 0 ≤ t.civil.second ∧ t.civil.second < 60) :
    HasSuffix (csvName t) ".csv" = true ∧
    csvFileTime (csvName t) =
      some ⟨(daysFromCivil t.civil.year t.civil.month t.civil.day * 86400 + t.civil.hour * 3600
              + t.civil.minute * 60 + t.civil.second) * Second + 0, UTC⟩ := by
  simp only [csvName, formatDate, formatClock]
  generalize t.civil = c at *
  obtain ⟨Y, M, D, H, I, S⟩ := c
  simp only at hy hm hd hh hi hs ⊢
  have hd31 := daysIn_le M Y
  obtain ⟨ny, rfl⟩ := Int.eq_ofNat_of_zero_le hy.1
  obtain ⟨nm, rfl⟩ := Int.eq_ofNat_of_zero_le (by omega : 0 ≤ M)
  obtain ⟨nd, rfl⟩ := Int.eq_ofNat_of_zero_le (by omega : 0 ≤ D)
  obtain ⟨nh, rfl⟩ := Int.eq_ofNat_of_zero_le hh.1
  obtain ⟨ni, rfl⟩ := Int.eq_ofNat_of_zero_le hi.1
  obtain ⟨ns, rfl⟩ := Int.eq_ofNat_of_zero_le hs.1
  rw [appendInt_four ny (by omega), appendInt_two nm (by omega), appendInt_two nd (by omega),
    appendInt_two nh (by omega), appendInt_two ni (by omega), appendInt_two ns (by omega)]
  obtain ⟨ay1, by1, -, cy1⟩ := digitChar_facts (ny / 1000) (by omega)
  obtain ⟨ay2, by2, -, cy2⟩ := digitChar_facts (ny / 100 % 10) (by omega)
  obtain ⟨ay3, by3, -, cy3⟩ := digitChar_facts (ny / 10 % 10) (by omega)
  obtain ⟨ay4, by4, -, cy4⟩ := digitChar_facts (ny % 10) (by omega)
  obtain ⟨am1, bm1, -, cm1⟩ := digitChar_facts (nm / 10) (by omega)
  obtain ⟨am2, bm2, -, cm2⟩ := digitChar_facts (nm % 10) (by omega)
  obtain ⟨ad1, bd1, -, cd1⟩ := digitChar_facts (nd / 10) (by omega)
  obtain ⟨ad2, bd2, -, cd2⟩ := digitChar_facts (nd % 10) (by omega)
  obtain ⟨ah1, bh1, -, ch1⟩ := digitChar_facts (nh / 10) (by omega)
  obtain ⟨ah2, bh2, -, ch2⟩ := digitChar_facts (nh % 10) (by omega)
  obtain ⟨ai1, bi1, -, ci1⟩ := digitChar_facts (ni / 10) (by omega)
  obtain ⟨ai2, bi2, -, ci2⟩ := digitChar_facts (ni % 10) (by omega)
  obtain ⟨as1, bs1, -, cs1⟩ := digitChar_facts (ns / 10) (by omega)
  obtain ⟨as2, bs2, -, cs2⟩ := digitChar_facts (ns % 10) (by omega)
  generalize Nat.digitChar (ny / 1000) = y1 at *
  generalize Nat.digitChar (ny / 100 % 10) = y2 at *
  generalize Nat.digitChar (ny / 10 % 10) = y3 at *
  generalize Nat.digitChar (ny % 10) = y4 at *
  generalize Nat.digitChar (nm / 10) = m1 at *
  generalize Nat.digitChar (nm % 10) = m2 at *
  generalize Nat.digitChar (nd / 10) = d1 at *
  generalize Nat.digitChar (nd % 10) = d2 at *
  generalize Nat.digitChar (nh / 10) = h1 at *
  generalize Nat.digitChar (nh % 10) = h2 at *
  generalize Nat.digitChar (ni / 10) = i1 at *
  generalize Nat.digitChar (ni % 10) = i2 at *
  generalize Nat.digitChar (ns / 10) = s1 at *
  generalize Nat.digitChar (ns % 10) = s2 at *
  have hname : csvPrefix ++ String.mk ([y1, y2, y3, y4] ++ [m1, m2] ++ [d1, d2]) ++ "_"
        ++ String.mk ([h1, h2] ++ [i1, i2] ++ [s1, s2]) ++ ".csv"
      = String.mk ((csvPrefix.data ++ ([y1, y2, y3, y4, m1, m2, d1, d2] ++
          '_' :: [h1, h2, i1, i2, s1, s2])) ++ ".csv".data) := by
    apply String.ext
    simp [String.data_append]
  rw [hname]
  have e0 : HasSuffix (String.mk ((csvPrefix.data ++ ([y1, y2, y3, y4, m1, m2, d1, d2] ++
          '_' :: [h1, h2, i1, i2, s1, s2])) ++ ".csv".data)) ".csv" = true :=
    HasSuffix_append _ ".csv".data
  have e1 : TrimPrefix (String.mk ((csvPrefix.data ++ ([y1, y2, y3, y4, m1, m2, d1, d2] ++
          '_' :: [h1, h2, i1, i2, s1, s2])) ++ ".csv".data)) csvPrefix
      = String.mk (([y1, y2, y3, y4, m1, m2, d1, d2] ++ '_' :: [h1, h2, i1, i2, s1, s2])
          ++ ".csv".data) := by
    rw [List.append_assoc]
    exact TrimPrefix_append csvPrefix.data _
  have e2 : TrimSuffix (String.mk (([y1, y2, y3, y4, m1, m2, d1, d2] ++
          '_' :: [h1, h2, i1, i2, s1, s2]) ++ ".csv".data)) ".csv"
      = String.mk ([y1, y2, y3, y4, m1, m2, d1, d2] ++ '_' :: [h1, h2, i1, i2, s1, s2]) :=
    TrimSuffix_append _ ".csv".data
  have hnot1 : '_' ∉ [y1, y2, y3, y4, m1, m2, d1, d2] := by
    simp only [List.mem_cons, List.mem_singleton, List.not_mem_nil, or_false, not_or]
    exact ⟨cy1.symm, cy2.symm, cy3.symm, cy4.symm, cm1.symm, cm2.symm, cd1.symm, cd2.symm⟩
  have hnot2 : '_' ∉ [h1, h2, i1, i2, s1, s2] := by
    simp only [List.mem_cons, List.mem_singleton, List.not_mem_nil, or_false, not_or]
    exact ⟨ch1.symm, ch2.symm, ci1.symm, ci2.symm, cs1.symm, cs2.symm⟩
  refine ⟨e0, ?_⟩
  have hdv : (digitsVal [y1, y2, y3, y4] : Nat) = ny := by
    simp only [digitsVal, List.foldl_cons, List.foldl_nil, by1, by2, by3, by4]
    omega
  have hmv : digitVal m1 * 10 + digitVal m2 = nm := by rw [bm1, bm2]; omega
  have hdd : digitVal d1 * 10 + digitVal d2 = nd := by rw [bd1, bd2]; omega
  have hhv : digitVal h1 * 10 + digitVal h2 = nh := by rw [bh1, bh2]; omega
  have hiv : digitVal i1 * 10 + digitVal i2 = ni := by rw [bi1, bi2]; omega
  have hsv : digitVal s1 * 10 + digitVal s2 = ns := by rw [bs1, bs2]; omega
  have hparse := parseCompact_digits y1 y2 y3 y4 m1 m2 d1 d2 h1 h2 i1 i2 s1 s2
    ay1 ay2 ay3 ay4 am1 am2 ad1 ad2 ah1 ah2 ai1 ai2 as1 as2
    (by rw [hmv]; omega) (by rw [hdd, hmv, hdv]; exact hd) (by rw [hhv]; omega)
    (by rw [hiv]; omega) (by rw [hsv]; omega)
  rw [hdv, hmv, hdd, hhv, hiv, hsv] at hparse
  unfold csvFileTime SplitUnderscore
  rw [e1, e2, splitL_append_sep _ _ _ hnot1, splitL_of_not_mem _ _ hnot2]
  simp only [List.map_cons, List.map_nil]
  exact hparse

theorem textLtL_append_left (p a b : List Char) : textLtL (p ++ a) (p ++ b) = textLtL a b := by
  induction p with
  | nil => rfl
  | cons c p ih => simp [textLtL, ih]

theorem textLtL_irrefl (a : List Char) : textLtL a a = false := by
  induction a with
  | nil => rfl
  | cons c a ih => simp [textLtL, ih]

theorem textLtL_cons (c e : Char) (r1 r2 : List Char) :
    textLtL (c :: r1) (e :: r2)
      = (decide (c.toNat < e.toNat) || (decide (c.toNat = e.toNat) && textLtL r1 r2)) := rfl

theorem textLtL_two (n m : Nat) (hn : n < 100) (hm : m < 100) (r1 r2 : List Char) :
    textLtL (Nat.digitChar (n / 10) :: Nat.digitChar (n % 10) :: r1)
        (Nat.digitChar (m / 10) :: Nat.digitChar (m % 10) :: r2)
      = (decide (n < m) || (decide (n = m) && textLtL r1 r2)) := by
  obtain ⟨-, -, a1, -⟩ := digitChar_facts (n / 10) (by omega)
  obtain ⟨-, -, a2, -⟩ := digitChar_facts (n % 10) (by omega)
  obtain ⟨-, -, b1, -⟩ := digitChar_facts (m / 10) (by omega)
  obtain ⟨-, -, b2, -⟩ := digitChar_facts (m % 10) (by omega)
  generalize Nat.digitChar (n / 10) = c1 at a1 ⊢
  generalize Nat.digitChar (n % 10) = c2 at a2 ⊢
  generalize Nat.digitChar (m / 10) = e1 at b1 ⊢
  generalize Nat.digitChar (m % 10) = e2 at b2 ⊢
  rw [textLtL_cons, textLtL_cons, a1, a2, b1, b2]
  generalize textLtL r1 r2 = b
  rw [Bool.eq_iff_iff]
  cases b <;>
    simp only [Bool.or_eq_true, Bool.and_eq_true, decide_eq_true_eq, Bool.false_eq_true,
      and_false, or_false, and_true] <;>
    omega

theorem textLtL_four (n m : Nat) (hn : n < 10000) (hm : m < 10000) (r1 r2 : List Char) :
    textLtL (Nat.digitChar (n / 1000) :: Nat.digitChar (n / 100 % 10) ::
          Nat.digitChar (n / 10 % 10) :: Nat.digitChar (n % 10) :: r1)
        (Nat.digitChar (m / 1000) :: Nat.digitChar (m / 100 % 10) ::
          Nat.digitChar (m / 10 % 10) :: Nat.digitChar (m % 10) :: r2)
      = (decide (n < m) || (decide (n = m) && textLtL r1 r2)) := by
  have a1 : n / 1000 = n / 100 / 10 := by omega
  have a3 : n / 10 % 10 = n % 100 / 10 := by omega
  have a4 : n % 10 = n % 100 % 10 := by omega
  have b1 : m / 1000 = m / 100 / 10 := by omega
  have b3 : m / 10 % 10 = m % 100 / 10 := by omega
  have b4 : m % 10 = m % 100 % 10 := by omega
  rw [a1, a3, a4, b1, b3, b4, textLtL_two (n / 100) (m / 100) (by omega) (by omega),
    textLtL_two (n % 100) (m % 100) (by omega) (by omega)]
  generalize textLtL r1 r2 = b
  rw [Bool.eq_iff_iff]
  cases b <;>
    simp only [Bool.or_eq_true, Bool.and_eq_true, decide_eq_true_eq, Bool.false_eq_true,
      and_false, or_false, and_true] <;>
    omega

theorem textLtL_asymm (a b : List Char) (h : textLtL a b = true) : textLtL b a = false := by
  induction a generalizing b with
  | nil =>
    cases b with
    | nil => rfl
    | cons e b => rfl
  | cons c a ih =>
    cases b with
    | nil => exact absurd h (by simp [textLtL])
    | cons e b =>
      rw [textLtL_cons] at h ⊢
      rw [Bool.or_eq_true, Bool.and_eq_true, decide_eq_true_eq, decide_eq_true_eq] at h
      rcases h with h | ⟨h1, h2⟩
      · have n1 : ¬ e.toNat < c.toNat := by omega
        have n2 : ¬ e.toNat = c.toNat := by omega
        simp [n1, n2]
      · have n1 : ¬ e.toNat < c.toNat := by omega
        simp [n1, ih b h2]

theorem csvName_compare (t u : Time)
    (hy : 0 ≤ t.civil.year ∧ t.civil.year ≤ 9999) (hy' : 0 ≤ u.civil.year ∧ u.civil.year ≤ 9999)
    (hm : 0 ≤ t.civil.month ∧ t.civil.month ≤ 99) (hm' : 0 ≤ u.civil.month ∧ u.civil.month ≤ 99)
    (hd : 0 ≤ t.civil.day ∧ t.civil.day ≤ 99) (hd' : 0 ≤ u.civil.day ∧ u.civil.day ≤ 99)
    (hh : 0 ≤ t.civil.hour ∧ t.civil.hour ≤ 99) (hh' : 0 ≤ u.civil.hour ∧ u.civil.hour ≤ 99)
    (hi : 0 ≤ t.civil.minute ∧ t.civil.minute ≤ 99)
    (hi' : 0 ≤ u.civil.minute ∧ u.civil.minute ≤ 99)
    (hs : 0 ≤ t.civil.second ∧ t.civil.second ≤ 99)
    (hs' : 0 ≤ u.civil.second ∧ u.civil.second ≤ 99) :
    textLt (csvName t) (csvName u) =
      (decide (t.civil.year < u.civil.year) || (decide (t.civil.year = u.civil.year) &&
      (decide (t.civil.month < u.civil.month) || (decide (t.civil.month = u.civil.month) &&
      (decide (t.civil.day < u.civil.day) || (decide (t.civil.day = u.civil.day) &&
      (decide (t.civil.hour < u.civil.hour) || (decide (t.civil.hour = u.civil.hour) &&
      (decide (t.civil.minute < u.civil.minute) || (decide (t.civil.minute = u.civil.minute) &&
      decide (t.civil.second < u.civil.second))))))))))) := by
  simp only [csvName, formatDate, formatClock]
  generalize t.civil = c at *
  generalize u.civil = e at *
  obtain ⟨Y, M, D, H, I, S⟩ := c
  obtain ⟨Y', M', D', H', I', S'⟩ := e
  simp only at hy hm hd hh hi hs hy' hm' hd' hh' hi' hs' ⊢
  obtain ⟨ny, rfl⟩ := Int.eq_ofNat_of_zero_le hy.1
  obtain ⟨nm, rfl⟩ := Int.eq_ofNat_of_zero_le hm.1
  obtain ⟨nd, rfl⟩ := Int.eq_ofNat_of_zero_le hd.1
  obtain ⟨nh, rfl⟩ := Int.eq_ofNat_of_zero_le hh.1
  obtain ⟨ni, rfl⟩ := Int.eq_ofNat_of_zero_le hi.1
  obtain ⟨ns, rfl⟩ := Int.eq_ofNat_of_zero_le hs.1
  obtain ⟨ny', rfl⟩ := Int.eq_ofNat_of_zero_le hy'.1
  obtain ⟨nm', rfl⟩ := Int.eq_ofNat_of_zero_le hm'.1
  obtain ⟨nd', rfl⟩ := Int.eq_ofNat_of_zero_le hd'.1
  obtain ⟨nh', rfl⟩ := Int.eq_ofNat_of_zero_le hh'.1
  obtain ⟨ni', rfl⟩ := Int.eq_ofNat_of_zero_le hi'.1
  obtain ⟨ns', rfl⟩ := Int.eq_ofNat_of_zero_le hs'.1
  rw [appendInt_four ny (by omega), appendInt_two nm (by omega), appendInt_two nd (by omega),
    appendInt_two nh (by omega), appendInt_two ni (by omega), appendInt_two ns (by omega),
    appendInt_four ny' (by omega), appendInt_two nm' (by omega), appendInt_two nd' (by omega),
    appendInt_two nh' (by omega), appendInt_two ni' (by omega), appendInt_two ns' (by omega)]
  simp only [textLt, String.data_append, List.append_assoc, List.cons_append, List.nil_append]
  rw [textLtL_append_left, textLtL_four ny ny' (by omega) (by omega),
    textLtL_two nm nm' (by omega) (by omega), textLtL_two nd nd' (by omega) (by omega)]
  rw [textLtL_cons, textLtL_two nh nh' (by omega) (by omega),
    textLtL_two ni ni' (by omega) (by omega), textLtL_two ns ns' (by omega) (by omega),
    textLtL_irrefl]
  simp only [Nat.cast_lt, Nat.cast_inj, lt_self_iff_false, decide_False, decide_True,
    Bool.false_or, Bool.true_and, Bool.and_false, Bool.or_false]

theorem civil_utc (u : Int) :
    Time.civil ⟨u * Second, UTC⟩ =
      ⟨(civilFromDays (u / 86400)).1, (civilFromDays (u / 86400)).2.1,
        (civilFromDays (u / 86400)).2.2, u % 86400 / 3600, u % 86400 % 3600 / 60,
        u % 86400 % 60⟩ := by
  simp [Time.civil, Time.Unix, UTC, Second]

theorem bucket_utc (ns : Int) :
    ∃ u : Int, Time.Truncate ⟨ns, UTC⟩ (5 * Minute) = ⟨u * Second, UTC⟩ := by
  refine ⟨(Time.Truncate ⟨ns, UTC⟩ (5 * Minute)).Unix, ?_⟩
  have h1 := (truncate_five_minutes ⟨ns, UTC⟩).2.1
  have h2 := Truncate_loc ⟨ns, UTC⟩ (5 * Minute)
  cases hb : Time.Truncate ⟨ns, UTC⟩ (5 * Minute) with
  | mk n l =>
    rw [hb] at h1 h2
    simp only at h1 h2
    rw [← h1, h2]

theorem round_trip_utc (u : Int)
    (hy : 0 ≤ (Time.civil ⟨u * Second, UTC⟩).year ∧ (Time.civil ⟨u * Second, UTC⟩).year ≤ 9999) :
    HasSuffix (csvName ⟨u * Second, UTC⟩) ".csv" = true ∧
    csvFileTime (csvName ⟨u * Second, UTC⟩) = some ⟨u * Second, UTC⟩ := by
  obtain ⟨hm1, hm2, hd1, hd2, hinv⟩ := civilFromDays_valid (u / 86400)
  have hc := civil_utc u
  have h := csvFileTime_csvName ⟨u * Second, UTC⟩ hy
    (by rw [hc]; exact ⟨hm1, hm2⟩) (by rw [hc]; exact ⟨hd1, hd2⟩)
    (by rw [hc]; simp only; omega) (by rw [hc]; simp only; omega) (by rw [hc]; simp only; omega)
  refine ⟨h.1, ?_⟩
  rw [h.2, hc]
  simp only [hinv]
  have e : (u / 86400 * 86400 + u % 86400 / 3600 * 3600 + u % 86400 % 3600 / 60 * 60
      + u % 86400 % 60) * Second + 0 = u * Second := by
    have : u / 86400 * 86400 + u % 86400 / 3600 * 3600 + u % 86400 % 3600 / 60 * 60
      + u % 86400 % 60 = u := by omega
    rw [this, add_zero]
  rw [e]

theorem order_utc (u v : Int) (huv : u < v)
    (hy : 0 ≤ (Time.civil ⟨u * Second, UTC⟩).year ∧ (Time.civil ⟨u * Second, UTC⟩).year ≤ 9999)
    (hy' : 0 ≤ (Time.civil ⟨v * Second, UTC⟩).year ∧ (Time.civil ⟨v * Second, UTC⟩).year ≤ 9999) :
    textLt (csvName ⟨u * Second, UTC⟩) (csvName ⟨v * Second, UTC⟩) = true := by
  obtain ⟨hm1, hm2, hd1, hd2, -⟩ := civilFromDays_valid (u / 86400)
  obtain ⟨hm1', hm2', hd1', hd2', -⟩ := civilFromDays_valid (v / 86400)
  have hd31 := daysIn_le (civilFromDays (u / 86400)).2.1 (civilFromDays (u / 86400)).1
  have hd31' := daysIn_le (civilFromDays (v / 86400)).2.1 (civilFromDays (v / 86400)).1
  have hc := civil_utc u
  have hc' := civil_utc v
  rw [csvName_compare _ _ hy hy'
    (by rw [hc]; simp only; omega) (by rw [hc']; simp only; omega)
    (by rw [hc]; simp only; omega) (by rw [hc']; simp only; omega)
    (by rw [hc]; simp only; omega) (by rw [hc']; simp only; omega)
    (by rw [hc]; simp only; omega) (by rw [hc']; simp only; omega)
    (by rw [hc]; simp only; omega) (by rw [hc']; simp only; omega), hc, hc']
  simp only [Bool.or_eq_true, Bool.and_eq_true, decide_eq_true_eq]
  have hz : u / 86400 < v / 86400 ∨ u / 86400 = v / 86400 := by omega
  rcases hz with hz | hz
  · have hlt := civilFromDays_lt _ _ hz
    rcases hlt with h | ⟨h1, h | ⟨h2, h3⟩⟩
    · exact Or.inl h
    · exact Or.inr ⟨h1, Or.inl h⟩
    · exact Or.inr ⟨h1, Or.inr ⟨h2, Or.inl h3⟩⟩
  · rw [hz]
    refine Or.inr ⟨rfl, Or.inr ⟨rfl, Or.inr ⟨rfl, ?_⟩⟩⟩
    omega

/-- C11 (filename round trip). Let `b1` and `b2` be buckets, that is results of
`Truncate(5 * time.Minute)` on instants taken in UTC, whose years lie in
0000..9999. The name `createCSV` gives the artifact of `b1` ends in `.csv`,
and reading it the way `getLatestCSV` does (prefix and `.csv` removed, split
at `_` into two parts, the parts parsed together with the layout
`20060102150405`) succeeds and returns exactly `b1`. The names of `b1` and
`b2` compare byte-wise in the order of the buckets: the name of `b1` is less
than the name of `b2` exactly when `b1` is before `b2`. -/
theorem filename_round_trip (ns1 ns2 : Int) (b1 b2 : Time)
    (hb1 : b1 = Time.Truncate ⟨ns1, UTC⟩ (5 * Minute))
    (hb2 : b2 = Time.Truncate ⟨ns2, UTC⟩ (5 * Minute))
    (hy1 : 0 ≤ b1.civil.year ∧ b1.civil.year ≤ 9999)
    (hy2 : 0 ≤ b2.civil.year ∧ b2.civil.year ≤ 9999) :
    HasSuffix (csvName b1) ".csv" = true ∧
    csvFileTime (csvName b1) = some b1 ∧
    (textLt (csvName b1) (csvName b2) = true ↔ b1.unixNano < b2.unixNano) := by
  obtain ⟨u, hu⟩ := bucket_utc ns1
  obtain ⟨v, hv⟩ := bucket_utc ns2
  rw [hu] at hb1
  rw [hv] at hb2
  subst hb1 hb2
  have hrt := round_trip_utc u hy1
  refine ⟨hrt.1, hrt.2, ?_⟩
  have hpos : (0 : Int) < Second := by decide
  constructor
  · intro hlt
    show u * Second < v * Second
    by_contra hge
    have hvu : v ≤ u := by
      by_contra hlt2
      exact hge (mul_lt_mul_of_pos_right (not_le.mp hlt2) hpos)
    rcases hvu.lt_or_eq with h | h
    · have hrev := order_utc v u h hy2 hy1
      rw [textLt] at hlt hrev
      rw [textLtL_asymm _ _ hrev] at hlt
      exact Bool.noConfusion hlt
    · subst h
      rw [textLt, textLtL_irrefl] at hlt
      exact Bool.noConfusion hlt
  · intro hlt
    have huv : u < v := by
      by_contra hge
      have : v * Second ≤ u * Second := mul_le_mul_of_nonneg_right (not_lt.mp hge) hpos.le
      exact absurd hlt (not_lt.mpr this)
    exact order_utc u v huv hy1 hy2

theorem filename_round_trip_witness :
    csvFileTime (csvName (Time.Truncate ⟨t0730, UTC⟩ (5 * Minute)))
      = some (Time.Truncate ⟨t0730, UTC⟩ (5 * Minute)) ∧
    textLt (csvName (Time.Truncate ⟨t0730, UTC⟩ (5 * Minute)))
      (csvName (Time.Truncate ⟨t1230, UTC⟩ (5 * Minute))) = true :=
  ⟨(filename_round_trip t0730 t1230 _ _ rfl rfl (by decide) (by decide)).2.1,
    (filename_round_trip t0730 t1230 _ _ rfl rfl (by decide) (by decide)).2.2.mpr (by decide)⟩

/-! ## The periodic trigger (C12) -/

theorem apiVolumeEntry_eq (n : String) (d : JSON) :
    apiVolumeEntry n d = (volumeEntry n d).map pairVolume.forget := by
  unfold apiVolumeEntry volumeEntry
  cases d with
  | obj pairInfo =>
    simp only
    rcases hv : mapGet pairInfo "v" with _ | j
    · rfl
    cases j with
    | arr volumeData =>
      simp only
      by_cases hlen : volumeData.length > 1
      · simp only [hlen, if_true]
        rcases hg : volumeData.get? 1 with _ | e
        · rfl
        cases e with
        | str volume24h =>
          simp only
          rcases hp : ParseFloat volume24h with ⟨vol, _ | err⟩
          · rfl
          · rfl
        | null => rfl
        | bool _ => rfl
        | num _ => rfl
        | arr _ => rfl
        | obj _ => rfl
      · simp only [hlen, if_false]
        rfl
    | null => rfl
    | bool _ => rfl
    | num _ => rfl
    | str _ => rfl
    | obj _ => rfl
  | null => rfl
  | bool _ => rfl
  | num _ => rfl
  | str _ => rfl
  | arr _ => rfl

theorem csvVolumeEntry_eq (n : String) (d : JSON) :
    csvVolumeEntry n d = (volumeEntry n d).map pairVolume.forget := by
  unfold csvVolumeEntry volumeEntry
  cases d with
  | obj pairInfo =>
    simp only
    rcases hv : mapGet pairInfo "v" with _ | j
    · rfl
    cases j with
    | arr volumeData =>
      simp only
      by_cases hlen : volumeData.length > 1
      · simp only [hlen, if_true]
        rcases hg : volumeData.get? 1 with _ | e
        · rfl
        cases e with
        | str volume24h =>
          simp only
          rcases hp : ParseFloat volume24h with ⟨vol, _ | err⟩
          · rfl
          · rfl
        | null => rfl
        | bool _ => rfl
        | num _ => rfl
        | arr _ => rfl
        | obj _ => rfl
      · simp only [hlen, if_false]
        rfl
    | null => rfl
    | bool _ => rfl
    | num _ => rfl
    | str _ => rfl
    | obj _ => rfl
  | null => rfl
  | bool _ => rfl
  | num _ => rfl
  | str _ => rfl
  | arr _ => rfl

theorem insertBack_map {α β : Type} (f : α → β) (less : α → α → Bool) (less2 : β → β → Bool)
    (h : ∀ a b, less2 (f a) (f b) = less a b) (x : α) (l : List α) :
    insertBack less2 (f x) (l.map f) = (insertBack less x l).map f := by
  induction l with
  | nil => rfl
  | cons y r ih =>
    simp only [List.map_cons, insertBack, h]
    split
    · simp [ih]
    · simp

theorem sortSlice_map {α β : Type} (f : α → β) (less : α → α → Bool) (less2 : β → β → Bool)
    (h : ∀ a b, less2 (f a) (f b) = less a b) (l : List α) :
    sortSlice less2 (l.map f) = (sortSlice less l).map f := by
  have key : ∀ (xs acc : List α),
      (xs.map f).foldl (fun rev x => insertBack less2 x rev) (acc.map f)
        = (xs.foldl (fun rev x => insertBack less x rev) acc).map f := by
    intro xs
    induction xs with
    | nil => intro acc; rfl
    | cons x xs ih =>
      intro acc
      simp only [List.map_cons, List.foldl_cons]
      rw [insertBack_map f less less2 h, ih]
  unfold sortSlice
  have := key l []
  simp only [List.map_nil] at this
  rw [this, List.map_reverse]

theorem collectVolumes_names_nodup (pairs : List (String × JSON))
    (hkeys : (pairs.map Prod.fst).Nodup) :
    ((collectVolumes pairs).map (fun p => p.name)).Nodup := by
  induction pairs with
  | nil => simp [collectVolumes]
  | cons kv rest ih =>
    simp only [List.map_cons, List.nodup_cons] at hkeys
    unfold collectVolumes at ih ⊢
    rw [List.filterMap_cons]
    split
    · exact ih hkeys.2
    · rename_i e he
      simp only [List.map_cons, List.nodup_cons]
      refine ⟨?_, ih hkeys.2⟩
      intro hmem
      obtain ⟨e2, he2, hn⟩ := List.mem_map.mp hmem
      obtain ⟨d, hd, _⟩ := (mem_collectVolumes rest e2).mp he2
      obtain ⟨_, _, _, hee⟩ := (volumeEntry_eq_some_iff kv.1 kv.2 e).mp he
      apply hkeys.1
      have : e.name = kv.1 := by rw [hee]
      rw [← this, ← hn]
      exact List.mem_map.mpr ⟨(e2.name, d), hd, rfl⟩

theorem sortSlice_unique (l1 l2 : List pairVolume) (hperm : l1.Perm l2)
    (hnames : (l1.map (fun p => p.name)).Nodup)
    (hdist : ∀ a ∈ l1, ∀ b ∈ l1, a.name ≠ b.name →
      (a.volume.gt b.volume = true ∨ b.volume.gt a.volume = true)) :
    sortSlice volumeLess l1 = sortSlice volumeLess l2 := by
  -- on the entries of the list the comparison is the order of the keys
  have hless : ∀ a ∈ l1, ∀ b ∈ l1, volumeLess a b = decide (b.volume.key < a.volume.key) := by
    intro a ha b hb
    by_cases hn : a.name = b.name
    · have hab : a = b := by
        have hinj := List.inj_on_of_nodup_map hnames
        exact hinj ha hb hn
      subst hab
      simp [volumeLess, Float64.gt]
    · rcases hdist a ha b hb hn with h | h
      · simp only [Float64.gt, Bool.and_eq_true, Bool.not_eq_true', decide_eq_true_eq] at h
        simp [volumeLess, Float64.gt, h.1.1, h.1.2]
      · simp only [Float64.gt, Bool.and_eq_true, Bool.not_eq_true', decide_eq_true_eq] at h
        simp [volumeLess, Float64.gt, h.1.1, h.1.2]
  have hkeyne : ∀ a ∈ l1, ∀ b ∈ l1, a.name ≠ b.name → a.volume.key ≠ b.volume.key := by
    intro a ha b hb hn
    rcases hdist a ha b hb hn with h | h
    · simp only [Float64.gt, Bool.and_eq_true, Bool.not_eq_true', decide_eq_true_eq] at h
      omega
    · simp only [Float64.gt, Bool.and_eq_true, Bool.not_eq_true', decide_eq_true_eq] at h
      omega
  have strict : ∀ l : List pairVolume, l.Perm l1 →
      (sortSlice volumeLess l).Pairwise (fun a b => b.volume.key < a.volume.key) := by
    intro l hl
    have hs := sortSlice_sorted volumeLess (fun p => p.volume.key) l
      (fun a ha b hb => hless a (hl.mem_iff.mp ha) b (hl.mem_iff.mp hb))
    have hp : (sortSlice volumeLess l).Perm l1 := (sortSlice_perm volumeLess l).trans hl
    have hnd : ((sortSlice volumeLess l).map (fun p => p.name)).Nodup :=
      ((hp.map _).nodup_iff).mpr hnames
    have hnd2 : (sortSlice volumeLess l).Pairwise (fun a b => a.name ≠ b.name) :=
      (List.pairwise_map).mp hnd
    refine List.Pairwise.imp_of_mem ?_ (hs.and hnd2)
    intro a b ha hb hab
    have hne := hkeyne a (hp.mem_iff.mp ha) b (hp.mem_iff.mp hb) hab.2
    have hle : b.volume.key ≤ a.volume.key := hab.1
    omega
  have hs1 := strict l1 (List.Perm.refl _)
  have hs2 := strict l2 hperm.symm
  have hp : (sortSlice volumeLess l1).Perm (sortSlice volumeLess l2) :=
    ((sortSlice_perm volumeLess l1).trans hperm).trans (sortSlice_perm volumeLess l2).symm
  haveI : IsAntisymm pairVolume (fun a b => b.volume.key < a.volume.key) :=
    ⟨fun a b h1 h2 => absurd h1 (by omega)⟩
  exact List.eq_of_perm_of_sorted hp hs1 hs2

theorem csvTopPairs_eq_topPairs (pairs : List (String × JSON)) :
    csvTopPairs pairs = topPairs pairs := by
  unfold csvTopPairs topPairs selectTop rankedVolumes collectVolumes
  have h1 : pairs.filterMap (fun kv => csvVolumeEntry kv.1 kv.2)
      = (pairs.filterMap (fun kv => volumeEntry kv.1 kv.2)).map pairVolume.forget := by
    rw [List.map_filterMap]
    congr 1
    funext kv
    rw [csvVolumeEntry_eq]
  rw [h1, sortSlice_map pairVolume.forget volumeLess _ (fun a b => rfl), ← List.map_take,
    List.map_map]
  rfl

theorem apiRankedVolumes_eq (pairs : List (String × JSON)) :
    apiRankedVolumes pairs = (rankedVolumes pairs).map pairVolume.forget := by
  unfold apiRankedVolumes rankedVolumes collectVolumes
  have h1 : pairs.filterMap (fun kv => apiVolumeEntry kv.1 kv.2)
      = (pairs.filterMap (fun kv => volumeEntry kv.1 kv.2)).map pairVolume.forget := by
    rw [List.map_filterMap]
    congr 1
    funext kv
    rw [apiVolumeEntry_eq]
  rw [h1, sortSlice_map pairVolume.forget volumeLess _ (fun a b => rfl)]

theorem foldl_mapSet_fresh_keys {α β : Type} (key : α → String) (val : α → β) (rows : List α)
    (m : List (String × β)) (h : (m.map Prod.fst ++ rows.map key).Nodup) :
    (rows.foldl (fun result row => mapSet result (key row) (val row)) m).map Prod.fst
      = m.map Prod.fst ++ rows.map key := by
  induction rows generalizing m with
  | nil => simp
  | cons row rest ih =>
    simp only [List.foldl_cons, List.map_cons]
    have hk : key row ∉ m.map Prod.fst := by
      intro hmem
      rw [List.nodup_append] at h
      exact h.2.2 hmem (by simp)
    have hm1 : (mapSet m (key row) (val row)).map Prod.fst = m.map Prod.fst ++ [key row] := by
      rw [mapSet_keys, if_neg hk]
    rw [ih, hm1]
    · simp
    · rw [hm1]
      simpa using h

/-- C14 (the three copies of the ranking agree). Let `pairs1`, `pairs2`,
`pairs3` be one ticker map in the orders in which the `range` loops of
`SaveDataToDB`, `createCSV` and `GetTradingPairs` visit it. When any two
well-formed entries have volumes that `>` separates (numerically distinct, not
NaN), the names `createCSV` builds are the names `SaveDataToDB` iterates over,
in the same order; the keys of the map `GetTradingPairs` returns are the same
names; and its `count` is `min(10, number of well-formed entries)`. -/
theorem ranking_copies_agree (pairs1 pairs2 pairs3 : List (String × JSON))
    (h2 : pairs2.Perm pairs1) (h3 : pairs3.Perm pairs1)
    (hkeys : (pairs1.map Prod.fst).Nodup)
    (hdist : ∀ a ∈ collectVolumes pairs1, ∀ b ∈ collectVolumes pairs1, a.name ≠ b.name →
      (a.volume.gt b.volume = true ∨ b.volume.gt a.volume = true)) :
    csvTopPairs pairs2 = (selectTop pairs1).map (fun p => p.name) ∧
    (∀ k, k ∈ (GetTradingPairs pairs3).pairs.map Prod.fst ↔
      k ∈ (selectTop pairs1).map (fun p => p.name)) ∧
    ((GetTradingPairs pairs3).pairs.map Prod.fst).Nodup ∧
    (GetTradingPairs pairs3).count = min 10 (collectVolumes pairs1).length := by
  have hnames := collectVolumes_names_nodup pairs1 hkeys
  have hsel : ∀ pairs : List (String × JSON), pairs.Perm pairs1 →
      selectTop pairs = selectTop pairs1 := by
    intro pairs hp
    have hc : (collectVolumes pairs1).Perm (collectVolumes pairs) :=
      (hp.filterMap _).symm
    unfold selectTop rankedVolumes
    rw [sortSlice_unique (collectVolumes pairs1) (collectVolumes pairs) hc hnames hdist]
  have hselnd : ((selectTop pairs1).map (fun p => p.name)).Nodup := by
    have hsub : ((selectTop pairs1).map (fun p => p.name)).Sublist
        ((rankedVolumes pairs1).map (fun p => p.name)) :=
      (List.take_sublist 10 _).map _
    refine hsub.nodup ?_
    exact (((sortSlice_perm volumeLess (collectVolumes pairs1)).map _).nodup_iff).mpr hnames
  have hapi : (GetTradingPairs pairs3).pairs.map Prod.fst
      = (selectTop pairs1).map (fun p => p.name) := by
    have htake : ((apiRankedVolumes pairs3).take 10).map (fun p => p.name)
        = (selectTop pairs1).map (fun p => p.name) := by
      rw [apiRankedVolumes_eq, ← List.map_take, List.map_map, ← hsel pairs3 h3]
      rfl
    unfold GetTradingPairs
    simp only
    rw [foldl_mapSet_fresh_keys (fun pv : nameVolume => pv.name)
      (fun pv => (mapGet pairs3 pv.name).getD .null)]
    · simpa using htake
    · simpa [htake] using hselnd
  refine ⟨?_, ?_, ?_, ?_⟩
  · rw [csvTopPairs_eq_topPairs, topPairs, hsel pairs2 h2]
  · intro k
    rw [hapi]
  · rw [hapi]
    exact hselnd
  · have hlen : (GetTradingPairs pairs3).count
        = ((GetTradingPairs pairs3).pairs.map Prod.fst).length := by
      simp [GetTradingPairs]
    rw [hlen, hapi, List.length_map, selectTop, List.length_take, rankedVolumes,
      (sortSlice_perm volumeLess (collectVolumes pairs1)).length_eq]

/-- Witness for C14: three tickers with the volumes 3, 2, 1, visited in three
different orders by the three copies. -/
theorem ranking_copies_agree_witness :
    (selectTop [tickerC, tickerA, tickerB]).map (fun p => p.name)
      = ["AAAUSD", "BBBUSD", "CCCUSD"] ∧
    csvTopPairs [tickerA, tickerB, tickerC] = (selectTop [tickerC, tickerA, tickerB]).map
      (fun p => p.name) ∧
    (∀ k, k ∈ (GetTradingPairs [tickerB, tickerC, tickerA]).pairs.map Prod.fst ↔
      k ∈ (selectTop [tickerC, tickerA, tickerB]).map (fun p => p.name)) ∧
    (GetTradingPairs [tickerB, tickerC, tickerA]).count = 3 :=
  have h := ranking_copies_agree [tickerC, tickerA, tickerB] [tickerA, tickerB, tickerC]
    [tickerB, tickerC, tickerA]
    (@List.perm_append_comm _ [tickerA, tickerB] [tickerC])
    (@List.perm_append_comm _ [tickerB] [tickerC, tickerA])
    (by decide) (by decide)
  ⟨by decide, h.1, h.2.1, h.2.2.2⟩

end CryptoPrice
